import Mathlib

/-!
# srndv2: inbound NNTP sessions, the article store and the MIME reader

A shallow embedding of `src/srnd/nntp.go` (`HandleInbound`, `HandleOutbound`),
`src/srnd/store.go` (`articleStore`, `read_message`, `StorePost`),
`src/srnd/attachment.go`, the loops `polloutfeeds` and `pollmessages` and the dialer
`dialOut` of `src/srnd/daemon.go`, the frontends of `src/srnd/frontend.go` as far as
`pollmessages` calls them, and `formatline` of `src/srnd/markup.go`.

Conventions of the embedding:

* Go strings and byte slices are lists of characters, one element per byte (`Str`).
* The file system is an association list from paths to file contents (`FS`); the only
  failure of `os.Create` that is modelled is the empty path, which is the path the store
  hands out for a message ID its validator rejects.
* A TCP peer is the list of lines it will send; once the list is used up `ReadLine`
  returns the empty string, as it does in the source on every read error.
* Go standard library functions and the helpers of this repository that live outside
  `src/` are fields of `Lib`; the general theorems hold for every `Lib`, and the
  evaluations at concrete inputs use the instance `exampleLib`.
* Loops that need not terminate take a fuel argument and report `outOfFuel`.
* A channel is the list of the values sent on it, oldest first; a send appends. The
  goroutines StorePost starts are run one after the other where they are started.
* The methods of `nntpArticle` (message.go, outside `src/`) and the running of external
  commands are fields of `Deps`, with the instance `exampleDeps` for evaluations.
* A value of a Go interface is the record of its methods; a call that dereferences nil
  and a slice expression out of range are results of their own (`panic`, `none`).
* `strings.ToUpper` and `strings.ToLower` are the byte-wise maps Go applies to ASCII
  input.
-/

namespace Srnd

/-- Go strings and byte slices. -/
abbrev Str := List Char

/-- Contents of the file system: path and bytes of every regular file. -/
abbrev FS := List (Str × Str)

/-- A MIME or mail header block, in order of appearance. -/
abbrev Headers := List (Str × Str)

/-- Go error values. -/
abbrev Err := Str

/-- A multipart.Part as the multipart reader hands it over: its MIME header, the value
of part.FileName() and the bytes read from it up to its end (none: reading fails). -/
structure Part where
  Header : Headers
  FileName : Str
  body : Option Str
deriving DecidableEq, Repr

/-- What net/mail.ReadMessage returns, the body read in full; `Parts` and `PartsErr`
are what NextPart of a multipart.NewReader over the body yields for the boundary of the
Content-Type header: the parts in order, then io.EOF (none) or an error. -/
structure mailMessage where
  Header : Headers
  Body : Str
  Parts : List Part
  PartsErr : Option Err
deriving DecidableEq, Repr

/-- Functions used by the code whose bodies are not part of the embedded sources. -/
structure Lib where
  /-- ValidMessageID of this repository (util.go, not among the sources). -/
  ValidMessageID : Str → Bool
  /-- crypto/sha512.Sum512. -/
  sha512 : Str → Str
  /-- encoding/base32 StdEncoding.EncodeToString. -/
  base32 : Str → Str
  /-- Reading a base64.NewDecoder(StdEncoding, r) to its end; none is a decoding error. -/
  base64Decode : Str → Option Str
  /-- mime.ParseMediaType: the media type and its parameters, or an error. -/
  ParseMediaType : Str → Except Err (Str × List (Str × Str))
  /-- net/mail.ReadMessage on the bytes of a file. -/
  ReadMessage : Str → Except Err mailMessage
  /-- nntpArticle.ContentType of this repository (message.go, not among the sources). -/
  ContentType : Headers → Str
  /-- nntpArticle.Pubkey of this repository (message.go, not among the sources). -/
  Pubkey : Headers → Str
  /-- unhex of this repository (util.go, not among the sources). -/
  unhex : Str → Str
  /-- nacl.CryptoVerifyFucky hash sig pk. -/
  CryptoVerifyFucky : Str → Str → Str → Bool

/-! ## Strings and paths -/

/-- strings.Split(s, sep) for a one-byte separator: always at least one field. -/
def Split (sep : Char) : Str → List Str
  | [] => [[]]
  | c :: cs =>
    if c = sep then [] :: Split sep cs
    else
      match Split sep cs with
      | [] => [[c]]
      | w :: ws => (c :: w) :: ws

/-- strings.HasPrefix. -/
def HasPrefix (s p : Str) : Bool := p.isPrefixOf s

/-- strings.HasSuffix. -/
def HasSuffix (s p : Str) : Bool := p.isSuffixOf s

/-- strings.ToUpper on a string of ASCII bytes, where Go maps byte by byte. On other
input Go maps runes (U+017F to `S`), which this function does not follow: the theorems
that compare through it are stated for ASCII bytes. -/
def ToUpper (s : Str) : Str := s.map Char.toUpper

/-- strings.ToLower on a string of ASCII bytes, where Go maps byte by byte. On other
input Go maps runes (U+0130 to `i`), which this function does not follow: the theorems
that compare through it are stated for ASCII bytes. -/
def ToLower (s : Str) : Str := s.map Char.toLower

/-- Scan for strings.LastIndex: position counter and best match so far. -/
def lastIndexFrom (c : Char) : Str → Nat → Int → Int
  | [], _, best => best
  | x :: xs, i, best => lastIndexFrom c xs (i + 1) (if x = c then (i : Int) else best)

/-- strings.LastIndex(s, c) for a one-byte needle: -1 when c does not occur. -/
def LastIndex (s : Str) (c : Char) : Int := lastIndexFrom c s 0 (-1)

/-- One step of path/filepath.Clean over the components of a path, the output kept
as a stack (last component first). -/
def cleanStep (rooted : Bool) (out : List Str) (comp : Str) : List Str :=
  if comp = [] ∨ comp = ['.'] then out
  else if comp = ['.', '.'] then
    match out with
    | [] => if rooted then [] else [comp]
    | top :: below => if top = ['.', '.'] then comp :: top :: below else below
  else comp :: out

/-- path/filepath.Clean on a Unix path. -/
def Clean (p : Str) : Str :=
  let rooted := HasPrefix p ['/']
  let comps := ((Split '/' p).foldl (cleanStep rooted) []).reverse
  let body := List.intercalate ['/'] comps
  let r := if rooted then '/' :: body else body
  if r = [] then ['.'] else r

/-- path/filepath.Join of two elements: empty elements are ignored, the result is
cleaned, and it is empty when both elements are. -/
def Join (a b : Str) : Str :=
  if a ≠ [] then Clean (a ++ '/' :: b)
  else if b ≠ [] then Clean b
  else []

/-! ## Files -/

/-- Replace the contents of the file at a path. -/
def fsPut (fs : FS) (path content : Str) : FS :=
  (path, content) :: fs.filter (fun e => e.1 ≠ path)

/-- Contents of the file at a path, none when there is no such file. -/
def fsGet (fs : FS) (path : Str) : Option Str := fs.lookup path

/-- os.Create: truncates or creates the file and returns a handle (the path);
fails on the empty path. -/
def osCreate (fs : FS) (path : Str) : Option Str × FS :=
  if path = [] then (none, fs) else (some path, fsPut fs path [])

/-- Write on an open os.File: appends at the end of the file. -/
def fileWrite (fs : FS) (file : Str) (b : Str) : FS :=
  fsPut fs file ((fsGet fs file).getD [] ++ b)

/-- Modelled from the spec: CheckFile is in util.go, not among the sources; it is the
existence test behind has(msgid) and the "already have file" checks of the store. -/
def CheckFile (fs : FS) (path : Str) : Bool := (fsGet fs path).isSome

/-- Modelled from the spec: DelFile is in util.go, not among the sources; it removes
the temp file after parse-and-register. -/
def DelFile (fs : FS) (path : Str) : FS := fs.filter (fun e => e.1 ≠ path)

/-! ## store.go: articleStore -/

/-- The path fields of articleStore: its four directories and the three external
programs it runs for thumbnails. -/
structure articleStore where
  directory : Str
  temp : Str
  attachments : Str
  thumbs : Str
  convert_path : Str
  ffmpeg_path : Str
  sox_path : Str
deriving DecidableEq, Repr

/-- articleStore.GetFilename. -/
def articleStore.GetFilename (lib : Lib) (self : articleStore) (messageID : Str) : Str :=
  if !lib.ValidMessageID messageID then []
  else Join self.directory messageID

/-- articleStore.GetTempFilename. -/
def articleStore.GetTempFilename (lib : Lib) (self : articleStore) (messageID : Str) : Str :=
  if !lib.ValidMessageID messageID then []
  else Join self.temp messageID

/-- articleStore.CreateFile: the handle is none when os.Create fails. -/
def articleStore.CreateFile (lib : Lib) (self : articleStore) (fs : FS) (messageID : Str) :
    Option Str × FS :=
  let fname := self.GetFilename lib messageID
  osCreate fs fname

/-- articleStore.CreateTempFile: no handle when the temp file exists already. -/
def articleStore.CreateTempFile (lib : Lib) (self : articleStore) (fs : FS)
    (messageID : Str) : Option Str × FS :=
  let fname := self.GetTempFilename lib messageID
  if CheckFile fs fname then (none, fs)
  else osCreate fs fname

/-- articleStore.HasArticle. -/
def articleStore.HasArticle (lib : Lib) (self : articleStore) (fs : FS) (messageID : Str) :
    Bool :=
  CheckFile fs (self.GetFilename lib messageID)

/-! ## nntp.go: inbound sessions -/

/-- The fields of NNTPDaemon an inbound session reads. -/
structure NNTPDaemon where
  instance_name : Str
  store : articleStore
deriving DecidableEq, Repr

/-- Everything an inbound session reads or changes: `mode` is self.info.mode, `input`
the lines the peer sends that have not been read yet, `output` the lines written with
PrintfLine or through a DotWriter (oldest first), `fs` the file system and
`infeed_load` the contents of the channel d.infeed_load (oldest first). -/
structure Session where
  mode : Str
  input : List Str
  output : List Str
  fs : FS
  infeed_load : List Str
deriving DecidableEq, Repr

/-- What running a piece of the handler leads to. -/
inductive Outcome where
  /-- The handler goes on with the next iteration of its loop. -/
  | running (s : Session)
  /-- The handler left its loop and closed the connection. -/
  | closed (s : Session)
  /-- A method was called on a nil io.WriteCloser. -/
  | panic
  /-- A loop was cut off by the fuel bound. -/
  | outOfFuel
deriving DecidableEq, Repr

/-- NNTPConnection.ReadLine: the next line, or the empty string when reading fails. -/
def ReadLine (input : List Str) : Str × List Str :=
  match input with
  | [] => ([], [])
  | line :: rest => (line, rest)

/-- textproto PrintfLine: one more line on the wire. -/
def PrintfLine (s : Session) (line : Str) : Session :=
  { s with output := s.output ++ [line] }

/-- NNTPConnection.sendCapabilities, the DotWriter block ending in a lone dot. -/
def sendCapabilities (s : Session) : Session :=
  { s with output := s.output ++
      ["101 we can haz do things".toList, "VERSION 2".toList,
       "IMPLEMENTATION srndv2 better than SRNd".toList, "STREAMING".toList,
       "READER".toList, ".".toList] }

/-- Result of the loop that reads the body of a TAKETHIS. -/
inductive BodyResult where
  /-- The loop ended at a lone dot: the input left and the file system. -/
  | done (input : List Str) (fs : FS)
  /-- Write was called on a nil file. -/
  | panic
  /-- The loop was cut off by the fuel bound. -/
  | outOfFuel
deriving DecidableEq, Repr

/-- The body loop of TAKETHIS (nntp.go lines 222-237). `rewrote_path` is the local
flag of the source; no statement of the loop assigns it. -/
def takethisLoop (d : NNTPDaemon) (file : Option Str) :
    Nat → Bool → List Str → FS → BodyResult
  | 0, _, _, _ => BodyResult.outOfFuel
  | fuel + 1, rewrote_path, input, fs =>
    let (line0, rest) := ReadLine input
    let line :=
      if !rewrote_path && HasPrefix line0 "Path: ".toList then
        "Path: ".toList ++ d.instance_name ++ "!".toList ++ line0.drop 6
      else line0
    if line = ".".toList then BodyResult.done rest fs
    else
      match file with
      | none => BodyResult.panic
      | some f =>
        takethisLoop d file fuel rewrote_path rest
          (fileWrite (fileWrite fs f line) f "\n".toList)

/-- The TAKETHIS block of the stream branch (nntp.go lines 216-248). -/
def handleTAKETHIS (lib : Lib) (d : NNTPDaemon) (fuel : Nat) (commands : List Str)
    (s : Session) : Outcome :=
  if commands.headD [] = "TAKETHIS".toList then
    if commands.length = 2 then
      let article := commands.getD 1 []
      if lib.ValidMessageID article then
        let (file, fs1) := d.store.CreateFile lib s.fs article
        match takethisLoop d file fuel false s.input fs1 with
        | BodyResult.done rest fs2 =>
          match file with
          | none => Outcome.panic
          | some _ =>
            let s1 := PrintfLine { s with input := rest, fs := fs2 }
              ("239 ".toList ++ article)
            Outcome.running { s1 with infeed_load := s1.infeed_load ++ [article] }
        | BodyResult.panic => Outcome.panic
        | BodyResult.outOfFuel => Outcome.outOfFuel
      else Outcome.running s
    else Outcome.running s
  else Outcome.running s

/-- The CHECK block of the stream branch (nntp.go lines 250-270). -/
def handleCHECK (lib : Lib) (d : NNTPDaemon) (commands : List Str) (s : Session) :
    Session :=
  if commands.headD [] = "CHECK".toList then
    if commands.length = 2 then
      let article := commands.getD 1 []
      if !lib.ValidMessageID article then
        PrintfLine s "501 bad message id".toList
      else if d.store.HasArticle lib s.fs article then
        PrintfLine s ("438 ".toList ++ article ++ " we have this article".toList)
      else
        PrintfLine s
          ("238 ".toList ++ article ++ " we want this article please give it".toList)
    else s
  else s

/-- The MODE block (nntp.go lines 190-214): the new mode, the code and the message. -/
def handleMODE (commands : List Str) (s : Session) : Session :=
  let r : Session × Nat × Str :=
    if commands.length = 2 then
      let mode := ToUpper (commands.getD 1 [])
      if mode = "READER".toList then
        ({ s with mode := "reader".toList }, 201, "posting disallowed".toList)
      else if mode = "STREAM".toList then
        ({ s with mode := "stream".toList }, 203, "stream it".toList)
      else (s, 501, "mode not implemented".toList)
    else (s, 500, "syntax error".toList)
  PrintfLine r.1 ((Nat.repr r.2.1).toList ++ " ".toList ++ r.2.2)

/-- One iteration of the loop of HandleInbound after a non-empty line was read
(nntp.go lines 183-271). -/
def handleLine (lib : Lib) (d : NNTPDaemon) (fuel : Nat) (line : Str) (s : Session) :
    Outcome :=
  let commands := Split ' ' line
  let cmd := commands.headD []
  if cmd = "CAPABILITIES".toList then Outcome.running (sendCapabilities s)
  else if cmd = "MODE".toList then Outcome.running (handleMODE commands s)
  else if s.mode = "stream".toList then
    match handleTAKETHIS lib d fuel commands s with
    | Outcome.running s1 => Outcome.running (handleCHECK lib d commands s1)
    | o => o
  else Outcome.running s

/-- The loop of HandleInbound (nntp.go lines 172-273): at most `fuel` iterations,
each inner body loop bounded by `fuel` as well. -/
def inboundLoop (lib : Lib) (d : NNTPDaemon) (fuel : Nat) : Nat → Session → Outcome
  | 0, _ => Outcome.outOfFuel
  | n + 1, s =>
    let (line, rest) := ReadLine s.input
    if line.length = 0 then Outcome.closed { s with input := rest }
    else
      match handleLine lib d fuel line { s with input := rest } with
      | Outcome.running s1 => inboundLoop lib d fuel n s1
      | o => o

/-- NNTPConnection.HandleInbound: sets the mode, greets, then runs the loop. -/
def HandleInbound (lib : Lib) (d : NNTPDaemon) (fuel : Nat) (s : Session) : Outcome :=
  inboundLoop lib d fuel fuel
    (PrintfLine { s with mode := "STREAM".toList }
      "200 2nd generation overchan NNTP Daemon".toList)

/-! ## attachment.go -/

/-- The struct nntpAttachment; `body` is the content of its bytes.Buffer. -/
structure nntpAttachment where
  ext : Str
  mime : Str
  filename : Str
  filepath : Str
  hash : Str
  header : Headers
  body : Str
deriving DecidableEq, Repr

/-- textproto.MIMEHeader.Get: the first value of the key, empty when there is none. -/
def hdrGet (h : Headers) (key : Str) : Str := (h.lookup key).getD []

/-- nntpAttachment.Hash: computes and caches the digest when none is cached. -/
def nntpAttachment.Hash (lib : Lib) (self : nntpAttachment) : Str × nntpAttachment :=
  if self.hash.length = 0 then
    let h := lib.sha512 self.body
    (h, { self with hash := h })
  else (self.hash, self)

/-- createPlaintextAttachment. -/
def createPlaintextAttachment (msg : Str) : nntpAttachment :=
  let mime := "text/plain; charset=UTF-8".toList
  { ext := ".txt".toList, mime := mime, filename := [], filepath := [], hash := [],
    header := [("Content-Type".toList, mime)], body := msg }

/-- createAttachment: none stands for the nil it returns on an error. -/
def createAttachment (lib : Lib) (content_type fname body : Str) : Option nntpAttachment :=
  match lib.ParseMediaType content_type with
  | Except.ok (media_type, _) =>
    match lib.base64Decode body with
    | some decoded =>
      let mime := media_type ++ "; charset=UTF-8".toList
      let idx := LastIndex fname '.'
      let ext := if idx > 0 then fname.drop idx.toNat else ".txt".toList
      let h := lib.sha512 decoded
      let hashstr := lib.base32 h
      some
        { ext := ext, mime := mime, filename := fname, filepath := hashstr ++ ext, hash := h,
          header :=
            [("Content-Disposition".toList,
                "form-data; filename=\"".toList ++ fname ++ "\"; name=\"attachment\"".toList),
             ("Content-Type".toList, mime),
             ("Content-Transfer-Encoding".toList, "base64".toList)],
          body := decoded }
    | none => none
  | Except.error _ => none

/-- readAttachmentFromMimePart: none stands for the nil it returns on an error. -/
def readAttachmentFromMimePart (lib : Lib) (part : Part) : Option nntpAttachment :=
  let hdr := part.Header
  let content_type := hdrGet hdr "Content-Type".toList
  let media_type :=
    match lib.ParseMediaType content_type with
    | Except.ok (m, _) => m
    | Except.error _ => []
  let fname := part.FileName
  let idx := LastIndex fname '.'
  let ext := if idx > 0 then fname.drop idx.toNat else ".txt".toList
  let transfer_encoding := hdrGet hdr "Content-Transfer-Encoding".toList
  let buff : Option Str :=
    if transfer_encoding = "base64".toList then part.body.bind lib.base64Decode
    else part.body
  match buff with
  | none => none
  | some b =>
    let sha := lib.sha512 b
    let hashstr := lib.base32 sha
    let fpath := hashstr ++ ext
    some
      { body := b, header := hdr, mime := media_type, filename := fname, filepath := fpath,
        ext := ext, hash := sha }

/-! ## store.go: read_message -/

/-- The struct nntpArticle (message.go, not among the sources) as far as read_message
fills it in. -/
structure nntpArticle where
  headers : Headers
  message : Option nntpAttachment
  attachments : List nntpAttachment
  signedPart : Option nntpAttachment
deriving DecidableEq, Repr

/-- Modelled from the spec: nntpArticle.Attach is in message.go, not among the sources;
a part that is not the body becomes an attachment, the order of the parts preserved. -/
def nntpArticle.Attach (self : nntpArticle) (att : nntpAttachment) : nntpArticle :=
  { self with attachments := self.attachments ++ [att] }

/-- Modelled from the spec: ArticleHeaders.Get is in message.go, not among the sources;
the first value of a header, or the fallback when the header is absent. -/
def headersGet (h : Headers) (key fallback : Str) : Str := (h.lookup key).getD fallback

/-- bufio.Reader.ReadBytes on a buffer: the bytes up to and including the first
delimiter, whether the buffer ended before one was found (io.EOF), and the rest. -/
def ReadBytes (delim : Char) : Str → Str × Bool × Str
  | [] => ([], true, [])
  | c :: cs =>
    if c = delim then ([c], false, cs)
    else
      let r := ReadBytes delim cs
      (c :: r.1, r.2.1, r.2.2)

/-- The loop of read_message over the lines after the first (store.go lines 445-452):
the bytes written to the hash so far. Every turn that does not break consumes at least
one byte, so a fuel of the buffer length plus one is never used up. -/
def signedLoop : Nat → Str → Str → Str
  | 0, _, h => h
  | fuel + 1, buff, h =>
    match ReadBytes '\n' buff with
    | (_, true, _) => h
    | (line, false, rest) =>
      signedLoop fuel rest (h ++ ['\r', '\n'] ++ line.dropLast)

/-- The loop of read_message over the parts of a multipart body
(store.go lines 383-414), up to the error or io.EOF that ends it. -/
def readParts (lib : Lib) : List Part → nntpArticle → nntpArticle
  | [], nntp => nntp
  | part :: rest, nntp =>
    let hdr := part.Header
    let part_type := hdrGet hdr "Content-Type".toList
    match lib.ParseMediaType part_type with
    | Except.ok (media_type, _) =>
      if media_type = "text/plain".toList then
        match readAttachmentFromMimePart lib part with
        | some att => readParts lib rest { nntp with message := some att }
        | none => readParts lib rest nntp
      else
        match readAttachmentFromMimePart lib part with
        | some att => readParts lib rest (nntp.Attach att)
        | none => readParts lib rest nntp
    | Except.error _ => readParts lib rest nntp

/-- The function read_message applied to what mail.ReadMessage returned: the article
(none for nil) and the error (none for nil). -/
def read_message (lib : Lib) (r : Except Err mailMessage) :
    Option nntpArticle × Option Err :=
  match r with
  | Except.error err => (none, some err)
  | Except.ok msg =>
    let nntp : nntpArticle :=
      { headers := msg.Header, message := none, attachments := [], signedPart := none }
    let content_type := lib.ContentType nntp.headers
    match lib.ParseMediaType content_type with
    | Except.error err => (none, some err)
    | Except.ok (media_type, params) =>
      match params.lookup "boundary".toList with
      | some _ =>
        let nntp1 := readParts lib msg.Parts nntp
        match msg.PartsErr with
        | none => (some nntp1, none)
        | some err => (none, some err)
      | none =>
        if media_type = "message/rfc822".toList then
          let sig := headersGet nntp.headers "X-Signature-Ed25519-Sha512".toList []
          let pk := lib.Pubkey nntp.headers
          if pk = [] ∨ sig = [] then (none, some "invalid headers".toList)
          else
            let pk_bytes := lib.unhex pk
            let sig_bytes := lib.unhex sig
            let signed_body := msg.Body
            let signedPart : nntpAttachment :=
              { ext := [], mime := [], filename := [], filepath := [], hash := [],
                header := [], body := signed_body }
            let nntp1 : nntpArticle := { nntp with signedPart := some signedPart }
            let buff := msg.Body
            match ReadBytes '\n' buff with
            | (_, true, _) => (none, some "EOF".toList)
            | (line, false, rest) =>
              let h := signedLoop (rest.length + 1) rest line.dropLast
              let hash := lib.sha512 h
              if lib.CryptoVerifyFucky hash sig_bytes pk_bytes then (some nntp1, none)
              else (some nntp1, none)
        else
          (some { nntp with message := some (createPlaintextAttachment msg.Body) }, none)

/-- articleStore.readfile: nil when the file cannot be opened or read_message fails. -/
def articleStore.readfile (lib : Lib) (fs : FS) (fname : Str) : Option nntpArticle :=
  match fsGet fs fname with
  | none => none
  | some raw =>
    match read_message lib (lib.ReadMessage raw) with
    | (message, none) => message
    | (_, some _) => none

/-- articleStore.ReadTempMessage: reads the temp file of the ID, then deletes it. -/
def articleStore.ReadTempMessage (lib : Lib) (self : articleStore) (fs : FS)
    (messageID : Str) : Option nntpArticle × FS :=
  let fname := self.GetTempFilename lib messageID
  let nntp := articleStore.readfile lib fs fname
  (nntp, DelFile fs fname)

/-- articleStore.GetMessage. -/
def articleStore.GetMessage (lib : Lib) (self : articleStore) (fs : FS) (messageID : Str) :
    Option nntpArticle :=
  articleStore.readfile lib fs (self.GetFilename lib messageID)

/-! ## Notions used in the statements -/

/-- The rewrite the body loop applies to a line while its flag is false. -/
def pathRewrite (d : NNTPDaemon) (line : Str) : Str :=
  if HasPrefix line "Path: ".toList then
    "Path: ".toList ++ d.instance_name ++ "!".toList ++ line.drop 6
  else line

/-- The decoded content of a part: base64-decoded when its Content-Transfer-Encoding
is base64, the raw bytes of the part otherwise; none when reading or decoding fails. -/
def decodedContent (lib : Lib) (part : Part) : Option Str :=
  if hdrGet part.Header "Content-Transfer-Encoding".toList = "base64".toList then
    part.body.bind lib.base64Decode
  else part.body

/-- An attachment with decoded content B: read from a MIME part whose decoded content
is B, or built by createAttachment from a body that decodes to B. -/
def builtFrom (lib : Lib) (a : nntpAttachment) (B : Str) : Prop :=
  (∃ part, decodedContent lib part = some B ∧ readAttachmentFromMimePart lib part = some a) ∨
  (∃ ct fname body, lib.base64Decode body = some B ∧
    createAttachment lib ct fname body = some a)

/-- An attachment made for a file name by either constructor. -/
def builtForName (lib : Lib) (a : nntpAttachment) (fname : Str) : Prop :=
  (∃ part, part.FileName = fname ∧ readAttachmentFromMimePart lib part = some a) ∨
  (∃ ct body, createAttachment lib ct fname body = some a)

/-- The media type read_message finds for a part, none when its Content-Type does
not parse. -/
def partMediaType (lib : Lib) (p : Part) : Option Str :=
  match lib.ParseMediaType (hdrGet p.Header "Content-Type".toList) with
  | Except.ok (m, _) => some m
  | Except.error _ => none

/-- The attachments read from the text/plain parts, in part order. -/
def plainAttachments (lib : Lib) (ps : List Part) : List nntpAttachment :=
  ps.filterMap (fun p =>
    if partMediaType lib p = some "text/plain".toList then readAttachmentFromMimePart lib p
    else none)

/-- The attachments read from the parts of any other media type, in part order. -/
def otherAttachments (lib : Lib) (ps : List Part) : List nntpAttachment :=
  ps.filterMap (fun p =>
    match partMediaType lib p with
    | some m => if m = "text/plain".toList then none else readAttachmentFromMimePart lib p
    | none => none)

/-- The article read_message starts from: the headers of the message and nothing else. -/
def emptyArticle (msg : mailMessage) : nntpArticle :=
  { headers := msg.Header, message := none, attachments := [], signedPart := none }

/-- The attachment read_message keeps for the body of a signed envelope. -/
def signedAttachment (msg : mailMessage) : nntpAttachment :=
  { ext := [], mime := [], filename := [], filepath := [], hash := [], header := [],
    body := msg.Body }

/-! ## A concrete instance for running the embedding on examples -/

/-- Whether two consecutive dots occur. -/
def hasDotDot : Str → Bool
  | [] => false
  | c :: cs => (c = '.' && cs.head? = some '.') || hasDotDot cs

/-- Modelled from the spec: ValidMessageID is in util.go, not among the sources. A
message ID is non-empty, begins with < and ends with >, contains @, has no whitespace
or control byte, is at most 250 bytes long, and contains no slash, backslash, two
consecutive dots or NUL. -/
def ValidMessageID (id : Str) : Bool :=
  id.head? = some '<' && id.getLast? = some '>' && id.contains '@' &&
  id.all (fun c => decide (32 < c.toNat) && decide (c.toNat ≠ 127)) &&
  decide (id.length ≤ 250) &&
  !id.contains '/' && !id.contains (Char.ofNat 92) && !hasDotDot id

/-- One parameter of a media type for the example instance: name and value. -/
def exampleParam (piece : Str) : Str × Str :=
  let p := piece.dropWhile (fun c => c = ' ')
  (ToLower (p.takeWhile (fun c => c ≠ '=')), (p.dropWhile (fun c => c ≠ '=')).drop 1)

/-- A small media type parser for the example instance: the text before the first
semicolon in lower case, then one parameter per further semicolon. -/
def exampleParseMediaType (v : Str) : Except Err (Str × List (Str × Str)) :=
  match Split ';' v with
  | [] => Except.error "mime: no media type".toList
  | t :: ps =>
    if t = [] then Except.error "mime: no media type".toList
    else Except.ok (ToLower t, ps.map exampleParam)

/-- Header lines up to the first empty line, and the lines after it. -/
def exampleHeaders : List Str → Headers × List Str
  | [] => ([], [])
  | l :: ls =>
    if l = [] then ([], ls)
    else
      let r := exampleHeaders ls
      ((l.takeWhile (fun c => c ≠ ':'), (l.dropWhile (fun c => c ≠ ':')).drop 2) :: r.1, r.2)

/-- A small mail reader for the example instance; its messages have no MIME parts. -/
def exampleReadMessage (raw : Str) : Except Err mailMessage :=
  let r := exampleHeaders (Split '\n' raw)
  if r.1 = [] then Except.error "malformed header".toList
  else Except.ok
    { Header := r.1, Body := List.intercalate ['\n'] r.2, Parts := [], PartsErr := none }

/-- A concrete Lib used only to evaluate the embedding on examples: the identity
stands in for the digest and for the base32 and base64 codecs, and a signature
verifies when it is the public key followed by the hash. -/
def exampleLib : Lib :=
  { ValidMessageID := ValidMessageID
    sha512 := fun b => b
    base32 := fun b => b
    base64Decode := fun b => some b
    ParseMediaType := exampleParseMediaType
    ReadMessage := exampleReadMessage
    ContentType := fun h => headersGet h "Content-Type".toList "text/plain".toList
    Pubkey := fun h => headersGet h "X-PubKey-Ed25519".toList []
    unhex := fun b => b
    CryptoVerifyFucky := fun hash sig pk => decide (sig = pk ++ hash) }

/-- The daemon of the examples: instance name and store directories. -/
def exampleDaemon : NNTPDaemon :=
  { instance_name := "inst".toList
    store :=
      { directory := "store".toList, temp := "incoming".toList,
        attachments := "attachments".toList, thumbs := "thumbs".toList,
        convert_path := "/usr/bin/convert".toList,
        ffmpeg_path := "/usr/bin/ffmpeg".toList,
        sox_path := "/usr/bin/sox".toList } }

/-- A session in stream mode with nothing sent yet, for the examples. -/
def exampleSession (input : List Str) (fs : FS) : Session :=
  { mode := "stream".toList, input := input, output := [], fs := fs, infeed_load := [] }

/-- A part of the examples: Content-Type, file name and content. -/
def examplePart (ctype fname content : Str) : Part :=
  { Header := [("Content-Type".toList, ctype)], FileName := fname, body := some content }

/-- A multipart message of the examples with two text/plain parts. -/
def exampleTwoPlain : mailMessage :=
  { Header := [("Content-Type".toList, "multipart/mixed; boundary=xx".toList)]
    Body := ("--xx\r\nContent-Type: text/plain\r\n\r\nfirst\r\n" ++
      "--xx\r\nContent-Type: text/plain\r\n\r\nsecond\r\n--xx--\r\n").toList
    Parts := [examplePart "text/plain".toList [] "first".toList,
              examplePart "text/plain".toList [] "second".toList]
    PartsErr := none }

/-- A message of the examples whose media type is text/plain and whose Content-Type
carries a boundary parameter. -/
def examplePlainWithBoundary : mailMessage :=
  { Header := [("Content-Type".toList, "text/plain; boundary=xx".toList)]
    Body := "--xx\r\nContent-Type: image/png\r\n\r\nabc\r\n--xx--\r\n".toList
    Parts := [examplePart "image/png".toList "cat.png".toList "abc".toList]
    PartsErr := none }

/-- A message of the examples whose media type is multipart/mixed without a boundary. -/
def exampleMultipartNoBoundary : mailMessage :=
  { Header := [("Content-Type".toList, "multipart/mixed".toList)]
    Body := "hello\n".toList
    Parts := []
    PartsErr := none }

/-- A part of the examples sent with Content-Transfer-Encoding base64. -/
def exampleBase64Part : Part :=
  { Header := [("Content-Type".toList, "image/png".toList),
               ("Content-Transfer-Encoding".toList, "base64".toList)]
    FileName := "cat.png".toList
    body := some "YWJj".toList }

/-- The attachment read from exampleBase64Part under exampleLib. -/
def exampleCatAttachment : nntpAttachment :=
  { ext := ".png".toList, mime := "image/png".toList, filename := "cat.png".toList,
    filepath := "YWJj.png".toList, hash := "YWJj".toList,
    header := [("Content-Type".toList, "image/png".toList),
               ("Content-Transfer-Encoding".toList, "base64".toList)],
    body := "YWJj".toList }

/-! ## store.go: the hash input of a signed envelope -/

/-- The bytes read_message writes to the hash for a signed body (store.go lines
438-453): none when the first ReadBytes ends in io.EOF, which makes read_message
return that error. -/
def signedHashInput (buff : Str) : Option Str :=
  match ReadBytes '\n' buff with
  | (_, true, _) => none
  | (line, false, rest) => some (signedLoop (rest.length + 1) rest line.dropLast)

/-- The contents of the newline-terminated lines of a buffer, in order. -/
def terminatedLines (s : Str) : List Str := (Split '\n' s).dropLast

/-- The first line followed, for each subsequent line, by CR LF and the line. -/
def joinCRLF : List Str → Str
  | [] => []
  | l :: ls => l ++ (ls.map (fun x => ['\r', '\n'] ++ x)).flatten

/-- All lines of a body as the claim counts them: the newline-terminated lines and a
final line without a trailing newline, when there is one. -/
def allLines (s : Str) : List Str :=
  if (Split '\n' s).getLast? = some [] then (Split '\n' s).dropLast else Split '\n' s

/-- The article read_message returns for a signed envelope it accepts. -/
def signedEnvelope (msg : mailMessage) : nntpArticle :=
  { emptyArticle msg with signedPart := some (signedAttachment msg) }

/-! ## store.go: StorePost -/

/-- The methods of nntpArticle that StorePost calls (message.go, not among the
sources), and the running of an external command. -/
structure Deps where
  /-- nntpArticle.MessageID. -/
  MessageID : nntpArticle → Str
  /-- nntpArticle.Signed: the inner article, none for nil. -/
  Signed : nntpArticle → Option nntpArticle
  /-- nntpArticle.WriteTo with a line delimiter: the bytes it writes and its error. -/
  WriteTo : nntpArticle → Str → Str × Option Err
  /-- exec.Cmd.CombinedOutput for an argument vector: its effect on the file system and
  its error. -/
  CombinedOutput : List Str → FS → FS × Option Err

/-- A call made on the Database of the store. -/
inductive DbCall where
  | RegisterArticle (nntp : nntpArticle)
  | RegisterSigned (msgid pubkey : Str)
deriving DecidableEq, Repr

/-- What StorePost changes: the file system and the calls made on self.database,
oldest first. -/
structure StoreWorld where
  fs : FS
  db : List DbCall
deriving DecidableEq, Repr

/-- nntpAttachment.NeedsThumbnail. -/
def nntpAttachment.NeedsThumbnail (self : nntpAttachment) : Bool :=
  ([".png", ".jpeg", ".jpg", ".gif", ".bmp", ".webm", ".mp4", ".avi", ".mpeg", ".mpg",
    ".ogg", ".mp3", ".oga", ".opus", ".flac", ".ico"].map String.toList).any
    (fun ext => decide (ext = ToLower self.ext))

/-- articleStore.isAudio. -/
def articleStore.isAudio (fname : Str) : Bool :=
  ([".mp3", ".ogg", ".oga", ".opus", ".flac", ".m4a"].map String.toList).any
    (fun ext => HasSuffix (ToLower fname) ext)

/-- articleStore.isImage. -/
def articleStore.isImage (fname : Str) : Bool :=
  ([".gif", ".ico", ".png", ".jpeg", ".jpg", ".png", ".webp"].map String.toList).any
    (fun ext => HasSuffix (ToLower fname) ext)

/-- articleStore.AttachmentFilepath. -/
def articleStore.AttachmentFilepath (self : articleStore) (fname : Str) : Str :=
  Join self.attachments fname

/-- articleStore.ThumbnailFilepath. -/
def articleStore.ThumbnailFilepath (self : articleStore) (fname : Str) : Str :=
  if HasSuffix fname ".gif".toList then Join self.thumbs fname
  else Join self.thumbs (fname ++ ".jpg".toList)

/-- articleStore.GenerateThumbnail: the command lines it runs, by kind of file. -/
def articleStore.GenerateThumbnail (deps : Deps) (self : articleStore) (fs : FS)
    (fname : Str) : FS × Option Err :=
  let outfname := self.ThumbnailFilepath fname
  let infname := self.AttachmentFilepath fname
  if articleStore.isImage fname then
    deps.CombinedOutput
      [self.convert_path, "-thumbnail".toList, "200".toList, infname, outfname] fs
  else if articleStore.isAudio fname then
    let tmpfname := infname ++ ".wav".toList
    let r1 := deps.CombinedOutput [self.ffmpeg_path, "-i".toList, infname, tmpfname] fs
    let r2 :=
      match r1.2 with
      | none =>
        deps.CombinedOutput
          ([self.sox_path, tmpfname] ++
            (["-n", "spectrogram", "-a", "-d", "0:30", "-r", "-p", "6", "-x", "200", "-y",
              "150", "-o"].map String.toList) ++ [outfname]) r1.1
      | some err => (r1.1, some err)
    (DelFile r2.1 tmpfname, r2.2)
  else
    deps.CombinedOutput
      ([self.ffmpeg_path, "-i".toList, infname] ++
        (["-vf", "scale=300:200", "-vframes", "1"].map String.toList) ++ [outfname]) fs

/-- articleStore.saveAttachment: the file system afterwards and the attachment, whose
buffer io.Copy has drained when the file was written (io.Copy calls the WriteTo of the
attachment, which is bytes.Buffer.WriteTo on its body). -/
def articleStore.saveAttachment (deps : Deps) (self : articleStore) (fs : FS)
    (att : nntpAttachment) : FS × nntpAttachment :=
  let fpath := att.filepath
  let upload := self.AttachmentFilepath fpath
  let thumb := self.ThumbnailFilepath fpath
  if CheckFile fs upload then
    if !CheckFile fs thumb && att.NeedsThumbnail then
      ((self.GenerateThumbnail deps fs fpath).1, att)
    else (fs, att)
  else
    match osCreate fs upload with
    | (none, fs1) => (fs1, att)
    | (some f, fs1) =>
      let fs2 := fileWrite fs1 f att.body
      let att1 := { att with body := [] }
      if att.NeedsThumbnail then ((self.GenerateThumbnail deps fs2 fpath).1, att1)
      else (fs2, att1)

/-- The goroutines StorePost starts for a list of attachments, run one after the other
in the order they were started. -/
def articleStore.saveAttachments (deps : Deps) (self : articleStore) :
    FS → List nntpAttachment → FS × List nntpAttachment
  | fs, [] => (fs, [])
  | fs, att :: rest =>
    let r := self.saveAttachment deps fs att
    let rs := articleStore.saveAttachments deps self r.1 rest
    (rs.1, r.2 :: rs.2)

/-- articleStore.StorePost: the world afterwards, the article as the call leaves it and
the error returned. -/
def articleStore.StorePost (lib : Lib) (deps : Deps) (self : articleStore) (w : StoreWorld)
    (nntp : nntpArticle) : StoreWorld × nntpArticle × Option Err :=
  let f := self.CreateFile lib w.fs (deps.MessageID nntp)
  let written : FS × Option Err :=
    match f.1 with
    | some file =>
      let r := deps.WriteTo nntp "\n".toList
      (fileWrite f.2 file r.1, r.2)
    | none => (f.2, none)
  match deps.Signed nntp with
  | none =>
    let db1 := w.db ++ [DbCall.RegisterArticle nntp]
    let saved := articleStore.saveAttachments deps self written.1 nntp.attachments
    ({ fs := saved.1, db := db1 }, { nntp with attachments := saved.2 }, written.2)
  | some nntp_inner =>
    let db1 := w.db ++ [DbCall.RegisterArticle nntp_inner,
      DbCall.RegisterSigned (deps.MessageID nntp) (lib.Pubkey nntp.headers)]
    let saved := articleStore.saveAttachments deps self written.1 nntp_inner.attachments
    ({ fs := saved.1, db := db1 }, nntp, written.2)

/-! ## Example instances for StorePost -/

/-- Modelled from the spec: the serialisation of an article is in message.go, not among
the sources. The headers, an empty line, then the signed part when there is one, else
the plaintext body followed by every attachment under a line naming its file. -/
def exampleWriteTo (nntp : nntpArticle) (delim : Str) : Str × Option Err :=
  let hdrs := (nntp.headers.map (fun h => h.1 ++ ": ".toList ++ h.2 ++ delim)).flatten
  let body :=
    match nntp.signedPart with
    | some part => part.body
    | none =>
      (match nntp.message with
        | some m => m.body
        | none => []) ++
      (nntp.attachments.map
        (fun a => "--".toList ++ a.filename ++ delim ++ a.body ++ delim)).flatten
  (hdrs ++ delim ++ body, none)

/-- Modelled from the spec: nntpArticle.Signed is in message.go, not among the sources;
the signed view is the inner message parsed from the signed part, null without one. -/
def exampleSigned (nntp : nntpArticle) : Option nntpArticle :=
  match nntp.signedPart with
  | some part => (read_message exampleLib (exampleReadMessage part.body)).1
  | none => none

/-- A concrete Deps used only to evaluate the embedding on examples: the message ID is
the Message-ID header and an external command creates the file named by its last
argument. -/
def exampleDeps : Deps :=
  { MessageID := fun nntp => headersGet nntp.headers "Message-ID".toList []
    Signed := exampleSigned
    WriteTo := exampleWriteTo
    CombinedOutput := fun argv fs => (fsPut fs ((argv.getLast?).getD []) "thumbnail".toList, none) }

/-- A signed envelope of the examples: public key `k`, body of two lines and a
signature header to be filled in. -/
def exampleEnvelope (sig : Str) : mailMessage :=
  { Header := [("Message-ID".toList, "<m@x>".toList),
               ("Content-Type".toList, "message/rfc822".toList),
               ("X-PubKey-Ed25519".toList, "k".toList),
               ("X-Signature-Ed25519-Sha512".toList, sig)]
    Body := "Subject: hi\n\nhello\n".toList
    Parts := []
    PartsErr := none }

/-- An article of the examples with a plaintext body and one attachment. -/
def exampleArticleWithAttachment : nntpArticle :=
  { headers := [("Message-ID".toList, "<m@x>".toList),
                ("Content-Type".toList, "multipart/mixed; boundary=xx".toList)]
    message := some (createPlaintextAttachment "hello".toList)
    attachments := [exampleCatAttachment]
    signedPart := none }

/-- A directory given as a cleaned path other than the current directory and the
root, such as `store` or `/var/lib/srnd/store`. -/
def cleanDir (d : Str) : Prop := Clean d = d ∧ d ≠ ['.'] ∧ d ≠ ['/']

/-! ## daemon.go: polloutfeeds -/

/-- FeedPolicy (not among the sources) as far as the daemon uses it. -/
structure FeedPolicy where
  /-- FeedPolicy.AllowsNewsgroup. -/
  AllowsNewsgroup : Str → Bool

/-- The value nntpCHECK(msgid) sent on the channel `stream` of a feed. -/
structure nntpCHECK where
  msgid : Str
deriving DecidableEq, Repr

/-- The struct nntpConnection as daemon.go uses it; `stream` and `article` are the
contents of its two channels, oldest first. -/
structure nntpConnection where
  name : Str
  mode : Str
  policy : FeedPolicy
  stream : List nntpCHECK
  article : List Str

/-- ArticleEntry with its accessors MessageID and Newsgroup. -/
structure ArticleEntry where
  MessageID : Str
  Newsgroup : Str
deriving DecidableEq, Repr

/-- The map self.feeds: keys and values in some order. The loops over it send on the
channel of each feed only, so their outcome does not depend on the order Go picks. -/
abbrev feedTable := List (Str × nntpConnection)

/-- Assignment to a key of the map of feeds. -/
def feedTableSet (feeds : feedTable) (key : Str) (value : nntpConnection) : feedTable :=
  if feeds.any (fun e => e.1 = key) then
    feeds.map (fun e => if e.1 = key then (key, value) else e)
  else feeds ++ [(key, value)]

/-- What the select of polloutfeeds receives. -/
inductive outfeedEvent where
  | register_outfeed (outfeed : nntpConnection)
  | deregister_outfeed (outfeed : nntpConnection)
  | send_all_feeds (nntp : ArticleEntry)
  | ask_for_article (nntp : ArticleEntry)

/-- The loop over the feeds for an entry of send_all_feeds (daemon.go lines 366-375). -/
def federate (nntp : ArticleEntry) : feedTable → feedTable
  | [] => []
  | (key, feed) :: rest =>
    let feed1 :=
      if feed.policy.AllowsNewsgroup nntp.Newsgroup then
        if HasSuffix feed.name "-stream".toList then
          { feed with stream := feed.stream ++ [nntpCHECK.mk nntp.MessageID] }
        else feed
      else feed
    (key, feed1) :: federate nntp rest

/-- The loop over the feeds for an entry of ask_for_article (daemon.go lines 377-385). -/
def askFeeds (nntp : ArticleEntry) : feedTable → feedTable
  | [] => []
  | (key, feed) :: rest =>
    let feed1 :=
      if feed.policy.AllowsNewsgroup nntp.Newsgroup then
        if HasSuffix feed.name "-reader".toList then
          { feed with article := feed.article ++ [nntp.MessageID] }
        else feed
      else feed
    (key, feed1) :: askFeeds nntp rest

/-- One turn of the loop of polloutfeeds, for the event its select received. -/
def polloutfeeds (feeds : feedTable) : outfeedEvent → feedTable
  | outfeedEvent.register_outfeed outfeed => feedTableSet feeds outfeed.name outfeed
  | outfeedEvent.deregister_outfeed outfeed => feeds.filter (fun e => e.1 ≠ outfeed.name)
  | outfeedEvent.send_all_feeds nntp => federate nntp feeds
  | outfeedEvent.ask_for_article nntp => askFeeds nntp feeds

/-! ## nntp.go: outbound sessions -/

/-- The value of a string of decimal digits, none when it is empty or has another
byte. -/
def digitsValue : Str → Option Nat
  | [] => none
  | cs => if cs.all Char.isDigit then some (cs.foldl (fun n c => 10 * n + (c.toNat - 48)) 0)
          else none

/-- strconv.Atoi: the value and whether parsing succeeded; the value is 0 when it
failed. -/
def Atoi (s : Str) : Int × Bool :=
  match s with
  | '+' :: rest =>
    match digitsValue rest with
    | some n => ((n : Int), true)
    | none => (0, false)
  | '-' :: rest =>
    match digitsValue rest with
    | some n => (-(n : Int), true)
    | none => (0, false)
  | _ =>
    match digitsValue s with
    | some n => ((n : Int), true)
    | none => (0, false)

/-- textproto ReadCodeLine(-1) on a line that was read: the code, the message and the
error, none for nil. -/
def parseCodeLine (line : Str) : Int × Str × Option Err :=
  if line.length < 4 ∨ (line.getD 3 ' ' ≠ ' ' ∧ line.getD 3 ' ' ≠ '-') then
    (0, [], some ("short response: ".toList ++ line))
  else
    let continued := decide (line.getD 3 ' ' = '-')
    let r := Atoi (line.take 3)
    if r.2 = false ∨ r.1 < 100 then
      (r.1, [], some ("invalid response code: ".toList ++ line))
    else
      let message := line.drop 4
      if continued then
        (r.1, message, some ("unexpected multi-line response: ".toList ++ message))
      else (r.1, message, none)

/-- textproto ReadCodeLine(-1) on the lines a peer sends: the result and the lines
left; reading fails when the peer sends nothing more. -/
def ReadCodeLine (input : List Str) : (Int × Str × Option Err) × List Str :=
  match input with
  | [] => ((0, [], some "EOF".toList), [])
  | line :: rest => (parseCodeLine line, rest)

/-- An outbound session: the flag `inbound` of the connection, the fields of its
ConnectionInfo, the lines of the peer not read yet, the lines sent, the contents of
the channel self.send and whether the connection was closed. -/
structure Outbound where
  inbound : Bool
  mode : Str
  allowsPosting : Bool
  supportsStream : Bool
  input : List Str
  output : List Str
  send : List (Option nntpArticle)
  closed : Bool
deriving DecidableEq, Repr

/-- How a piece of HandleOutbound ends. -/
inductive OutboundResult where
  /-- The session is in its main loop. -/
  | mainloop (s : Outbound)
  /-- HandleOutbound returned. -/
  | returned (s : Outbound)
deriving DecidableEq, Repr

/-- NNTPConnection.Close. -/
def Outbound.Close (s : Outbound) : Outbound := { s with closed := true }

/-- NNTPConnection.Quit: QUIT is sent on a connection that is not inbound. -/
def Outbound.Quit (s : Outbound) : Outbound :=
  Outbound.Close (if !s.inbound then { s with output := s.output ++ ["QUIT".toList] } else s)

/-- A line as a textproto DotReader hands it on: a leading dot is removed. -/
def dotUnstuff (line : Str) : Str :=
  match line with
  | '.' :: rest => rest
  | _ => line

/-- The loop over the capability lines (nntp.go lines 55-66), read through a DotReader:
it ends after the line with a lone dot, or when the peer sends nothing more. -/
def readCapabilities : List Str → Bool → Bool × List Str
  | [], supportsStream => (supportsStream, [])
  | l :: rest, supportsStream =>
    if l = ".".toList then (supportsStream, rest)
    else
      let line := ToLower (dotUnstuff l ++ "\n".toList)
      if line = "streaming\n".toList then readCapabilities rest true
      else if line = "postihavestreaming\n".toList then readCapabilities rest true
      else readCapabilities rest supportsStream

/-- HandleOutbound up to its main loop (nntp.go lines 40-96). -/
def outboundHandshake (s : Outbound) : OutboundResult :=
  let banner := ReadCodeLine s.input
  let s1 := { s with input := banner.2, allowsPosting := decide (banner.1.1 = 200) }
  if !s1.allowsPosting then OutboundResult.returned s1.Close
  else
    let s2 := { s1 with output := s1.output ++ ["CAPABILITIES".toList] }
    let caps := readCapabilities s2.input s2.supportsStream
    let s3 := { s2 with input := caps.2, supportsStream := caps.1 }
    if !s3.supportsStream || !s3.allowsPosting then OutboundResult.returned s3.Quit
    else
      let s4 := { s3 with output := s3.output ++ ["MODE STREAM".toList] }
      let reply := ReadCodeLine s4.input
      let s5 := { s4 with input := reply.2 }
      match reply.1.2.2 with
      | some _ => OutboundResult.returned s5
      | none =>
        if reply.1.1 = 203 then OutboundResult.mainloop { s5 with mode := "stream".toList }
        else OutboundResult.returned s5.Quit

/-- The default case of the main loop of HandleOutbound (nntp.go lines 110-123): a
response of the peer is read and acted on. -/
def outboundResponse (lib : Lib) (d : NNTPDaemon) (fs : FS) (s : Outbound) :
    OutboundResult :=
  let r := ReadCodeLine s.input
  let s1 := { s with input := r.2 }
  match r.1.2.2 with
  | some _ => OutboundResult.returned s1
  | none =>
    let code := r.1.1
    let line := r.1.2.1
    if code = 238 ∧ lib.ValidMessageID line = true then
      OutboundResult.mainloop { s1 with send := s1.send ++ [d.store.GetMessage lib fs line] }
    else if code = 438 then OutboundResult.mainloop s1
    else OutboundResult.mainloop s1

/-- Whether a capability line makes the session set supportsStream. -/
def offersStreaming (l : Str) : Bool :=
  decide (ToLower (dotUnstuff l ++ "\n".toList) = "streaming\n".toList) ||
  decide (ToLower (dotUnstuff l ++ "\n".toList) = "postihavestreaming\n".toList)

/-- A fresh outbound session talking to a peer that sends the given lines. -/
def exampleOutbound (input : List Str) : Outbound :=
  { inbound := false, mode := [], allowsPosting := false, supportsStream := false,
    input := input, output := [], send := [], closed := false }

/-- The capability lines a DotReader hands on: the lines before the first lone dot. -/
def capabilityBlock (input : List Str) : List Str :=
  input.takeWhile (fun l => decide (l ≠ ".".toList))

/-- The lines of the peer after the capability block and its lone dot. -/
def afterCapabilities (input : List Str) : List Str :=
  (input.dropWhile (fun l => decide (l ≠ ".".toList))).drop 1

/-- Three feeds of the examples: a stream feed that allows every group, a stream feed
that allows none, and a reader feed that allows every group. -/
def exampleFeeds : feedTable :=
  [("a-stream".toList,
      { name := "a-stream".toList, mode := "stream".toList,
        policy := { AllowsNewsgroup := fun _ => true }, stream := [], article := [] }),
   ("b-stream".toList,
      { name := "b-stream".toList, mode := "stream".toList,
        policy := { AllowsNewsgroup := fun _ => false }, stream := [], article := [] }),
   ("a-reader".toList,
      { name := "a-reader".toList, mode := "reader".toList,
        policy := { AllowsNewsgroup := fun _ => true }, stream := [], article := [] })]

/-- The code of the banner an outbound session reads first. -/
def Outbound.bannerCode (s : Outbound) : Int := (ReadCodeLine s.input).1.1

/-- The capability lines the peer sends after the banner. -/
def Outbound.capabilities (s : Outbound) : List Str :=
  capabilityBlock (ReadCodeLine s.input).2

/-- What ReadCodeLine returns for the line after the capability block, the reply to
MODE STREAM: its code, its message and its error. -/
def Outbound.streamReply (s : Outbound) : Int × Str × Option Err :=
  (ReadCodeLine (afterCapabilities (ReadCodeLine s.input).2)).1

/-! ## attachment.go: Write -/

/-- nntpAttachment.Write: bytes.Buffer.Write appends to the body; the cached hash is
left as it is. -/
def nntpAttachment.Write (self : nntpAttachment) (b : Str) : nntpAttachment :=
  { self with body := self.body ++ b }

/-- An attachment of the examples with the content `abc`, whose digest under exampleLib
is `abc`, for a given extension: its file path is the digest followed by the extension,
as createAttachment and readAttachmentFromMimePart make it. -/
def exampleAttachment (ext : Str) : nntpAttachment :=
  { ext := ext, mime := [], filename := "file".toList ++ ext,
    filepath := "abc".toList ++ ext, hash := "abc".toList, header := [],
    body := "abc".toList }

/-! ## frontend.go and daemon.go: pollmessages -/

/-- The interface Frontend as pollmessages uses it. `PostsChan` is the channel the
method returns, given by the values sent on it (none for a nil channel);
`AllowNewsgroup` is none when the call dereferences nil. -/
structure Frontend where
  PostsChan : Option (List nntpArticle)
  AllowNewsgroup : Str → Option Bool

/-- The struct httpFrontend as far as pollmessages reaches it. -/
structure httpFrontend where
  recvpostchan : Option (List nntpArticle)
deriving DecidableEq, Repr

/-- httpFrontend.AllowNewsgroup. -/
def httpFrontend.AllowNewsgroup (_self : httpFrontend) (group : Str) : Bool :=
  HasPrefix group "overchan.".toList

/-- httpFrontend.PostsChan. -/
def httpFrontend.PostsChan (self : httpFrontend) : Option (List nntpArticle) :=
  self.recvpostchan

/-- An httpFrontend as a value of the interface Frontend. -/
def httpFrontend.asFrontend (self : httpFrontend) : Frontend :=
  { PostsChan := self.PostsChan
    AllowNewsgroup := fun group => some (self.AllowNewsgroup group) }

/-- The struct multiFrontend: the embedded interface value (none for nil), its two
channels and the frontends it holds. -/
structure multiFrontend where
  embedded : Option Frontend
  muxedpostchan : Option (List nntpArticle)
  muxedchan : Option (List nntpArticle)
  frontends : List Frontend

/-- multiFrontend.PostsChan. -/
def multiFrontend.PostsChan (self : multiFrontend) : Option (List nntpArticle) :=
  self.muxedchan

/-- AllowNewsgroup on a multiFrontend. frontend.go declares no such method for the
struct, so the call is the promoted method of the embedded interface value: it
dereferences nil when that value is nil. -/
def multiFrontend.AllowNewsgroup (self : multiFrontend) (group : Str) : Option Bool :=
  match self.embedded with
  | none => none
  | some f => f.AllowNewsgroup group

/-- A multiFrontend as a value of the interface Frontend. -/
def multiFrontend.asFrontend (self : multiFrontend) : Frontend :=
  { PostsChan := self.PostsChan
    AllowNewsgroup := self.AllowNewsgroup }

/-- MuxFrontends (frontend.go lines 89-95): the embedded interface value is never
assigned. -/
def MuxFrontends (fronts : List Frontend) : Frontend :=
  multiFrontend.asFrontend
    { embedded := none, muxedchan := some [], muxedpostchan := some [], frontends := fronts }

/-- NewHTTPFrontend as far as its channels go (frontend.go lines 436-449). -/
def NewHTTPFrontend : Frontend :=
  httpFrontend.asFrontend { recvpostchan := some [] }

/-- The two lookups pollmessages makes on the Database (not among the sources): the
value and the error each returns. -/
structure Database where
  GetThreadsPerPage : Str → Int × Option Err
  GetPagesPerBoard : Str → Int × Option Err

/-- The methods of nntpArticle that pollmessages calls besides those of `Deps`
(message.go, not among the sources). -/
structure MessageMethods where
  /-- nntpArticle.AppendPath. -/
  AppendPath : nntpArticle → Str → nntpArticle
  /-- nntpArticle.Newsgroup. -/
  Newsgroup : nntpArticle → Str

/-- What pollmessages changes: the world of the store, the calls made on
self.expire.ExpireGroup (oldest first), the values sent on the channel of the mod engine
and on send_all_feeds, and its local variable `chnl`. -/
structure PollWorld where
  store : StoreWorld
  ExpireGroup : List (Str × Int)
  modchnl : List nntpArticle
  send_all_feeds : List ArticleEntry
  chnl : Option (List nntpArticle)
deriving DecidableEq, Repr

/-- How one turn of the loop of pollmessages ends. -/
inductive PollResult where
  /-- The loop goes on to its next receive. -/
  | next (w : PollWorld)
  /-- A method was called on a nil interface value; the world at that point. -/
  | panic (w : PollWorld)
deriving DecidableEq, Repr

/-- The rollover pollmessages computes from the results of the two lookups (daemon.go
lines 420-427): `err` is assigned by both and tested once, after the second. -/
def rollover (tpp ppb : Int × Option Err) : Int :=
  match ppb.2 with
  | none => tpp.1 * ppb.1
  | some _ => 100

/-- The start of pollmessages (daemon.go lines 391-395): the value of `chnl`. -/
def pollmessagesChan (frontend : Option Frontend) : Option (List nntpArticle) :=
  match frontend with
  | some f => f.PostsChan
  | none => none

/-- One turn of the loop of pollmessages for the article received from infeed (daemon.go
lines 398-447). The placeholder for a missing root post (lines 409-416) has an empty
body and is left out. -/
def pollmessagesTurn (lib : Lib) (deps : Deps) (m : MessageMethods) (db : Database)
    (d : NNTPDaemon) (frontend : Option Frontend) (w : PollWorld) (received : nntpArticle) :
    PollResult :=
  let appended := m.AppendPath received d.instance_name
  let msgid := deps.MessageID appended
  let stored := d.store.StorePost lib deps w.store appended
  let nntp := stored.2.1
  let group := m.Newsgroup nntp
  let tpp := db.GetThreadsPerPage group
  let ppb := db.GetPagesPerBoard group
  let w1 : PollWorld :=
    { w with
      store := stored.1
      ExpireGroup := w.ExpireGroup ++ [(group, rollover tpp ppb)]
      modchnl := if group = "ctl".toList then w.modchnl ++ [nntp] else w.modchnl
      send_all_feeds := w.send_all_feeds ++ [ArticleEntry.mk msgid group] }
  match w1.chnl with
  | none => PollResult.next w1
  | some posts =>
    match frontend with
    | none => PollResult.panic w1
    | some f =>
      match f.AllowNewsgroup group with
      | none => PollResult.panic w1
      | some true => PollResult.next { w1 with chnl := some (posts ++ [nntp]) }
      | some false => PollResult.next w1

/-- The loop of pollmessages over the articles infeed delivers, oldest first; when there
are no more the loop waits at its receive. -/
def pollmessagesLoop (lib : Lib) (deps : Deps) (m : MessageMethods) (db : Database)
    (d : NNTPDaemon) (frontend : Option Frontend) : PollWorld → List nntpArticle → PollResult
  | w, [] => PollResult.next w
  | w, nntp :: rest =>
    match pollmessagesTurn lib deps m db d frontend w nntp with
    | PollResult.next w1 => pollmessagesLoop lib deps m db d frontend w1 rest
    | PollResult.panic w1 => PollResult.panic w1

/-- NNTPDaemon.pollmessages on the articles infeed delivers. -/
def pollmessages (lib : Lib) (deps : Deps) (m : MessageMethods) (db : Database)
    (d : NNTPDaemon) (frontend : Option Frontend) (w : PollWorld)
    (infeed : List nntpArticle) : PollResult :=
  pollmessagesLoop lib deps m db d frontend { w with chnl := pollmessagesChan frontend } infeed

/-- Modelled from the spec: AppendPath is in message.go, not among the sources; it puts
the name of the instance and `!` in front of the Path header. -/
def exampleAppendPath (nntp : nntpArticle) (name : Str) : nntpArticle :=
  { nntp with
    headers := nntp.headers.map
      (fun h => if h.1 = "Path".toList then (h.1, name ++ "!".toList ++ h.2) else h) }

/-- The methods of the examples: the newsgroup is the Newsgroups header. -/
def exampleMessageMethods : MessageMethods :=
  { AppendPath := exampleAppendPath
    Newsgroup := fun nntp => headersGet nntp.headers "Newsgroups".toList [] }

/-- A database of the examples whose lookup of the threads per page fails. -/
def exampleFailingThreadsPerPage : Database :=
  { GetThreadsPerPage := fun _ => (0, some "no such board".toList)
    GetPagesPerBoard := fun _ => (10, none) }

/-- A database of the examples with ten threads per page and ten pages per board. -/
def exampleDatabase : Database :=
  { GetThreadsPerPage := fun _ => (10, none)
    GetPagesPerBoard := fun _ => (10, none) }

/-- A plain article of the examples in a newsgroup. -/
def exampleArticleIn (group : Str) : nntpArticle :=
  { headers := [("Message-ID".toList, "<m@x>".toList), ("Newsgroups".toList, group),
                ("Path".toList, "foo".toList)]
    message := some (createPlaintextAttachment "hello".toList)
    attachments := []
    signedPart := none }

/-- The world pollmessages starts from in the examples. -/
def examplePollWorld : PollWorld :=
  { store := { fs := [], db := [] }, ExpireGroup := [], modchnl := [], send_all_feeds := [],
    chnl := none }

/-! ## daemon.go: dialOut -/

/-- The digit loop of strconv.ParseUint(s, 10, 16): a byte that is no decimal digit is a
syntax error with value 0; a value above 65535 is a range error with value 65535. -/
def parseUintLoop : Str → Nat → Nat × Option Err
  | [], n => (n, none)
  | c :: cs, n =>
    if c.isDigit then
      let n1 := 10 * n + (c.toNat - 48)
      if n1 > 65535 then (65535, some "value out of range".toList)
      else parseUintLoop cs n1
    else (0, some "invalid syntax".toList)

/-- strconv.ParseUint(s, 10, 16): the value and the error, none for nil. -/
def ParseUint (s : Str) : Nat × Option Err :=
  if s = [] then (0, some "invalid syntax".toList) else parseUintLoop s 0

/-- A loop `for bi = range b { req[idx] = b[bi]; idx += 1 }`: the slice and the index
afterwards. -/
def copyBytes (b : Str) (req : Str) (idx : Nat) : Str × Nat :=
  b.foldl (fun st c => (st.1.set st.2 c, st.2 + 1)) (req, idx)

/-- The request dialOut builds for a remote address (daemon.go lines 78-118), or the
error it returns before the request is complete. -/
def socks4aRequest (remote_addr : Str) : Except Err Str :=
  let idx := LastIndex remote_addr ':'
  if idx = -1 then Except.error ("invalid address: ".toList ++ remote_addr)
  else
    let addr := remote_addr.take idx.toNat
    let parsed := ParseUint (remote_addr.drop (idx.toNat + 1))
    let port := parsed.1
    if port ≥ 25536 then Except.error "bad proxy port".toList
    else
      match parsed.2 with
      | some err => Except.error err
      | none =>
        let proxy_port := port % 65536
        let proxy_ident := "srndv2".toList
        let req_len := addr.length + 1 + proxy_ident.length + 1 + 8
        let req0 := List.replicate req_len (Char.ofNat 0)
        let req1 := req0.set 0 (Char.ofNat 4)
        let req2 := req1.set 1 (Char.ofNat 1)
        let req3 := req2.set 2 (Char.ofNat (((proxy_port &&& 0xff00) >>> 8) % 256))
        let req4 := req3.set 3 (Char.ofNat ((proxy_port &&& 0x00ff) % 256))
        let req5 := req4.set 7 (Char.ofNat 1)
        let ident := copyBytes proxy_ident req5 8
        let host := copyBytes addr ident.1 (ident.2 + 1)
        Except.ok host.1

/-- What the network does during one call of dialOut: the errors of the first and the
second net.Dial (none for a connection), the eight bytes of `resp` after Read and the
error of Read. -/
structure ProxyNetwork where
  firstDial : Option Err
  secondDial : Option Err
  resp : Str
  readErr : Option Err
deriving DecidableEq, Repr

/-- How dialOut ends: whether the connection it returns is non-nil, the bytes it wrote
to the proxy (none when it wrote nothing), whether it closed the connection, and its
error. -/
structure DialOutcome where
  conn : Bool
  sent : Option Str
  closed : Bool
  err : Option Err
deriving DecidableEq, Repr

/-- The result of dialOut. -/
inductive DialResult where
  | returned (o : DialOutcome)
  /-- Write was called on the nil connection of a failed net.Dial. -/
  | panic
deriving DecidableEq, Repr

/-- NNTPDaemon.dialOut. Without a proxy the first net.Dial is the one to the remote
address. The error of Write is overwritten by that of Read, which is the error returned
after a reply 0x5a. -/
def dialOut (net : ProxyNetwork) (proxy_type _proxy_addr remote_addr : Str) : DialResult :=
  if proxy_type = [] ∨ proxy_type = "none".toList then
    match net.firstDial with
    | some err =>
      DialResult.returned { conn := false, sent := none, closed := false, err := some err }
    | none => DialResult.returned { conn := true, sent := none, closed := false, err := none }
  else if proxy_type = "socks4a".toList then
    match net.firstDial with
    | some err =>
      DialResult.returned { conn := false, sent := none, closed := false, err := some err }
    | none =>
      match socks4aRequest remote_addr with
      | Except.error err =>
        DialResult.returned { conn := true, sent := none, closed := false, err := some err }
      | Except.ok req =>
        match net.secondDial with
        | some _ => DialResult.panic
        | none =>
          if net.resp.getD 1 (Char.ofNat 0) = Char.ofNat 0x5a then
            DialResult.returned
              { conn := true, sent := some req, closed := false, err := net.readErr }
          else
            DialResult.returned
              { conn := false, sent := some req, closed := true
                err := some "failed to connect via proxy".toList }
  else DialResult.returned { conn := false, sent := none, closed := false, err := none }

/-- The request as the specification words it, for a host and a port: version 4,
command 1, the port in two bytes with the high byte first, the address 0.0.0.1, the user
ID `srndv2` and the host name, each closed by a zero byte. It is compared with
socks4aRequest, which follows the source. -/
def socks4aBytes (host : Str) (port : Nat) : Str :=
  [Char.ofNat 4, Char.ofNat 1, Char.ofNat (port / 256), Char.ofNat (port % 256),
   Char.ofNat 0, Char.ofNat 0, Char.ofNat 0, Char.ofNat 1] ++
  "srndv2".toList ++ [Char.ofNat 0] ++ host ++ [Char.ofNat 0]

/-- A network of the examples: both dials succeed and the proxy grants the request. -/
def exampleProxyNetwork : ProxyNetwork :=
  { firstDial := none, secondDial := none, readErr := none
    resp := [Char.ofNat 0, Char.ofNat 0x5a, Char.ofNat 0, Char.ofNat 0, Char.ofNat 0,
             Char.ofNat 0, Char.ofNat 0, Char.ofNat 0] }

/-! ## markup.go: formatline -/

/-- What formatline calls besides strings: html.EscapeString, the matching of the
package-level re_backlink, backlink (markup.go lines 18-35, which asks the template
engine for a link) and the rewriting of a word by re_external_link. -/
structure Markup where
  EscapeString : Str → Str
  re_backlink_MatchString : Str → Bool
  backlink : Str → Str
  re_external_link_ReplaceAllString : Str → Str

/-- strings.Trim(s, cutset) for a cutset of single bytes. -/
def Trim (s cutset : Str) : Str :=
  ((s.dropWhile (fun c => cutset.contains c)).reverse.dropWhile
    (fun c => cutset.contains c)).reverse

/-- The slice expression s[low:high] of Go: none is the run-time panic for bounds that
are out of range. -/
def sliceStr (s : Str) (low high : Int) : Option Str :=
  if 0 ≤ low ∧ low ≤ high ∧ high ≤ (s.length : Int) then
    some ((s.take high.toNat).drop low.toNat)
  else none

/-- The loop over the words of a regular line (markup.go lines 53-63). -/
def formatwords (mk : Markup) (words : List Str) (markup : Str) : Str :=
  words.foldl
    (fun acc word =>
      (if mk.re_backlink_MatchString word then acc ++ mk.backlink word
       else acc ++ mk.re_external_link_ReplaceAllString (mk.EscapeString word)) ++ " ".toList)
    markup

/-- formatline: the markup, or none when the call panics. -/
def formatline (mk : Markup) (line0 : Str) : Option Str :=
  let line := Trim line0 "\t\r\n ".toList
  let markup : Option Str :=
    if line.length > 0 then
      if HasPrefix line ">".toList &&
          !(HasPrefix line ">>".toList &&
            mk.re_backlink_MatchString ((Split ' ' line).headD [])) then
        some ("<span class='memearrows'>".toList ++ mk.EscapeString line ++ "</span>".toList)
      else if HasPrefix line "==".toList && HasSuffix line "==".toList then
        match sliceStr line 2 ((line.length : Int) - 2) with
        | some inner =>
          some ("<span class='redtext'>".toList ++ mk.EscapeString inner ++ "</span>".toList)
        | none => none
      else some (formatwords mk (Split ' ' line) [])
    else some []
  markup.map (fun m => m ++ "<br />".toList)

/-- html.EscapeString: the five bytes it replaces. -/
def EscapeString (s : Str) : Str :=
  (s.map (fun c =>
    if c = '&' then "&amp;".toList
    else if c = Char.ofNat 39 then "&#39;".toList
    else if c = '<' then "&lt;".toList
    else if c = '>' then "&gt;".toList
    else if c = '"' then "&#34;".toList
    else [c])).flatten

/-- A Markup of the examples: no word is a backlink and no word is turned into a link. -/
def exampleMarkup : Markup :=
  { EscapeString := EscapeString
    re_backlink_MatchString := fun _ => false
    backlink := fun w => EscapeString w
    re_external_link_ReplaceAllString := fun w => w }

/-! ## Lemmas on strings, files and the body loop -/

theorem Split_of_not_mem {sep : Char} {s : Str} (h : sep ∉ s) : Split sep s = [s] := by
  induction s with
  | nil => rfl
  | cons c cs ih =>
    have hc : c ≠ sep := fun e => h (by simp [e])
    have hcs : sep ∉ cs := fun m => h (List.mem_cons_of_mem _ m)
    simp [Split, hc, ih hcs]

theorem Split_append_sep {sep : Char} {a : Str} (b : Str) (h : sep ∉ a) :
    Split sep (a ++ sep :: b) = a :: Split sep b := by
  induction a with
  | nil => simp [Split]
  | cons c cs ih =>
    have hc : c ≠ sep := fun e => h (by simp [e])
    have hcs : sep ∉ cs := fun m => h (List.mem_cons_of_mem _ m)
    simp [Split, hc, ih hcs]

theorem fsGet_fsPut_same (fs : FS) (p c : Str) : fsGet (fsPut fs p c) p = some c := by
  simp [fsGet, fsPut, List.lookup]

theorem fsPut_fsPut (fs : FS) (p c c2 : Str) : fsPut (fsPut fs p c) p c2 = fsPut fs p c2 := by
  simp [fsPut, List.filter_filter]

theorem fileWrite_fsPut (fs : FS) (p c b : Str) :
    fileWrite (fsPut fs p c) p b = fsPut fs p (c ++ b) := by
  simp [fileWrite, fsGet_fsPut_same, fsPut_fsPut]

theorem pathRewrite_eq_dot (d : NNTPDaemon) (l : Str) :
    pathRewrite d l = ".".toList ↔ l = ".".toList := by
  unfold pathRewrite
  split
  · rename_i h
    constructor
    · intro h2
      simp at h2
    · intro h2
      subst h2
      simp [HasPrefix] at h
  · exact Iff.rfl

theorem takethisLoop_done (d : NNTPDaemon) (f : Str) (post : List Str) (fs : FS) :
    ∀ (pre : List Str) (content : Str) (fuel : Nat), ".".toList ∉ pre → pre.length < fuel →
      takethisLoop d (some f) fuel false (pre ++ ".".toList :: post) (fsPut fs f content) =
        BodyResult.done post
          (fsPut fs f (content ++ (pre.map (fun l => pathRewrite d l ++ "\n".toList)).flatten)) := by
  intro pre
  induction pre with
  | nil =>
    intro content fuel _ hf
    obtain ⟨n, rfl⟩ : ∃ n, fuel = n + 1 := ⟨fuel - 1, by simp at hf; omega⟩
    simp [takethisLoop, ReadLine, HasPrefix]
  | cons l pre ih =>
    intro content fuel hpre hf
    obtain ⟨n, rfl⟩ : ∃ n, fuel = n + 1 := ⟨fuel - 1, by simp at hf; omega⟩
    have hl : l ≠ ".".toList := fun e => hpre (by simp [e])
    have hpre2 : ".".toList ∉ pre := fun m => hpre (List.mem_cons_of_mem _ m)
    have hr : pathRewrite d l ≠ ".".toList := fun e => hl ((pathRewrite_eq_dot d l).1 e)
    have hn : pre.length < n := by simp at hf; omega
    have step : takethisLoop d (some f) (n + 1) false ((l :: pre) ++ ".".toList :: post)
        (fsPut fs f content) =
        takethisLoop d (some f) n false (pre ++ ".".toList :: post)
          (fsPut fs f (content ++ (pathRewrite d l ++ "\n".toList))) := by
      have hr2 := hr
      unfold pathRewrite at hr2
      simp only [takethisLoop, ReadLine, List.cons_append, Bool.not_false, Bool.true_and]
      rw [if_neg hr2]
      simp only [pathRewrite, fileWrite_fsPut, List.append_assoc]
    rw [step, ih _ _ hpre2 hn]
    simp [List.append_assoc]

theorem Clean_ne_nil (p : Str) : Clean p ≠ [] := by
  unfold Clean
  simp only
  split_ifs <;> simp_all

theorem Join_ne_nil (a b : Str) (h : b ≠ []) : Join a b ≠ [] := by
  unfold Join
  split
  · exact Clean_ne_nil _
  · simp [h, Clean_ne_nil]

theorem cmd_split (cmd id : Str) (hc : ' ' ∉ cmd) (hid : ' ' ∉ id) :
    Split ' ' (cmd ++ ' ' :: id) = [cmd, id] := by
  rw [Split_append_sep _ hc, Split_of_not_mem hid]

/-- Claim C2. A TAKETHIS in stream mode with a valid, non-empty ID without blanks, whose
body lines `pre` end in a lone dot, is accepted however much fuel above the body length
is given: the session answers 239 and the file of the article holds one line per
received line, and wherever the received line is "Path: P" the stored line is
"Path: " + instance_name + "!" + P. -/
theorem takethis_stores_rewritten_path (lib : Lib) (d : NNTPDaemon) (s : Session) (id : Str)
    (pre post : List Str) (fuel : Nat)
    (hmode : s.mode = "stream".toList) (hvalid : lib.ValidMessageID id = true)
    (hne : id ≠ []) (hsp : ' ' ∉ id)
    (hin : s.input = pre ++ ".".toList :: post) (hpre : ".".toList ∉ pre)
    (hfuel : pre.length < fuel) :
    ∃ (s1 : Session) (written : List Str),
      handleLine lib d fuel ("TAKETHIS ".toList ++ id) s = Outcome.running s1 ∧
      s1.output = s.output ++ ["239 ".toList ++ id] ∧
      fsGet s1.fs (d.store.GetFilename lib id) =
        some (written.map (fun l => l ++ "\n".toList)).flatten ∧
      written.length = pre.length ∧
      ∀ (i : Nat) (P : Str), pre[i]? = some ("Path: ".toList ++ P) →
        written[i]? = some ("Path: ".toList ++ d.instance_name ++ "!".toList ++ P) := by
  have hsplit : Split ' ' ("TAKETHIS ".toList ++ id) = ["TAKETHIS".toList, id] :=
    cmd_split "TAKETHIS".toList id (by decide) hsp
  have hfile : d.store.GetFilename lib id ≠ [] := by
    simp [articleStore.GetFilename, hvalid, Join_ne_nil _ _ hne]
  have hloop := takethisLoop_done d (d.store.GetFilename lib id) post s.fs pre [] fuel hpre hfuel
  refine ⟨{ s with
      input := post
      output := s.output ++ ["239 ".toList ++ id]
      fs := fsPut s.fs (d.store.GetFilename lib id)
        ([] ++ (pre.map (fun l => pathRewrite d l ++ "\n".toList)).flatten)
      infeed_load := s.infeed_load ++ [id] }, pre.map (pathRewrite d), ?_, ?_, ?_, ?_, ?_⟩
  · unfold handleLine
    simp only [hsplit]
    have h1 : (["TAKETHIS".toList, id].headD [] = "CAPABILITIES".toList) = False := by
      simp
    have h2 : (["TAKETHIS".toList, id].headD [] = "MODE".toList) = False := by
      simp
    simp only [h1, h2, if_false, hmode, if_true]
    have h3 : handleTAKETHIS lib d fuel ["TAKETHIS".toList, id] s = Outcome.running
        { s with
          input := post
          output := s.output ++ ["239 ".toList ++ id]
          fs := fsPut s.fs (d.store.GetFilename lib id)
            ([] ++ (pre.map (fun l => pathRewrite d l ++ "\n".toList)).flatten)
          infeed_load := s.infeed_load ++ [id] } := by
      have hget : ["TAKETHIS".toList, id].getD 1 [] = id := rfl
      unfold handleTAKETHIS
      simp only [hget, articleStore.CreateFile, osCreate, hfile, hvalid, hin, hloop, List.headD,
        List.length, if_true, if_false, PrintfLine]
    rw [h3]
    simp [handleCHECK, hmode]
  · simp [PrintfLine]
  · simp [PrintfLine, fsGet_fsPut_same, List.map_map, Function.comp_def]
  · simp
  · intro i P hP
    simp [List.getElem?_map, hP, pathRewrite, HasPrefix]

/-- In stream mode a CHECK whose argument has no blank is answered 501 when the ID is
invalid, 438 when it is valid and the store has the article, 238 when it is valid and
the store lacks it; nothing but the output of the session changes. -/
theorem check_replies (lib : Lib) (d : NNTPDaemon) (s : Session) (id : Str) (fuel : Nat)
    (hmode : s.mode = "stream".toList) (hsp : ' ' ∉ id) :
    (lib.ValidMessageID id = false →
      handleLine lib d fuel ("CHECK ".toList ++ id) s =
        Outcome.running { s with output := s.output ++ ["501 bad message id".toList] }) ∧
    (lib.ValidMessageID id = true → d.store.HasArticle lib s.fs id = true →
      handleLine lib d fuel ("CHECK ".toList ++ id) s =
        Outcome.running { s with output := s.output ++
          ["438 ".toList ++ id ++ " we have this article".toList] }) ∧
    (lib.ValidMessageID id = true → d.store.HasArticle lib s.fs id = false →
      handleLine lib d fuel ("CHECK ".toList ++ id) s =
        Outcome.running { s with output := s.output ++
          ["238 ".toList ++ id ++ " we want this article please give it".toList] }) := by
  have hsplit : Split ' ' ("CHECK ".toList ++ id) = ["CHECK".toList, id] :=
    cmd_split "CHECK".toList id (by decide) hsp
  have h1 : (["CHECK".toList, id].headD [] = "CAPABILITIES".toList) = False := by simp
  have h2 : (["CHECK".toList, id].headD [] = "MODE".toList) = False := by simp
  have h3 : handleTAKETHIS lib d fuel ["CHECK".toList, id] s = Outcome.running s := by
    simp [handleTAKETHIS]
  have hget : ["CHECK".toList, id].getD 1 [] = id := rfl
  have key : handleLine lib d fuel ("CHECK ".toList ++ id) s =
      Outcome.running (handleCHECK lib d ["CHECK".toList, id] s) := by
    unfold handleLine
    simp only [hsplit]
    simp only [h1, h2, if_false, hmode, if_true, h3]
  rw [key]
  unfold handleCHECK
  simp only [hget, List.headD, List.length, if_true, PrintfLine]
  refine ⟨fun hv => ?_, fun hv hh => ?_, fun hv hh => ?_⟩
  · simp [hv]
  · simp [hv, hh]
  · simp [hv, hh]

/-- An evaluation of check_replies: a CHECK for an article the example store holds. -/
theorem check_replies_witness :
    exampleDaemon.store.HasArticle exampleLib
        [("store/<m@x>".toList, "Path: a\n\nold\n".toList)] "<m@x>".toList = true ∧
    handleLine exampleLib exampleDaemon 1 ("CHECK ".toList ++ "<m@x>".toList)
        (exampleSession [] [("store/<m@x>".toList, "Path: a\n\nold\n".toList)]) =
      Outcome.running
        { exampleSession [] [("store/<m@x>".toList, "Path: a\n\nold\n".toList)] with
          output := ["438 ".toList ++ "<m@x>".toList ++ " we have this article".toList] } :=
  ⟨by decide,
   (check_replies exampleLib exampleDaemon
      (exampleSession [] [("store/<m@x>".toList, "Path: a\n\nold\n".toList)])
      "<m@x>".toList 1 rfl (by decide)).2.1 (by decide) (by decide)⟩

/-- Witness for claim C2: the article `Path: foo`, empty line, `hello` sent to the
example daemon. -/
theorem takethis_stores_rewritten_path_witness :
    ∃ (s1 : Session) (written : List Str),
      handleLine exampleLib exampleDaemon 4 ("TAKETHIS ".toList ++ "<m@x>".toList)
        (exampleSession ["Path: foo".toList, [], "hello".toList, ".".toList] []) =
          Outcome.running s1 ∧
      s1.output = [] ++ ["239 ".toList ++ "<m@x>".toList] ∧
      fsGet s1.fs (exampleDaemon.store.GetFilename exampleLib "<m@x>".toList) =
        some (written.map (fun l => l ++ "\n".toList)).flatten ∧
      written.length = 3 ∧
      ∀ (i : Nat) (P : Str),
        ["Path: foo".toList, [], "hello".toList][i]? = some ("Path: ".toList ++ P) →
        written[i]? = some ("Path: ".toList ++ exampleDaemon.instance_name ++ "!".toList ++ P) :=
  takethis_stores_rewritten_path exampleLib exampleDaemon
    (exampleSession ["Path: foo".toList, [], "hello".toList, ".".toList] []) "<m@x>".toList
    ["Path: foo".toList, [], "hello".toList] [] 4 rfl (by decide) (by decide) (by decide) rfl
    (by decide) (by decide)

/-- Claim C1, evaluated at a failing input: the peer sends a Path header and a later
body line that starts with "Path: "; both lines are rewritten in the stored file. -/
theorem takethis_rewrites_every_path_line :
    handleLine exampleLib exampleDaemon 5 "TAKETHIS <m@x>".toList
        (exampleSession ["Path: foo".toList, [], "Path: bar".toList, ".".toList] []) =
      Outcome.running
        { mode := "stream".toList
          input := []
          output := ["239 <m@x>".toList]
          fs := [("store/<m@x>".toList, "Path: inst!foo\n\nPath: inst!bar\n".toList)]
          infeed_load := ["<m@x>".toList] } := by
  decide

/-- In stream mode a TAKETHIS whose ID the validator rejects leaves the session as it
is: no reply is sent, and the lines after it are read as commands. -/
theorem handleLine_takethis_invalid (lib : Lib) (d : NNTPDaemon) (s : Session) (id : Str)
    (fuel : Nat) (hmode : s.mode = "stream".toList) (hsp : ' ' ∉ id)
    (hv : lib.ValidMessageID id = false) :
    handleLine lib d fuel ("TAKETHIS ".toList ++ id) s = Outcome.running s := by
  have hsplit : Split ' ' ("TAKETHIS ".toList ++ id) = ["TAKETHIS".toList, id] :=
    cmd_split "TAKETHIS".toList id (by decide) hsp
  have h1 : (["TAKETHIS".toList, id].headD [] = "CAPABILITIES".toList) = False := by simp
  have h2 : (["TAKETHIS".toList, id].headD [] = "MODE".toList) = False := by simp
  have hget : ["TAKETHIS".toList, id].getD 1 [] = id := rfl
  have h3 : handleTAKETHIS lib d fuel ["TAKETHIS".toList, id] s = Outcome.running s := by
    unfold handleTAKETHIS
    simp only [hget, hv, List.headD, List.length, if_true]
    rfl
  unfold handleLine
  simp only [hsplit]
  simp only [h1, h2, if_false, hmode, if_true, h3]
  simp [handleCHECK]

/-- Claim C4, evaluated at a failing input: `TAKETHIS bad` carries an ID the validator
rejects; the session sends no reply at all (its output stays empty), whereas `CHECK bad`
is answered 501. -/
theorem takethis_invalid_id_gets_no_reply :
    ValidMessageID "bad".toList = false ∧
    handleLine exampleLib exampleDaemon 5 "TAKETHIS bad".toList
        (exampleSession ["Path: foo".toList, ".".toList] []) =
      Outcome.running (exampleSession ["Path: foo".toList, ".".toList] []) ∧
    (exampleSession ["Path: foo".toList, ".".toList] []).output = [] ∧
    handleLine exampleLib exampleDaemon 5 "CHECK bad".toList
        (exampleSession ["Path: foo".toList, ".".toList] []) =
      Outcome.running
        { exampleSession ["Path: foo".toList, ".".toList] [] with
          output := ["501 bad message id".toList] } := by
  decide

/-- A whole inbound session: after the greeting and `MODE STREAM`, `TAKETHIS bad` and
the two lines after it draw no reply, and the session closes at the end of the input
without having written a file. -/
theorem inbound_session_invalid_takethis :
    HandleInbound exampleLib exampleDaemon 8
        { mode := [], output := [], fs := [], infeed_load := []
          input := ["MODE STREAM".toList, "TAKETHIS bad".toList, "Path: foo".toList,
                    ".".toList] } =
      Outcome.closed
        { mode := "stream".toList, input := [], fs := [], infeed_load := []
          output := ["200 2nd generation overchan NNTP Daemon".toList,
                     "203 stream it".toList] } := by
  decide

/-- Claim C5, evaluated at a failing input: the body of `TAKETHIS <m@x>` is written to
store/<m@x>, the committed file; incoming/<m@x>, the temp file of the ID put on
infeed_load, does not exist, so ReadTempMessage returns nil for it while GetMessage
reads the article. -/
theorem takethis_writes_store_file_not_temp :
    handleLine exampleLib exampleDaemon 5 "TAKETHIS <m@x>".toList
        (exampleSession ["Path: foo".toList, [], "hello".toList, ".".toList] []) =
      Outcome.running
        { mode := "stream".toList
          input := []
          output := ["239 <m@x>".toList]
          fs := [("store/<m@x>".toList, "Path: inst!foo\n\nhello\n".toList)]
          infeed_load := ["<m@x>".toList] } ∧
    exampleDaemon.store.GetTempFilename exampleLib "<m@x>".toList = "incoming/<m@x>".toList ∧
    exampleDaemon.store.ReadTempMessage exampleLib
        [("store/<m@x>".toList, "Path: inst!foo\n\nhello\n".toList)] "<m@x>".toList =
      (none, [("store/<m@x>".toList, "Path: inst!foo\n\nhello\n".toList)]) ∧
    (exampleDaemon.store.GetMessage exampleLib
        [("store/<m@x>".toList, "Path: inst!foo\n\nhello\n".toList)] "<m@x>".toList).isSome
      = true := by
  decide

/-- Claim C6, evaluated at a failing input: the store already holds `<m@x>`; a second
`TAKETHIS <m@x>` with another body replaces the bytes of store/<m@x>. -/
theorem takethis_overwrites_stored_article :
    exampleDaemon.store.HasArticle exampleLib
        [("store/<m@x>".toList, "Path: a\n\nold\n".toList)] "<m@x>".toList = true ∧
    handleLine exampleLib exampleDaemon 5 "TAKETHIS <m@x>".toList
        (exampleSession ["Path: b".toList, [], "new".toList, ".".toList]
          [("store/<m@x>".toList, "Path: a\n\nold\n".toList)]) =
      Outcome.running
        { mode := "stream".toList
          input := []
          output := ["239 <m@x>".toList]
          fs := [("store/<m@x>".toList, "Path: inst!b\n\nnew\n".toList)]
          infeed_load := ["<m@x>".toList] } := by
  decide

/-! ## Attachments -/

theorem lastIndexFrom_of_not_mem (c : Char) :
    ∀ (s : Str) (i : Nat) (best : Int), c ∉ s → lastIndexFrom c s i best = best := by
  intro s
  induction s with
  | nil => intro i best _; rfl
  | cons x xs ih =>
    intro i best h
    have hx : x ≠ c := fun e => h (by simp [e])
    have hxs : c ∉ xs := fun m => h (List.mem_cons_of_mem _ m)
    simp [lastIndexFrom, hx, ih _ _ hxs]

theorem lastIndexFrom_append (c : Char) (suf : Str) (hs : c ∉ suf) :
    ∀ (pre : Str) (i : Nat) (best : Int),
      lastIndexFrom c (pre ++ c :: suf) i best = ((i + pre.length : Nat) : Int) := by
  intro pre
  induction pre with
  | nil =>
    intro i best
    simp [lastIndexFrom, lastIndexFrom_of_not_mem c suf _ _ hs]
  | cons x xs ih =>
    intro i best
    show lastIndexFrom c (xs ++ c :: suf) (i + 1) _ = _
    rw [ih, List.length_cons]
    congr 1
    omega

theorem LastIndex_append (c : Char) (pre suf : Str) (hs : c ∉ suf) :
    LastIndex (pre ++ c :: suf) c = (pre.length : Int) := by
  simp [LastIndex, lastIndexFrom_append c suf hs]

theorem LastIndex_of_not_mem (c : Char) (s : Str) (h : c ∉ s) : LastIndex s c = -1 := by
  simp [LastIndex, lastIndexFrom_of_not_mem c s _ _ h]

theorem readAttachment_fields (lib : Lib) (part : Part) (a : nntpAttachment)
    (h : readAttachmentFromMimePart lib part = some a) :
    decodedContent lib part = some a.body ∧
    a.hash = lib.sha512 a.body ∧
    a.filepath = lib.base32 (lib.sha512 a.body) ++ a.ext ∧
    a.ext = (if LastIndex part.FileName '.' > 0
      then part.FileName.drop (LastIndex part.FileName '.').toNat else ".txt".toList) := by
  unfold readAttachmentFromMimePart at h
  simp only at h
  unfold decodedContent
  split at h
  · exact absurd h (by simp)
  · rename_i b hb
    simp only [Option.some.injEq] at h
    subst h
    exact ⟨hb, rfl, rfl, rfl⟩

theorem createAttachment_fields (lib : Lib) (ct fname body : Str) (a : nntpAttachment)
    (h : createAttachment lib ct fname body = some a) :
    lib.base64Decode body = some a.body ∧
    a.hash = lib.sha512 a.body ∧
    a.filepath = lib.base32 (lib.sha512 a.body) ++ a.ext ∧
    a.ext = (if LastIndex fname '.' > 0
      then fname.drop (LastIndex fname '.').toNat else ".txt".toList) := by
  unfold createAttachment at h
  split at h
  · split at h
    · rename_i decoded hd
      simp only [Option.some.injEq] at h
      subst h
      exact ⟨hd, rfl, rfl, rfl⟩
    · exact absurd h (by simp)
  · exact absurd h (by simp)

theorem builtFrom_fields (lib : Lib) (a : nntpAttachment) (B : Str) (h : builtFrom lib a B) :
    a.body = B ∧ a.hash = lib.sha512 B ∧ a.filepath = lib.base32 (lib.sha512 B) ++ a.ext := by
  rcases h with ⟨part, hB, ha⟩ | ⟨ct, fname, body, hB, ha⟩
  · obtain ⟨h1, h2, h3, _⟩ := readAttachment_fields lib part a ha
    have hb : a.body = B := by rw [h1] at hB; exact Option.some.inj hB
    subst hb
    exact ⟨rfl, h2, h3⟩
  · obtain ⟨h1, h2, h3, _⟩ := createAttachment_fields lib ct fname body a ha
    have hb : a.body = B := by rw [h1] at hB; exact Option.some.inj hB
    subst hb
    exact ⟨rfl, h2, h3⟩

/-- Claim C7. Every MIME part whose content decodes to B (base64-decoded when its
Content-Transfer-Encoding is base64, the raw bytes otherwise) is read into an
attachment, and every call of createAttachment whose content type parses and whose body
decodes to B returns one; in both cases the body is B, the Filepath is
base32(sha512(B)) + ext and the hash, also as returned by Hash(), is sha512(B). Two
attachments with the same decoded content and the same extension have the same
Filepath. -/
theorem attachment_content_addressed (lib : Lib) (B : Str) :
    (∀ part : Part, decodedContent lib part = some B →
      ∃ a, readAttachmentFromMimePart lib part = some a ∧ a.body = B ∧
        a.filepath = lib.base32 (lib.sha512 B) ++ a.ext ∧ a.hash = lib.sha512 B ∧
        (a.Hash lib).1 = lib.sha512 B) ∧
    (∀ (content_type fname body media_type : Str) (params : List (Str × Str)),
      lib.ParseMediaType content_type = Except.ok (media_type, params) →
      lib.base64Decode body = some B →
      ∃ a, createAttachment lib content_type fname body = some a ∧ a.body = B ∧
        a.filepath = lib.base32 (lib.sha512 B) ++ a.ext ∧ a.hash = lib.sha512 B ∧
        (a.Hash lib).1 = lib.sha512 B) ∧
    (∀ a a2 : nntpAttachment, builtFrom lib a B → builtFrom lib a2 B → a2.ext = a.ext →
      a2.filepath = a.filepath) := by
  have hHash : ∀ a : nntpAttachment, a.body = B → a.hash = lib.sha512 B →
      (a.Hash lib).1 = lib.sha512 B := by
    intro a hb hh
    unfold nntpAttachment.Hash
    split
    · simp [hb]
    · exact hh
  refine ⟨fun part hd => ?_, fun ct fname body mt params hp hd => ?_, fun a a2 h h2 he => ?_⟩
  · have hex : ∃ a, readAttachmentFromMimePart lib part = some a := by
      unfold decodedContent at hd
      unfold readAttachmentFromMimePart
      simp only
      rw [hd]
      exact ⟨_, rfl⟩
    obtain ⟨a, ha⟩ := hex
    obtain ⟨hb, hh, hf⟩ := builtFrom_fields lib a B (Or.inl ⟨part, hd, ha⟩)
    exact ⟨a, ha, hb, hf, hh, hHash a hb hh⟩
  · have hex : ∃ a, createAttachment lib ct fname body = some a := by
      unfold createAttachment
      rw [hp]
      simp only
      rw [hd]
      exact ⟨_, rfl⟩
    obtain ⟨a, ha⟩ := hex
    obtain ⟨hb, hh, hf⟩ := builtFrom_fields lib a B (Or.inr ⟨ct, fname, body, hd, ha⟩)
    exact ⟨a, ha, hb, hf, hh, hHash a hb hh⟩
  · obtain ⟨_, _, hf⟩ := builtFrom_fields lib a B h
    obtain ⟨_, _, hf2⟩ := builtFrom_fields lib a2 B h2
    rw [hf2, hf, he]

/-- Claim C8 as amended. The extension is the suffix of the file name that starts at its
last dot when that dot is not the first byte of the name, and is ".txt" when the only
dot is the first byte or the name has no dot. -/
theorem attachment_extension (lib : Lib) (a : nntpAttachment) (fname : Str)
    (h : builtForName lib a fname) :
    (∀ pre suf : Str, fname = pre ++ '.' :: suf → '.' ∉ suf → pre ≠ [] → a.ext = '.' :: suf) ∧
    (∀ suf : Str, fname = '.' :: suf → '.' ∉ suf → a.ext = ".txt".toList) ∧
    ('.' ∉ fname → a.ext = ".txt".toList) := by
  have hext : a.ext = (if LastIndex fname '.' > 0
      then fname.drop (LastIndex fname '.').toNat else ".txt".toList) := by
    rcases h with ⟨part, hn, ha⟩ | ⟨ct, body, ha⟩
    · rw [← hn]; exact (readAttachment_fields lib part a ha).2.2.2
    · exact (createAttachment_fields lib ct fname body a ha).2.2.2
  refine ⟨?_, ?_, ?_⟩
  · intro pre suf hf hs hp
    have hlen : 0 < pre.length := List.length_pos.mpr hp
    rw [hext, hf, LastIndex_append '.' pre suf hs]
    simp [hlen]
  · intro suf hf hs
    rw [hext, hf]
    have := LastIndex_append '.' [] suf hs
    simp only [List.nil_append, List.length_nil] at this
    rw [this]
    simp
  · intro hn
    rw [hext, LastIndex_of_not_mem '.' fname hn]
    simp

/-! ## read_message -/

theorem getLast?_cons_or (a : nntpAttachment) (l : List nntpAttachment)
    (m : Option nntpAttachment) : ((a :: l).getLast?).or m = (l.getLast?).or (some a) := by
  cases l with
  | nil => rfl
  | cons b t =>
    rw [List.getLast?_cons_cons]
    cases h : (b :: t).getLast? with
    | none => simp at h
    | some x => rfl

theorem plainAttachments_cons (lib : Lib) (p : Part) (rest : List Part) :
    plainAttachments lib (p :: rest) =
      match (if partMediaType lib p = some "text/plain".toList
          then readAttachmentFromMimePart lib p else none) with
      | none => plainAttachments lib rest
      | some a => a :: plainAttachments lib rest := by
  unfold plainAttachments
  rw [List.filterMap_cons]
  cases (if partMediaType lib p = some "text/plain".toList
    then readAttachmentFromMimePart lib p else none) <;> rfl

theorem otherAttachments_cons (lib : Lib) (p : Part) (rest : List Part) :
    otherAttachments lib (p :: rest) =
      match (match partMediaType lib p with
          | some m =>
            if m = "text/plain".toList then none else readAttachmentFromMimePart lib p
          | none => none) with
      | none => otherAttachments lib rest
      | some a => a :: otherAttachments lib rest := by
  unfold otherAttachments
  rw [List.filterMap_cons]
  cases (match partMediaType lib p with
    | some m => if m = "text/plain".toList then none else readAttachmentFromMimePart lib p
    | none => none) <;> rfl

theorem readParts_eq (lib : Lib) :
    ∀ (ps : List Part) (nntp : nntpArticle),
      readParts lib ps nntp =
        { nntp with
          message := ((plainAttachments lib ps).getLast?).or nntp.message
          attachments := nntp.attachments ++ otherAttachments lib ps } := by
  intro ps
  induction ps with
  | nil =>
    intro nntp
    show nntp = _
    simp [plainAttachments, otherAttachments]
  | cons p rest ih =>
    intro nntp
    rw [plainAttachments_cons, otherAttachments_cons]
    unfold readParts
    unfold partMediaType
    simp only
    cases hpm : lib.ParseMediaType (hdrGet p.Header "Content-Type".toList) with
    | error e =>
      simp only [ih]
      rw [if_neg (by simp)]
    | ok r =>
      obtain ⟨m, ps2⟩ := r
      simp only
      by_cases hplain : m = "text/plain".toList
      · rw [if_pos hplain, if_pos (by rw [hplain]), if_pos hplain]
        cases hr : readAttachmentFromMimePart lib p with
        | none => simp only [ih]
        | some att =>
          simp only [ih]
          rw [getLast?_cons_or]
      · rw [if_neg hplain, if_neg (fun h => hplain (Option.some.inj h)), if_neg hplain]
        cases hr : readAttachmentFromMimePart lib p with
        | none => simp only [ih]
        | some att =>
          simp only [ih, nntpArticle.Attach, List.append_assoc, List.singleton_append]

theorem ReadBytes_eof (delim : Char) :
    ∀ s : Str, (ReadBytes delim s).2.1 = true ↔ delim ∉ s := by
  intro s
  induction s with
  | nil => simp [ReadBytes]
  | cons c cs ih =>
    by_cases h : c = delim
    · simp [ReadBytes, h]
    · have h2 : ¬ delim = c := fun e => h e.symm
      simp [ReadBytes, h, h2, ih]

/-- Claim C9 as amended. For a message whose Content-Type has a boundary parameter and
whose parts are read to io.EOF, read_message returns an article whose body is the LAST
text/plain part that could be read and whose attachment list holds the readable parts of
every other media type, in part order; no text/plain part enters the attachment list. -/
theorem multipart_body_is_last_plain_part (lib : Lib) (msg : mailMessage) (mt b : Str)
    (params : List (Str × Str))
    (hct : lib.ParseMediaType (lib.ContentType msg.Header) = Except.ok (mt, params))
    (hb : params.lookup "boundary".toList = some b) (herr : msg.PartsErr = none) :
    ∃ art : nntpArticle, read_message lib (Except.ok msg) = (some art, none) ∧
      art.message = (plainAttachments lib msg.Parts).getLast? ∧
      art.attachments = otherAttachments lib msg.Parts := by
  refine ⟨readParts lib msg.Parts (emptyArticle msg), ?_, ?_, ?_⟩
  · unfold read_message
    simp only [hct, hb, herr]
    rfl
  · rw [readParts_eq]
    simp [emptyArticle]
  · rw [readParts_eq]
    simp [emptyArticle]

/-- Claim C10 as amended. read_message dispatches on the boundary parameter first: with
a boundary parameter the body is read as MIME multipart whatever the media type; without
one, media type message/rfc822 takes the signed-envelope path and every other media type
makes the whole body the plaintext body, with an empty attachment list. -/
theorem read_message_dispatch (lib : Lib) (msg : mailMessage) (mt : Str)
    (params : List (Str × Str))
    (hct : lib.ParseMediaType (lib.ContentType msg.Header) = Except.ok (mt, params)) :
    (∀ b : Str, params.lookup "boundary".toList = some b →
      read_message lib (Except.ok msg) =
        match msg.PartsErr with
        | none =>
          (some { emptyArticle msg with
            message := (plainAttachments lib msg.Parts).getLast?
            attachments := otherAttachments lib msg.Parts }, none)
        | some err => (none, some err)) ∧
    (params.lookup "boundary".toList = none → mt = "message/rfc822".toList →
      read_message lib (Except.ok msg) =
        if lib.Pubkey msg.Header = [] ∨
            headersGet msg.Header "X-Signature-Ed25519-Sha512".toList [] = [] then
          (none, some "invalid headers".toList)
        else if '\n' ∈ msg.Body then
          (some { emptyArticle msg with signedPart := some (signedAttachment msg) }, none)
        else (none, some "EOF".toList)) ∧
    (params.lookup "boundary".toList = none → mt ≠ "message/rfc822".toList →
      read_message lib (Except.ok msg) =
        (some { emptyArticle msg with
          message := some (createPlaintextAttachment msg.Body) }, none)) := by
  refine ⟨?_, ?_, ?_⟩
  · intro b hb
    unfold read_message
    simp only [hct, hb]
    cases msg.PartsErr with
    | none =>
      simp only [readParts_eq]
      simp [emptyArticle]
    | some err => rfl
  · intro hb hmt
    unfold read_message
    simp only [hct, hb, hmt, if_true]
    by_cases hk : lib.Pubkey msg.Header = [] ∨
        headersGet msg.Header "X-Signature-Ed25519-Sha512".toList [] = []
    · rw [if_pos hk, if_pos hk]
    · rw [if_neg hk, if_neg hk]
      by_cases hn : '\n' ∈ msg.Body
      · have he : (ReadBytes '\n' msg.Body).2.1 = false := by
          cases h : (ReadBytes '\n' msg.Body).2.1 with
          | false => rfl
          | true => exact absurd hn ((ReadBytes_eof '\n' msg.Body).1 h)
        rw [if_pos hn]
        rcases hrb : ReadBytes '\n' msg.Body with ⟨line, eof, rest⟩
        rw [hrb] at he
        simp only at he
        subst he
        simp only [ite_self]
        rfl
      · have he : (ReadBytes '\n' msg.Body).2.1 = true := (ReadBytes_eof '\n' msg.Body).2 hn
        rw [if_neg hn]
        rcases hrb : ReadBytes '\n' msg.Body with ⟨line, eof, rest⟩
        rw [hrb] at he
        simp only at he
        subst he
        rfl
  · intro hb hmt
    unfold read_message
    simp only [hct, hb, hmt, if_false]
    rfl

/-! ## Evaluations of the attachment and message claims -/

/-- Witness for claim C7: the base64 part of the examples read by
readAttachmentFromMimePart, and the same content given to createAttachment. -/
theorem attachment_content_addressed_witness :
    (∃ a, readAttachmentFromMimePart exampleLib exampleBase64Part = some a ∧
      a.body = "YWJj".toList ∧
      a.filepath = exampleLib.base32 (exampleLib.sha512 "YWJj".toList) ++ a.ext ∧
      a.hash = exampleLib.sha512 "YWJj".toList ∧
      (a.Hash exampleLib).1 = exampleLib.sha512 "YWJj".toList) ∧
    (∃ a, createAttachment exampleLib "image/png".toList "cat.png".toList "YWJj".toList =
        some a ∧
      a.body = "YWJj".toList ∧
      a.filepath = exampleLib.base32 (exampleLib.sha512 "YWJj".toList) ++ a.ext ∧
      a.hash = exampleLib.sha512 "YWJj".toList ∧
      (a.Hash exampleLib).1 = exampleLib.sha512 "YWJj".toList) :=
  ⟨(attachment_content_addressed exampleLib "YWJj".toList).1 exampleBase64Part (by decide),
   (attachment_content_addressed exampleLib "YWJj".toList).2.1 "image/png".toList "cat.png".toList
     "YWJj".toList "image/png".toList [] rfl rfl⟩

/-- Counterexample to claim C8 as stated: for the file name `.png` both constructors
give the extension ".txt", not ".png". -/
theorem extension_of_leading_dot_name :
    (readAttachmentFromMimePart exampleLib
        (examplePart "image/png".toList ".png".toList "abc".toList)).map nntpAttachment.ext =
      some ".txt".toList ∧
    (createAttachment exampleLib "image/png".toList ".png".toList "abc".toList).map
        nntpAttachment.ext = some ".txt".toList ∧
    ".txt".toList ≠ ".png".toList := by
  decide

/-- Witness for claim C8 as amended: the file name `cat.png` has extension ".png". -/
theorem attachment_extension_witness :
    builtForName exampleLib exampleCatAttachment "cat.png".toList ∧
    exampleCatAttachment.ext = '.' :: "png".toList :=
  ⟨Or.inl ⟨exampleBase64Part, rfl, by decide⟩,
   (attachment_extension exampleLib exampleCatAttachment "cat.png".toList
      (Or.inl ⟨exampleBase64Part, rfl, by decide⟩)).1 "cat".toList "png".toList rfl
      (by decide) (by decide)⟩

/-- Counterexample to claim C9 as stated: of two text/plain parts `first` and `second`
the body of the article is `second`, and `first` is not in the attachment list, which
is empty. -/
theorem multipart_last_plain_part_wins :
    (read_message exampleLib (Except.ok exampleTwoPlain)).1.map
        (fun art => (art.message.map nntpAttachment.body, art.attachments)) =
      some (some "second".toList, []) ∧
    (read_message exampleLib (Except.ok exampleTwoPlain)).2 = none := by
  decide

/-- Witness for claim C9 as amended: the two-part message of the examples. -/
theorem multipart_body_is_last_plain_part_witness :
    ∃ art : nntpArticle,
      read_message exampleLib (Except.ok exampleTwoPlain) = (some art, none) ∧
      art.message = (plainAttachments exampleLib exampleTwoPlain.Parts).getLast? ∧
      art.attachments = otherAttachments exampleLib exampleTwoPlain.Parts :=
  multipart_body_is_last_plain_part exampleLib exampleTwoPlain "multipart/mixed".toList
    "xx".toList [("boundary".toList, "xx".toList)] rfl (by decide) rfl

/-- Counterexample to claim C10 as stated: a message of media type text/plain whose
Content-Type has a boundary parameter is read as multipart (no body, one attachment),
and a message of media type multipart/mixed without a boundary parameter is not: its
whole body becomes the plaintext body. -/
theorem dispatch_follows_boundary_parameter :
    exampleLib.ParseMediaType (exampleLib.ContentType examplePlainWithBoundary.Header) =
      Except.ok ("text/plain".toList, [("boundary".toList, "xx".toList)]) ∧
    (read_message exampleLib (Except.ok examplePlainWithBoundary)).1.map
        (fun art => (art.message, art.attachments.map nntpAttachment.filename)) =
      some (none, ["cat.png".toList]) ∧
    exampleLib.ParseMediaType (exampleLib.ContentType exampleMultipartNoBoundary.Header) =
      Except.ok ("multipart/mixed".toList, []) ∧
    (read_message exampleLib (Except.ok exampleMultipartNoBoundary)).1.map
        (fun art => (art.message.map nntpAttachment.body, art.attachments)) =
      some (some "hello\n".toList, []) :=
  ⟨rfl, by decide, rfl, by decide⟩

/-- Witness for claim C10 as amended: the text/plain message with a boundary parameter
is read as multipart. -/
theorem read_message_dispatch_witness :
    read_message exampleLib (Except.ok examplePlainWithBoundary) =
      match examplePlainWithBoundary.PartsErr with
      | none =>
        (some { emptyArticle examplePlainWithBoundary with
          message := (plainAttachments exampleLib examplePlainWithBoundary.Parts).getLast?
          attachments := otherAttachments exampleLib examplePlainWithBoundary.Parts }, none)
      | some err => (none, some err) :=
  (read_message_dispatch exampleLib examplePlainWithBoundary "text/plain".toList
    [("boundary".toList, "xx".toList)] rfl).1 "xx".toList (by decide)

/-! ## Lines of a buffer and the hash input of a signed envelope -/

theorem ReadBytes_of_not_mem (c : Char) : ∀ s : Str, c ∉ s → ReadBytes c s = (s, true, []) := by
  intro s
  induction s with
  | nil => intro _; rfl
  | cons x xs ih =>
    intro h
    have hx : x ≠ c := fun e => h (by simp [e])
    have hxs : c ∉ xs := fun m => h (List.mem_cons_of_mem _ m)
    simp [ReadBytes, hx, ih hxs]

theorem ReadBytes_append (c : Char) (r : Str) :
    ∀ l : Str, c ∉ l → ReadBytes c (l ++ c :: r) = (l ++ [c], false, r) := by
  intro l
  induction l with
  | nil => intro _; simp [ReadBytes]
  | cons x xs ih =>
    intro h
    have hx : x ≠ c := fun e => h (by simp [e])
    have hxs : c ∉ xs := fun m => h (List.mem_cons_of_mem _ m)
    simp [ReadBytes, hx, ih hxs]

theorem exists_first_occurrence (c : Char) :
    ∀ s : Str, c ∈ s → ∃ l r, s = l ++ c :: r ∧ c ∉ l := by
  intro s
  induction s with
  | nil => intro h; simp at h
  | cons x xs ih =>
    intro h
    by_cases hx : x = c
    · exact ⟨[], xs, by simp [hx], by simp⟩
    · have hxs : c ∈ xs := by
        rcases List.mem_cons.1 h with h1 | h1
        · exact absurd h1.symm hx
        · exact h1
      obtain ⟨l, r, hs, hl⟩ := ih hxs
      refine ⟨x :: l, r, by simp [hs], ?_⟩
      intro hm
      rcases List.mem_cons.1 hm with h1 | h1
      · exact hx h1.symm
      · exact hl h1

theorem Split_ne_nil (sep : Char) : ∀ s : Str, Split sep s ≠ [] := by
  intro s
  induction s with
  | nil => simp [Split]
  | cons c cs ih =>
    unfold Split
    split
    · simp
    · split <;> simp

theorem terminatedLines_of_not_mem (s : Str) (h : '\n' ∉ s) : terminatedLines s = [] := by
  simp [terminatedLines, Split_of_not_mem h]

theorem terminatedLines_append (l r : Str) (h : '\n' ∉ l) :
    terminatedLines (l ++ '\n' :: r) = l :: terminatedLines r := by
  unfold terminatedLines
  rw [Split_append_sep r h]
  cases hs : Split '\n' r with
  | nil => exact absurd hs (Split_ne_nil _ _)
  | cons a t => simp [List.dropLast]

theorem signedLoop_eq :
    ∀ (fuel : Nat) (buff h : Str), buff.length < fuel →
      signedLoop fuel buff h =
        h ++ ((terminatedLines buff).map (fun x => ['\r', '\n'] ++ x)).flatten := by
  intro fuel
  induction fuel with
  | zero => intro buff h hf; omega
  | succ n ih =>
    intro buff h hf
    by_cases hm : '\n' ∈ buff
    · obtain ⟨l, r, hs, hl⟩ := exists_first_occurrence '\n' buff hm
      subst hs
      have hr : r.length < n := by
        simp at hf
        omega
      unfold signedLoop
      rw [ReadBytes_append '\n' r l hl]
      simp only
      rw [ih r _ hr, terminatedLines_append l r hl]
      simp [List.dropLast_concat]
    · unfold signedLoop
      rw [ReadBytes_of_not_mem '\n' buff hm, terminatedLines_of_not_mem buff hm]
      simp

theorem signedHashInput_eq (buff : Str) :
    signedHashInput buff =
      if terminatedLines buff = [] then none else some (joinCRLF (terminatedLines buff)) := by
  by_cases hm : '\n' ∈ buff
  · obtain ⟨l, r, hs, hl⟩ := exists_first_occurrence '\n' buff hm
    subst hs
    unfold signedHashInput
    rw [ReadBytes_append '\n' r l hl]
    simp only
    rw [signedLoop_eq _ _ _ (Nat.lt_succ_self _), terminatedLines_append l r hl]
    simp [joinCRLF, List.dropLast_concat]
  · unfold signedHashInput
    rw [ReadBytes_of_not_mem '\n' buff hm, terminatedLines_of_not_mem buff hm]
    simp

/-- In the signed-envelope branch read_message hashes `signedHashInput` of the body and
passes the digest to the verifier; both outcomes of the verifier lead to the same
return value. -/
theorem read_message_signed_eq (lib : Lib) (msg : mailMessage) (mt : Str)
    (params : List (Str × Str))
    (hct : lib.ParseMediaType (lib.ContentType msg.Header) = Except.ok (mt, params))
    (hb : params.lookup "boundary".toList = none) (hmt : mt = "message/rfc822".toList)
    (hpk : lib.Pubkey msg.Header ≠ [])
    (hsig : headersGet msg.Header "X-Signature-Ed25519-Sha512".toList [] ≠ []) :
    read_message lib (Except.ok msg) =
      match signedHashInput msg.Body with
      | none => (none, some "EOF".toList)
      | some fed =>
        if lib.CryptoVerifyFucky (lib.sha512 fed)
            (lib.unhex (headersGet msg.Header "X-Signature-Ed25519-Sha512".toList []))
            (lib.unhex (lib.Pubkey msg.Header)) then (some (signedEnvelope msg), none)
        else (some (signedEnvelope msg), none) := by
  have hk : ¬ (lib.Pubkey msg.Header = [] ∨
      headersGet msg.Header "X-Signature-Ed25519-Sha512".toList [] = []) := by
    intro h
    rcases h with h | h
    · exact hpk h
    · exact hsig h
  unfold read_message signedHashInput
  simp only [hct, hb, hmt, if_true]
  rw [if_neg hk]
  rcases hrb : ReadBytes '\n' msg.Body with ⟨line, eof, rest⟩
  cases eof with
  | true => rfl
  | false => rfl

/-- The newline-terminated lines of a buffer written as lines, each followed by a
newline, and a rest without a newline. -/
theorem terminatedLines_of_lines :
    ∀ (lines : List Str) (tail : Str), (∀ l ∈ lines, '\n' ∉ l) → '\n' ∉ tail →
      terminatedLines ((lines.map (fun l => l ++ ['\n'])).flatten ++ tail) = lines := by
  intro lines
  induction lines with
  | nil =>
    intro tail _ ht
    simpa using terminatedLines_of_not_mem tail ht
  | cons l ls ih =>
    intro tail hl ht
    have h1 : '\n' ∉ l := hl l (by simp)
    have h2 : ∀ x ∈ ls, '\n' ∉ x := fun x hx => hl x (List.mem_cons_of_mem _ hx)
    have e : ((l :: ls).map (fun l => l ++ ['\n'])).flatten ++ tail =
        l ++ '\n' :: ((ls.map (fun l => l ++ ['\n'])).flatten ++ tail) := by
      simp
    rw [e, terminatedLines_append l _ h1, ih tail h2 ht]

/-- Claim C11 as amended. For a signed body made of the lines l1..ln, each followed by a
newline, and a rest without a newline, the bytes fed to SHA-512 are l1 followed, for
each further line, by CR LF and the line, each without its newline; the rest after the
last newline is not hashed. When there is no newline-terminated line nothing is hashed,
and read_message returns the error of the first read for such an envelope; otherwise it
returns the envelope. -/
theorem signed_hash_input_terminated_lines (lines : List Str) (tail : Str)
    (hl : ∀ l ∈ lines, '\n' ∉ l) (ht : '\n' ∉ tail) :
    signedHashInput ((lines.map (fun l => l ++ ['\n'])).flatten ++ tail) =
      (if lines = [] then none else some (joinCRLF lines)) ∧
    ∀ (lib : Lib) (msg : mailMessage) (mt : Str) (params : List (Str × Str)),
      msg.Body = (lines.map (fun l => l ++ ['\n'])).flatten ++ tail →
      lib.ParseMediaType (lib.ContentType msg.Header) = Except.ok (mt, params) →
      params.lookup "boundary".toList = none → mt = "message/rfc822".toList →
      lib.Pubkey msg.Header ≠ [] →
      headersGet msg.Header "X-Signature-Ed25519-Sha512".toList [] ≠ [] →
      read_message lib (Except.ok msg) =
        (if lines = [] then (none, some "EOF".toList)
         else (some (signedEnvelope msg), none)) := by
  have hin : signedHashInput ((lines.map (fun l => l ++ ['\n'])).flatten ++ tail) =
      (if lines = [] then none else some (joinCRLF lines)) := by
    rw [signedHashInput_eq, terminatedLines_of_lines lines tail hl ht]
  refine ⟨hin, ?_⟩
  intro lib msg mt params hbody hct hb hmt hpk hsig
  rw [read_message_signed_eq lib msg mt params hct hb hmt hpk hsig, hbody, hin]
  by_cases h : lines = []
  · simp [h]
  · simp [h]

/-- Witness for claim C11 as amended: the body of the signed envelope of the examples,
three lines each followed by a newline. -/
theorem signed_hash_input_terminated_lines_witness :
    (exampleEnvelope "bad".toList).Body =
      (["Subject: hi".toList, [], "hello".toList].map (fun l => l ++ ['\n'])).flatten ++ [] ∧
    signedHashInput (exampleEnvelope "bad".toList).Body =
      some "Subject: hi\r\n\r\nhello".toList :=
  ⟨by decide,
   (signed_hash_input_terminated_lines ["Subject: hi".toList, [], "hello".toList] [] (by decide) (by decide)).1⟩

/-- Counterexample to claim C11 as stated: for the body `a`, newline, `b` the claim
gives the hash input `a` CR LF `b`, the code hashes `a` alone; and the one-line body `a`
is not hashed at all. -/
theorem final_line_without_newline_not_hashed :
    joinCRLF (allLines "a\nb".toList) = "a\r\nb".toList ∧
    signedHashInput "a\nb".toList = some "a".toList ∧
    signedHashInput "a".toList = none := by
  decide

theorem readParts_ignores_verifier (lib : Lib) (v : Str → Str → Str → Bool) :
    ∀ (ps : List Part) (nntp : nntpArticle),
      readParts { lib with CryptoVerifyFucky := v } ps nntp = readParts lib ps nntp := by
  intro ps
  induction ps with
  | nil => intro nntp; rfl
  | cons p rest ih =>
    intro nntp
    have hr : readAttachmentFromMimePart { lib with CryptoVerifyFucky := v } p =
        readAttachmentFromMimePart lib p := rfl
    unfold readParts
    simp only [hr, ih]

/-- The value read_message returns does not depend on the verifier. -/
theorem read_message_ignores_verifier (lib : Lib) (v : Str → Str → Str → Bool)
    (r : Except Err mailMessage) :
    read_message { lib with CryptoVerifyFucky := v } r = read_message lib r := by
  unfold read_message
  simp only [ite_self, readParts_ignores_verifier]

/-- Claim C13, evaluated at a failing input: the signature `bad` of the example
envelope does not verify, yet read_message returns the envelope with its signed part,
the same article as for the verifying signature up to the signature header; its signed
view is not null and StorePost registers the inner article and calls RegisterSigned. -/
theorem unverified_envelope_keeps_signed_view :
    signedHashInput (exampleEnvelope "bad".toList).Body = some "Subject: hi\r\n\r\nhello".toList ∧
    exampleLib.CryptoVerifyFucky (exampleLib.sha512 "Subject: hi\r\n\r\nhello".toList)
      "bad".toList "k".toList = false ∧
    exampleLib.CryptoVerifyFucky (exampleLib.sha512 "Subject: hi\r\n\r\nhello".toList)
      "kSubject: hi\r\n\r\nhello".toList "k".toList = true ∧
    read_message exampleLib (Except.ok (exampleEnvelope "bad".toList)) =
      (some (signedEnvelope (exampleEnvelope "bad".toList)), none) ∧
    read_message exampleLib
        (Except.ok (exampleEnvelope "kSubject: hi\r\n\r\nhello".toList)) =
      (some (signedEnvelope (exampleEnvelope "kSubject: hi\r\n\r\nhello".toList)), none) ∧
    (signedEnvelope (exampleEnvelope "bad".toList)).signedPart =
      (signedEnvelope (exampleEnvelope "kSubject: hi\r\n\r\nhello".toList)).signedPart ∧
    (exampleDeps.Signed (signedEnvelope (exampleEnvelope "bad".toList))).isSome = true ∧
    ((exampleDaemon.store.StorePost exampleLib exampleDeps { fs := [], db := [] }
        (signedEnvelope (exampleEnvelope "bad".toList))).1.db.map
      (fun c => match c with
        | DbCall.RegisterArticle _ => "RegisterArticle".toList
        | DbCall.RegisterSigned msgid pubkey =>
          "RegisterSigned ".toList ++ msgid ++ " ".toList ++ pubkey)) =
      ["RegisterArticle".toList, "RegisterSigned <m@x> k".toList] := by
  decide

/-! ## StorePost -/

/-- Claim C14. StorePost on an article with a signed inner article registers the inner
article and then calls RegisterSigned once, with the message ID and the public key of
the outer article; on an article without one it registers the article itself and does
not call RegisterSigned. No other call is made on the database. -/
theorem StorePost_database_calls (lib : Lib) (deps : Deps) (self : articleStore)
    (w : StoreWorld) (nntp : nntpArticle) :
    (∀ inner : nntpArticle, deps.Signed nntp = some inner →
      (self.StorePost lib deps w nntp).1.db =
        w.db ++ [DbCall.RegisterArticle inner,
          DbCall.RegisterSigned (deps.MessageID nntp) (lib.Pubkey nntp.headers)]) ∧
    (deps.Signed nntp = none →
      (self.StorePost lib deps w nntp).1.db = w.db ++ [DbCall.RegisterArticle nntp]) := by
  constructor
  · intro inner h
    unfold articleStore.StorePost
    simp only [h]
  · intro h
    unfold articleStore.StorePost
    simp only [h]

/-- When the attachment file does not exist yet and can be created, saveAttachment
leaves the buffer of the attachment empty. -/
theorem saveAttachment_drains (deps : Deps) (self : articleStore) (fs : FS)
    (att : nntpAttachment) (hnew : CheckFile fs (self.AttachmentFilepath att.filepath) = false)
    (hpath : self.AttachmentFilepath att.filepath ≠ []) :
    (self.saveAttachment deps fs att).2 = { att with body := [] } := by
  unfold articleStore.saveAttachment
  simp only [hnew, osCreate, hpath, if_false, Bool.false_eq_true]
  by_cases hn : att.NeedsThumbnail = true
  · rw [if_pos hn]
  · rw [if_neg hn]

theorem fsGet_fsPut_other (fs : FS) (p q c : Str) (h : q ≠ p) :
    fsGet (fsPut fs p c) q = fsGet fs q := by
  unfold fsGet fsPut
  have hpq : (q == p) = false := by simp [h]
  rw [List.lookup_cons, hpq]
  induction fs with
  | nil => rfl
  | cons e rest ih =>
    obtain ⟨k, v⟩ := e
    by_cases hk : k = p
    · have hqk : (q == k) = false := by rw [hk]; exact hpq
      simp only [List.filter_cons, hk, ne_eq, not_true_eq_false, decide_False,
        Bool.false_eq_true, if_false, List.lookup_cons, hpq]
      rw [← hk] at ih ⊢
      simpa [hk] using ih
    · simp only [List.filter_cons, ne_eq, hk, not_false_eq_true, decide_True, if_true,
        List.lookup_cons]
      cases hq : (q == k) with
      | true => rfl
      | false => simpa using ih

/-- For an article without signed view and with one new attachment that needs no
thumbnail, whatever the serialiser: the first StorePost writes the serialisation of the
article and leaves the article with its attachment drained, and the second StorePost
writes the serialisation of that drained article. -/
theorem StorePost_second_call_serialises_drained (lib : Lib) (deps : Deps)
    (self : articleStore) (w : StoreWorld) (nntp : nntpArticle) (att : nntpAttachment)
    (hs : deps.Signed nntp = none) (ha : nntp.attachments = [att])
    (hn : att.NeedsThumbnail = false)
    (hf : self.GetFilename lib (deps.MessageID nntp) ≠ [])
    (hu : self.AttachmentFilepath att.filepath ≠ [])
    (hne : self.GetFilename lib (deps.MessageID nntp) ≠ self.AttachmentFilepath att.filepath)
    (hnew : CheckFile w.fs (self.AttachmentFilepath att.filepath) = false)
    (hs2 : deps.Signed { nntp with attachments := [{ att with body := [] }] } = none)
    (hid : deps.MessageID { nntp with attachments := [{ att with body := [] }] } =
      deps.MessageID nntp) :
    (self.StorePost lib deps w nntp).2.1 =
      { nntp with attachments := [{ att with body := [] }] } ∧
    fsGet (self.StorePost lib deps w nntp).1.fs (self.GetFilename lib (deps.MessageID nntp)) =
      some (deps.WriteTo nntp "\n".toList).1 ∧
    fsGet (self.StorePost lib deps (self.StorePost lib deps w nntp).1
        (self.StorePost lib deps w nntp).2.1).1.fs
        (self.GetFilename lib (deps.MessageID nntp)) =
      some (deps.WriteTo { nntp with attachments := [{ att with body := [] }] }
        "\n".toList).1 := by
  have hcheck_other : ∀ (fs : FS) (c : Str),
      CheckFile (fsPut fs (self.GetFilename lib (deps.MessageID nntp)) c)
        (self.AttachmentFilepath att.filepath) =
      CheckFile fs (self.AttachmentFilepath att.filepath) := by
    intro fs c
    unfold CheckFile
    rw [fsGet_fsPut_other _ _ _ _ (Ne.symm hne)]
  have hsave1 : ∀ c : Str,
      self.saveAttachment deps (fsPut w.fs (self.GetFilename lib (deps.MessageID nntp)) c) att =
        (fsPut (fsPut w.fs (self.GetFilename lib (deps.MessageID nntp)) c)
            (self.AttachmentFilepath att.filepath) att.body, { att with body := [] }) := by
    intro c
    unfold articleStore.saveAttachment
    simp only [hcheck_other, hnew, osCreate, hu, if_false, Bool.false_eq_true, hn,
      fileWrite_fsPut, List.nil_append]
  have hfirst : self.StorePost lib deps w nntp =
      ({ fs := fsPut (fsPut w.fs (self.GetFilename lib (deps.MessageID nntp))
            (deps.WriteTo nntp "\n".toList).1) (self.AttachmentFilepath att.filepath) att.body,
         db := w.db ++ [DbCall.RegisterArticle nntp] },
       { nntp with attachments := [{ att with body := [] }] },
       (deps.WriteTo nntp "\n".toList).2) := by
    unfold articleStore.StorePost
    simp only [articleStore.CreateFile, osCreate, hf, if_false, hs, ha,
      articleStore.saveAttachments, fileWrite_fsPut, List.nil_append, hsave1]
  have hsave2 : ∀ c : Str,
      self.saveAttachment deps
        (fsPut (fsPut (fsPut w.fs (self.GetFilename lib (deps.MessageID nntp))
            (deps.WriteTo nntp "\n".toList).1) (self.AttachmentFilepath att.filepath) att.body)
          (self.GetFilename lib (deps.MessageID nntp)) c)
        { att with body := [] } =
      (fsPut (fsPut (fsPut w.fs (self.GetFilename lib (deps.MessageID nntp))
            (deps.WriteTo nntp "\n".toList).1) (self.AttachmentFilepath att.filepath) att.body)
          (self.GetFilename lib (deps.MessageID nntp)) c, { att with body := [] }) := by
    intro c
    have hex : CheckFile
        (fsPut (fsPut (fsPut w.fs (self.GetFilename lib (deps.MessageID nntp))
            (deps.WriteTo nntp "\n".toList).1) (self.AttachmentFilepath att.filepath) att.body)
          (self.GetFilename lib (deps.MessageID nntp)) c)
        (self.AttachmentFilepath att.filepath) = true := by
      rw [hcheck_other]
      unfold CheckFile
      rw [fsGet_fsPut_same]
      rfl
    have hn2 : nntpAttachment.NeedsThumbnail { att with body := [] } = false := hn
    unfold articleStore.saveAttachment
    simp only [hex, if_true, hn2, Bool.and_false, Bool.false_eq_true, if_false]
  refine ⟨?_, ?_, ?_⟩
  · rw [hfirst]
  · rw [hfirst]
    simp only
    rw [fsGet_fsPut_other _ _ _ _ hne, fsGet_fsPut_same]
  · rw [hfirst]
    simp only
    unfold articleStore.StorePost
    simp only [hid, articleStore.CreateFile, osCreate, hf, if_false, hs2,
      articleStore.saveAttachments, fileWrite_fsPut, List.nil_append, hsave2,
      fsGet_fsPut_same]

/-- Claim C15, evaluated at a failing input: StorePost twice on an article with one new
attachment. The first call writes the article with the bytes of the attachment and saves
the attachment, which drains its buffer; the second call rewrites the article file from
the drained article, so the article file differs from the one a single call leaves. The
attachment file is the same after both calls. -/
theorem StorePost_twice_rewrites_article_file :
    fsGet (exampleDaemon.store.StorePost exampleLib exampleDeps { fs := [], db := [] }
        exampleArticleWithAttachment).1.fs "store/<m@x>".toList =
      some ("Message-ID: <m@x>\nContent-Type: multipart/mixed; boundary=xx\n\n" ++
        "hello--cat.png\nYWJj\n").toList ∧
    fsGet (exampleDaemon.store.StorePost exampleLib exampleDeps
        (exampleDaemon.store.StorePost exampleLib exampleDeps { fs := [], db := [] }
          exampleArticleWithAttachment).1
        (exampleDaemon.store.StorePost exampleLib exampleDeps { fs := [], db := [] }
          exampleArticleWithAttachment).2.1).1.fs "store/<m@x>".toList =
      some ("Message-ID: <m@x>\nContent-Type: multipart/mixed; boundary=xx\n\n" ++
        "hello--cat.png\n\n").toList ∧
    fsGet (exampleDaemon.store.StorePost exampleLib exampleDeps { fs := [], db := [] }
        exampleArticleWithAttachment).1.fs "attachments/YWJj.png".toList =
      some "YWJj".toList ∧
    fsGet (exampleDaemon.store.StorePost exampleLib exampleDeps
        (exampleDaemon.store.StorePost exampleLib exampleDeps { fs := [], db := [] }
          exampleArticleWithAttachment).1
        (exampleDaemon.store.StorePost exampleLib exampleDeps { fs := [], db := [] }
          exampleArticleWithAttachment).2.1).1.fs "attachments/YWJj.png".toList =
      some "YWJj".toList := by
  decide

/-! ## Message IDs and file names -/

theorem Split_cons_of_ne (sep c : Char) (cs w : Str) (ws : List Str) (hc : c ≠ sep)
    (hs : Split sep cs = w :: ws) : Split sep (c :: cs) = (c :: w) :: ws := by
  rw [Split, if_neg hc, hs]

theorem Split_append_general (sep : Char) (b : Str) :
    ∀ a : Str, Split sep (a ++ sep :: b) = Split sep a ++ Split sep b := by
  intro a
  induction a with
  | nil => simp [Split]
  | cons c cs ih =>
    by_cases hc : c = sep
    · simp [Split, hc, ← ih]
    · cases hs : Split sep cs with
      | nil => exact absurd hs (Split_ne_nil _ _)
      | cons w ws =>
        have h1 : Split sep (cs ++ sep :: b) = w :: (ws ++ Split sep b) := by
          rw [ih, hs]; rfl
        show Split sep (c :: (cs ++ sep :: b)) = Split sep (c :: cs) ++ Split sep b
        rw [Split_cons_of_ne sep c _ w _ hc h1, Split_cons_of_ne sep c cs w ws hc hs]
        rfl

theorem intercalate_concat (sep y : Str) :
    ∀ xs : List Str, xs ≠ [] →
      List.intercalate sep (xs ++ [y]) = List.intercalate sep xs ++ sep ++ y := by
  intro xs
  induction xs with
  | nil => intro h; exact absurd rfl h
  | cons a t ih =>
    intro _
    cases t with
    | nil => simp [List.intercalate]
    | cons b t2 =>
      have := ih (by simp)
      simp only [List.intercalate, List.cons_append, List.intersperse_cons₂,
        List.flatten_cons, List.append_assoc] at this ⊢
      rw [this]

/-- Cleaning `dir/name` for a cleaned directory and a plain file name gives the same
string back. -/
theorem Clean_dir_name (d name : Str) (hd : cleanDir d) (hs : '/' ∉ name)
    (h0 : name ≠ []) (h1 : name ≠ ['.']) (h2 : name ≠ ['.', '.']) :
    Clean (d ++ '/' :: name) = d ++ '/' :: name := by
  obtain ⟨hc, hdot, hroot⟩ := hd
  have hdne : d ≠ [] := by
    intro e
    rw [e] at hc
    exact absurd hc (by decide)
  have hrooted : HasPrefix (d ++ '/' :: name) ['/'] = HasPrefix d ['/'] := by
    cases d with
    | nil => exact absurd rfl hdne
    | cons x xs => simp [HasPrefix, List.isPrefixOf]
  have hstep : ∀ (r : Bool) (out : List Str), cleanStep r out name = name :: out := by
    intro r out
    simp [cleanStep, h0, h1, h2]
  unfold Clean at hc ⊢
  simp only [hrooted, Split_append_general, Split_of_not_mem hs, List.foldl_append,
    List.foldl_cons, List.foldl_nil, hstep, List.reverse_cons] at hc ⊢
  generalize hxs : (List.foldl (cleanStep (HasPrefix d ['/'])) [] (Split '/' d)).reverse = xs
    at hc ⊢
  by_cases hx : xs = []
  · subst hx
    exfalso
    by_cases hr : HasPrefix d ['/'] = true
    · simp [hr, List.intercalate] at hc
      exact hroot hc.symm
    · simp [hr, List.intercalate] at hc
      exact hdot hc.symm
  · rw [intercalate_concat _ _ _ hx]
    by_cases hr : HasPrefix d ['/'] = true
    · simp only [hr, if_true] at hc ⊢
      simp only [List.cons_ne_nil, if_false] at hc ⊢
      rw [← hc]
      simp
    · simp only [hr] at hc ⊢
      by_cases hb : List.intercalate ['/'] xs = []
      · simp [hb] at hc
        exact absurd hc.symm hdot
      · simp only [hb, if_false, Bool.false_eq_true] at hc
        rw [← hc]
        simp [hb]

theorem hasDotDot_of_two_dots : ∀ (pre post : Str), hasDotDot (pre ++ '.' :: '.' :: post) = true := by
  intro pre
  induction pre with
  | nil => intro post; simp [hasDotDot]
  | cons c cs ih =>
    intro post
    show hasDotDot (c :: (cs ++ '.' :: '.' :: post)) = true
    unfold hasDotDot
    rw [ih post]
    simp

theorem ValidMessageID_plain_name (id : Str) (h : ValidMessageID id = true) :
    '/' ∉ id ∧ id ≠ [] ∧ id ≠ ['.'] ∧ id ≠ ['.', '.'] := by
  unfold ValidMessageID at h
  simp only [Bool.and_eq_true, Bool.not_eq_true', decide_eq_true_eq] at h
  obtain ⟨⟨⟨⟨⟨⟨⟨hh, _⟩, _⟩, _⟩, _⟩, hs⟩, _⟩, _⟩ := h
  refine ⟨?_, ?_, ?_, ?_⟩
  · intro hm
    have : id.contains '/' = true := by simp [hm]
    rw [this] at hs
    exact absurd hs (by decide)
  · intro e; rw [e] at hh; simp at hh
  · intro e; rw [e] at hh; simp at hh
  · intro e; rw [e] at hh; simp at hh

theorem ValidMessageID_rejects (id : Str)
    (h : '/' ∈ id ∨ Char.ofNat 92 ∈ id ∨ (∃ pre post, id = pre ++ '.' :: '.' :: post) ∨
      Char.ofNat 0 ∈ id ∨ ∃ c ∈ id, c.isWhitespace = true) :
    ValidMessageID id = false := by
  have hctl : ∀ c ∈ id, ¬ (32 < c.toNat) → ValidMessageID id = false := by
    intro c hc hn
    cases hv : ValidMessageID id with
    | false => rfl
    | true =>
      unfold ValidMessageID at hv
      simp only [Bool.and_eq_true, Bool.not_eq_true', decide_eq_true_eq, List.all_eq_true] at hv
      obtain ⟨⟨⟨⟨⟨_, hall⟩, _⟩, _⟩, _⟩, _⟩ := hv
      exact absurd (hall c hc).1 hn
  cases hv : ValidMessageID id with
  | false => rfl
  | true =>
    have hv2 := hv
    unfold ValidMessageID at hv2
    simp only [Bool.and_eq_true, Bool.not_eq_true', decide_eq_true_eq] at hv2
    obtain ⟨⟨⟨_, hs⟩, hb⟩, hd⟩ := hv2
    rcases h with h | h | ⟨pre, post, h⟩ | h | ⟨c, hc, hw⟩
    · have : id.contains '/' = true := by simp [h]
      rw [this] at hs
      exact absurd hs (by decide)
    · have : id.contains (Char.ofNat 92) = true := by simp [h]
      rw [this] at hb
      exact absurd hb (by decide)
    · rw [h, hasDotDot_of_two_dots] at hd
      exact absurd hd (by decide)
    · rw [hctl _ h (by decide)] at hv
      exact hv.symm
    · have hn : ¬ (32 < c.toNat) := by
        simp only [Char.isWhitespace, Bool.or_eq_true, decide_eq_true_eq] at hw
        rcases hw with ((hw | hw) | hw) | hw <;> subst hw <;> decide
      rw [hctl c hc hn] at hv
      exact hv.symm

theorem Join_dir_name (d name : Str) (hd : cleanDir d) (hs : '/' ∉ name)
    (h0 : name ≠ []) (h1 : name ≠ ['.']) (h2 : name ≠ ['.', '.']) :
    Join d name = d ++ '/' :: name := by
  have hdne : d ≠ [] := by
    intro e
    have := hd.1
    rw [e] at this
    exact absurd this (by decide)
  unfold Join
  rw [if_pos hdne]
  exact Clean_dir_name d name hd hs h0 h1 h2

/-- Claim C16. With the validator of the spec and a file system without a file of the
empty name: an ID that contains a slash, a backslash, two consecutive dots, NUL or
whitespace is rejected; for a rejected ID GetFilename and GetTempFilename return the
empty path, HasArticle is false and CreateTempFile returns no writer and creates
nothing; for a valid ID the committed file name is store_dir/ID and the temp file name
is incoming_dir/ID, the directories being given as cleaned paths. -/
theorem messageid_safety (lib : Lib) (hlib : lib.ValidMessageID = ValidMessageID)
    (self : articleStore) (fs : FS) (id : Str) (hfs : fsGet fs [] = none) :
    (('/' ∈ id ∨ Char.ofNat 92 ∈ id ∨ (∃ pre post, id = pre ++ '.' :: '.' :: post) ∨
        Char.ofNat 0 ∈ id ∨ ∃ c ∈ id, c.isWhitespace = true) →
      lib.ValidMessageID id = false) ∧
    (lib.ValidMessageID id = false →
      self.GetFilename lib id = [] ∧ self.GetTempFilename lib id = [] ∧
      self.HasArticle lib fs id = false ∧ self.CreateTempFile lib fs id = (none, fs)) ∧
    (lib.ValidMessageID id = true → cleanDir self.directory →
      self.GetFilename lib id = self.directory ++ '/' :: id) ∧
    (lib.ValidMessageID id = true → cleanDir self.temp →
      self.GetTempFilename lib id = self.temp ++ '/' :: id) := by
  refine ⟨?_, ?_, ?_, ?_⟩
  · intro h
    rw [hlib]
    exact ValidMessageID_rejects id h
  · intro hv
    have h1 : self.GetFilename lib id = [] := by simp [articleStore.GetFilename, hv]
    have h2 : self.GetTempFilename lib id = [] := by simp [articleStore.GetTempFilename, hv]
    refine ⟨h1, h2, ?_, ?_⟩
    · simp [articleStore.HasArticle, h1, CheckFile, hfs]
    · simp [articleStore.CreateTempFile, h2, CheckFile, hfs, osCreate]
  · intro hv hd
    rw [hlib] at hv
    obtain ⟨hs, h0, h1, h2⟩ := ValidMessageID_plain_name id hv
    simp only [articleStore.GetFilename, hlib, hv, Bool.not_true, if_false, Bool.false_eq_true]
    exact Join_dir_name _ _ hd hs h0 h1 h2
  · intro hv hd
    rw [hlib] at hv
    obtain ⟨hs, h0, h1, h2⟩ := ValidMessageID_plain_name id hv
    simp only [articleStore.GetTempFilename, hlib, hv, Bool.not_true, if_false,
      Bool.false_eq_true]
    exact Join_dir_name _ _ hd hs h0 h1 h2

/-- Witness for claim C16: the ID `<m@x>` in the store of the examples. -/
theorem messageid_safety_witness :
    exampleDaemon.store.GetFilename exampleLib "<m@x>".toList =
      exampleDaemon.store.directory ++ '/' :: "<m@x>".toList ∧
    exampleDaemon.store.GetTempFilename exampleLib "<m@x>".toList =
      exampleDaemon.store.temp ++ '/' :: "<m@x>".toList ∧
    exampleLib.ValidMessageID "<a/../b@x>".toList = false :=
  ⟨(messageid_safety exampleLib rfl exampleDaemon.store [] "<m@x>".toList rfl).2.2.1
      (by decide) ⟨by decide, by decide, by decide⟩,
   (messageid_safety exampleLib rfl exampleDaemon.store [] "<m@x>".toList rfl).2.2.2
      (by decide) ⟨by decide, by decide, by decide⟩,
   (messageid_safety exampleLib rfl exampleDaemon.store [] "<a/../b@x>".toList rfl).1
      (Or.inl (by decide))⟩

/-- Claim C17. CreateTempFile is a lock on the temp file of an ID: when the temp file
exists it returns no writer and leaves the file system as it is; a writer is returned
only when the temp file did not exist; and for a valid, non-empty ID whose temp file
does not exist it returns a writer on the newly created, empty temp file. -/
theorem CreateTempFile_dedup_lock (lib : Lib) (self : articleStore) (fs : FS) (id : Str) :
    (CheckFile fs (self.GetTempFilename lib id) = true →
      self.CreateTempFile lib fs id = (none, fs)) ∧
    (∀ f : Str, (self.CreateTempFile lib fs id).1 = some f →
      CheckFile fs (self.GetTempFilename lib id) = false) ∧
    (lib.ValidMessageID id = true → id ≠ [] →
      CheckFile fs (self.GetTempFilename lib id) = false →
      self.CreateTempFile lib fs id =
        (some (self.GetTempFilename lib id), fsPut fs (self.GetTempFilename lib id) [])) := by
  refine ⟨?_, ?_, ?_⟩
  · intro h
    simp [articleStore.CreateTempFile, h]
  · intro f hf
    cases hc : CheckFile fs (self.GetTempFilename lib id) with
    | false => rfl
    | true =>
      simp [articleStore.CreateTempFile, hc] at hf
  · intro hv hne hc
    have hp : self.GetTempFilename lib id ≠ [] := by
      simp [articleStore.GetTempFilename, hv, Join_ne_nil _ _ hne]
    simp [articleStore.CreateTempFile, hc, osCreate, hp]

/-! ## Fanout to the outbound feeds -/

theorem federate_getElem? (nntp : ArticleEntry) :
    ∀ (feeds : feedTable) (i : Nat) (key : Str) (feed : nntpConnection),
      feeds[i]? = some (key, feed) →
      (federate nntp feeds)[i]? = some (key,
        if feed.policy.AllowsNewsgroup nntp.Newsgroup then
          if HasSuffix feed.name "-stream".toList then
            { feed with stream := feed.stream ++ [nntpCHECK.mk nntp.MessageID] }
          else feed
        else feed) := by
  intro feeds
  induction feeds with
  | nil => intro i key feed h; simp at h
  | cons e rest ih =>
    intro i key feed h
    obtain ⟨k, f⟩ := e
    cases i with
    | zero =>
      simp only [List.getElem?_cons_zero, Option.some.injEq, Prod.mk.injEq] at h
      obtain ⟨h1, h2⟩ := h
      subst h1 h2
      simp only [federate, List.getElem?_cons_zero]
    | succ n =>
      simp only [List.getElem?_cons_succ] at h
      simp only [federate, List.getElem?_cons_succ]
      exact ih n key feed h

theorem federate_length (nntp : ArticleEntry) :
    ∀ feeds : feedTable, (federate nntp feeds).length = feeds.length := by
  intro feeds
  induction feeds with
  | nil => rfl
  | cons e rest ih =>
    obtain ⟨k, f⟩ := e
    simp [federate, ih]

/-- Claim C18. For an entry of the fanout channel, polloutfeeds keeps the table of
feeds (its size, its keys, and the name, mode, policy and article channel of every
feed) and adds CHECK of the message ID to the stream channel of exactly the feeds
whose policy allows the newsgroup and whose name ends in "-stream"; a feed whose policy
denies the group and a feed whose name does not end in "-stream" receive nothing. -/
theorem fanout_check_recipients (feeds : feedTable) (nntp : ArticleEntry) :
    (polloutfeeds feeds (outfeedEvent.send_all_feeds nntp)).length = feeds.length ∧
    ∀ (i : Nat) (key : Str) (feed : nntpConnection), feeds[i]? = some (key, feed) →
      ∃ feed1 : nntpConnection,
        (polloutfeeds feeds (outfeedEvent.send_all_feeds nntp))[i]? = some (key, feed1) ∧
        feed1.name = feed.name ∧ feed1.mode = feed.mode ∧ feed1.policy = feed.policy ∧
        feed1.article = feed.article ∧
        (feed.policy.AllowsNewsgroup nntp.Newsgroup = true →
          HasSuffix feed.name "-stream".toList = true →
          feed1.stream = feed.stream ++ [nntpCHECK.mk nntp.MessageID]) ∧
        (feed.policy.AllowsNewsgroup nntp.Newsgroup = false → feed1.stream = feed.stream) ∧
        (HasSuffix feed.name "-stream".toList = false → feed1.stream = feed.stream) := by
  refine ⟨federate_length nntp feeds, ?_⟩
  intro i key feed h
  refine ⟨_, federate_getElem? nntp feeds i key feed h, ?_⟩
  by_cases ha : feed.policy.AllowsNewsgroup nntp.Newsgroup = true
  · by_cases hs : HasSuffix feed.name "-stream".toList = true
    · rw [if_pos ha, if_pos hs]
      refine ⟨rfl, rfl, rfl, rfl, fun _ _ => rfl, fun h1 => ?_, fun h1 => ?_⟩
      · rw [ha] at h1; exact absurd h1 (by decide)
      · rw [hs] at h1; exact absurd h1 (by decide)
    · rw [if_pos ha, if_neg hs]
      exact ⟨rfl, rfl, rfl, rfl, fun _ h1 => absurd h1 hs, fun _ => rfl, fun _ => rfl⟩
  · rw [if_neg ha]
    exact ⟨rfl, rfl, rfl, rfl, fun h1 _ => absurd h1 ha, fun _ => rfl, fun _ => rfl⟩

/-- The three feeds of the examples on a fanout entry: only the stream feed whose
policy allows the group receives the CHECK. -/
theorem fanout_example :
    (polloutfeeds exampleFeeds
        (outfeedEvent.send_all_feeds
          { MessageID := "<m@x>".toList, Newsgroup := "overchan.test".toList })).map
      (fun e => (e.1, e.2.stream)) =
    [("a-stream".toList, [nntpCHECK.mk "<m@x>".toList]), ("b-stream".toList, []),
     ("a-reader".toList, [])] := by
  decide

/-! ## Outbound sessions -/

theorem parseCodeLine_code_message (c1 c2 c3 : Char) (msg : Str) (n : Nat)
    (hd : digitsValue [c1, c2, c3] = some n) (hn : 100 ≤ n) (h1 : c1 ≠ '+') (h2 : c1 ≠ '-') :
    parseCodeLine (c1 :: c2 :: c3 :: ' ' :: msg) = ((n : Int), msg, none) := by
  have ha : Atoi [c1, c2, c3] = ((n : Int), true) := by
    unfold Atoi
    split
    · rename_i heq; simp at heq; exact absurd heq.1 h1
    · rename_i heq; simp at heq; exact absurd heq.1 h2
    · rw [hd]
  unfold parseCodeLine
  have hlen : ¬ ((c1 :: c2 :: c3 :: ' ' :: msg).length < 4 ∨
      ((c1 :: c2 :: c3 :: ' ' :: msg).getD 3 ' ' ≠ ' ' ∧
        (c1 :: c2 :: c3 :: ' ' :: msg).getD 3 ' ' ≠ '-')) := by
    simp
  rw [if_neg hlen]
  have ht : (c1 :: c2 :: c3 :: ' ' :: msg).take 3 = [c1, c2, c3] := rfl
  simp only [ht, ha]
  have hn2 : ¬ ((true = false) ∨ (n : Int) < 100) := by
    simp
    exact_mod_cast hn
  rw [if_neg hn2]
  simp

/-- A 238 response whose text after the code is not a valid message ID enqueues
nothing; in particular the response the inbound CHECK handler sends, for any validator
that rejects text with a blank in it. -/
theorem outboundResponse_238_with_text (lib : Lib) (d : NNTPDaemon) (fs : FS) (s : Outbound)
    (id : Str) (rest : List Str)
    (hv : ∀ x : Str, ' ' ∈ x → lib.ValidMessageID x = false)
    (hin : s.input =
      ("238 ".toList ++ id ++ " we want this article please give it".toList) :: rest) :
    outboundResponse lib d fs s = OutboundResult.mainloop { s with input := rest } := by
  have hp : parseCodeLine
      ("238 ".toList ++ id ++ " we want this article please give it".toList) =
      ((238 : Int), id ++ " we want this article please give it".toList, none) := by
    have := parseCodeLine_code_message '2' '3' '8'
      (id ++ " we want this article please give it".toList) 238 (by decide) (by decide)
      (by decide) (by decide)
    simpa using this
  have hinv : lib.ValidMessageID (id ++ " we want this article please give it".toList)
      = false := hv _ (by simp)
  unfold outboundResponse ReadCodeLine
  simp only [hin, hp, hinv]
  simp

/-- Claim C19, evaluated at a failing input: the inbound CHECK handler of this relay
answers `238 <m@x> we want this article please give it` for an article it wants; an
outbound session of this relay that reads this very line enqueues nothing, because the
text after the code is not a valid message ID. It enqueues the article only for the
bare response `238 <m@x>`, and nothing for a 438 response. -/
theorem own_238_reply_enqueues_nothing :
    handleLine exampleLib exampleDaemon 1 "CHECK <m@x>".toList (exampleSession [] []) =
      Outcome.running
        { exampleSession [] [] with
          output := ["238 <m@x> we want this article please give it".toList] } ∧
    outboundResponse exampleLib exampleDaemon
        [("store/<m@x>".toList, "Path: inst!foo\n\nhello\n".toList)]
        (exampleOutbound ["238 <m@x> we want this article please give it".toList]) =
      OutboundResult.mainloop (exampleOutbound []) ∧
    (exampleOutbound []).send = [] ∧
    (match outboundResponse exampleLib exampleDaemon
        [("store/<m@x>".toList, "Path: inst!foo\n\nhello\n".toList)]
        (exampleOutbound ["238 <m@x>".toList]) with
      | OutboundResult.mainloop s1 => s1.send.map Option.isSome
      | OutboundResult.returned _ => []) = [true] ∧
    outboundResponse exampleLib exampleDaemon
        [("store/<m@x>".toList, "Path: inst!foo\n\nhello\n".toList)]
        (exampleOutbound ["438 <m@x> we have this article".toList]) =
      OutboundResult.mainloop (exampleOutbound []) := by
  decide

theorem readCapabilities_eq :
    ∀ (input : List Str) (sup : Bool),
      readCapabilities input sup =
        (sup || (capabilityBlock input).any offersStreaming, afterCapabilities input) := by
  intro input
  induction input with
  | nil => intro sup; simp [readCapabilities, capabilityBlock, afterCapabilities]
  | cons l rest ih =>
    intro sup
    by_cases hl : l = ".".toList
    · have hp : decide (l ≠ ".".toList) = false := decide_eq_false (fun h => h hl)
      have h1 : capabilityBlock (l :: rest) = [] := by
        unfold capabilityBlock
        rw [List.takeWhile_cons]
        simp only [hp, Bool.false_eq_true, if_false]
      have h2 : afterCapabilities (l :: rest) = rest := by
        unfold afterCapabilities
        rw [List.dropWhile_cons]
        simp only [hp, Bool.false_eq_true, if_false, List.drop_succ_cons, List.drop_zero]
      rw [h1, h2]
      unfold readCapabilities
      rw [if_pos hl]
      simp
    · have hp : decide (l ≠ ".".toList) = true := decide_eq_true hl
      have h1 : capabilityBlock (l :: rest) = l :: capabilityBlock rest := by
        unfold capabilityBlock
        rw [List.takeWhile_cons]
        simp only [hp, if_true]
      have h2 : afterCapabilities (l :: rest) = afterCapabilities rest := by
        unfold afterCapabilities
        rw [List.dropWhile_cons]
        simp only [hp, if_true]
      have e : offersStreaming l =
          (decide (ToLower (dotUnstuff l ++ "\n".toList) = "streaming\n".toList) ||
           decide (ToLower (dotUnstuff l ++ "\n".toList) = "postihavestreaming\n".toList)) :=
        rfl
      rw [h1, h2]
      unfold readCapabilities
      rw [if_neg hl, List.any_cons]
      by_cases ha : ToLower (dotUnstuff l ++ "\n".toList) = "streaming\n".toList
      · have ho : offersStreaming l = true := by rw [e, decide_eq_true ha]; rfl
        rw [if_pos ha, ih, ho]
        simp only [Bool.true_or, Bool.or_true]
      · by_cases hb : ToLower (dotUnstuff l ++ "\n".toList) = "postihavestreaming\n".toList
        · have ho : offersStreaming l = true := by
            rw [e, decide_eq_true hb]; simp only [Bool.or_true]
          rw [if_neg ha, if_pos hb, ih, ho]
          simp only [Bool.true_or, Bool.or_true]
        · have ho : offersStreaming l = false := by
            rw [e, decide_eq_false ha, decide_eq_false hb]; rfl
          rw [if_neg ha, if_neg hb, ih, ho]
          simp only [Bool.false_or]

/-- Claim C20 as amended. A fresh outbound session whose peer sends capability lines of
ASCII bytes enters its main loop, in mode stream, exactly when the banner code is 200, a
capability line is STREAMING or POSTIHAVESTREAMING in any case, and the reply to MODE
STREAM is read as a response line with code 203. When the banner code is not 200 it closes without sending anything; when
no capability line offers streaming it sends CAPABILITIES and QUIT and closes; when the
reply to MODE STREAM is read as a response line with another code it sends CAPABILITIES,
MODE STREAM and QUIT and closes. -/
theorem outbound_handshake (s : Outbound) (hinb : s.inbound = false)
    (hsup : s.supportsStream = false)
    (_hascii : ∀ l ∈ s.capabilities, ∀ c ∈ l, c.toNat < 128) :
    (∀ s1 : Outbound, outboundHandshake s = OutboundResult.mainloop s1 →
      s.bannerCode = 200 ∧ s.capabilities.any offersStreaming = true ∧
      s.streamReply.2.2 = none ∧ s.streamReply.1 = 203 ∧ s1.mode = "stream".toList) ∧
    (s.bannerCode ≠ 200 →
      ∃ s1 : Outbound, outboundHandshake s = OutboundResult.returned s1 ∧
        s1.closed = true ∧ s1.output = s.output) ∧
    (s.bannerCode = 200 → s.capabilities.any offersStreaming = false →
      ∃ s1 : Outbound, outboundHandshake s = OutboundResult.returned s1 ∧
        s1.closed = true ∧
        s1.output = s.output ++ ["CAPABILITIES".toList, "QUIT".toList]) ∧
    (s.bannerCode = 200 → s.capabilities.any offersStreaming = true →
      s.streamReply.2.2 = none → s.streamReply.1 ≠ 203 →
      ∃ s1 : Outbound, outboundHandshake s = OutboundResult.returned s1 ∧
        s1.closed = true ∧
        s1.output = s.output ++
          ["CAPABILITIES".toList, "MODE STREAM".toList, "QUIT".toList]) ∧
    (s.bannerCode = 200 → s.capabilities.any offersStreaming = true →
      s.streamReply.2.2 = none → s.streamReply.1 = 203 →
      ∃ s1 : Outbound, outboundHandshake s = OutboundResult.mainloop s1 ∧
        s1.mode = "stream".toList ∧ s1.closed = s.closed ∧
        s1.output = s.output ++ ["CAPABILITIES".toList, "MODE STREAM".toList]) := by
  have hcaps : readCapabilities (ReadCodeLine s.input).2 false =
      (s.capabilities.any offersStreaming, afterCapabilities (ReadCodeLine s.input).2) := by
    rw [readCapabilities_eq]
    simp [Outbound.capabilities]
  have key : outboundHandshake s =
      if s.bannerCode = 200 then
        if s.capabilities.any offersStreaming = true then
          match s.streamReply.2.2 with
          | some _ =>
            OutboundResult.returned
              { s with
                input := (ReadCodeLine (afterCapabilities (ReadCodeLine s.input).2)).2
                allowsPosting := true
                supportsStream := true
                output := s.output ++ ["CAPABILITIES".toList, "MODE STREAM".toList] }
          | none =>
            if s.streamReply.1 = 203 then
              OutboundResult.mainloop
                { s with
                  input := (ReadCodeLine (afterCapabilities (ReadCodeLine s.input).2)).2
                  allowsPosting := true
                  supportsStream := true
                  mode := "stream".toList
                  output := s.output ++ ["CAPABILITIES".toList, "MODE STREAM".toList] }
            else
              OutboundResult.returned
                { s with
                  input := (ReadCodeLine (afterCapabilities (ReadCodeLine s.input).2)).2
                  allowsPosting := true
                  supportsStream := true
                  closed := true
                  output := s.output ++
                    ["CAPABILITIES".toList, "MODE STREAM".toList, "QUIT".toList] }
        else
          OutboundResult.returned
            { s with
              input := afterCapabilities (ReadCodeLine s.input).2
              allowsPosting := true
              supportsStream := false
              closed := true
              output := s.output ++ ["CAPABILITIES".toList, "QUIT".toList] }
      else
        OutboundResult.returned
          { s with
            input := (ReadCodeLine s.input).2
            allowsPosting := false
            closed := true } := by
    unfold outboundHandshake
    simp only [hsup, hcaps]
    by_cases hb : s.bannerCode = 200
    · have hb2 : (ReadCodeLine s.input).1.1 = 200 := hb
      simp only [hb, hb2, if_true, decide_True, Bool.not_true, Bool.false_eq_true, if_false,
        Bool.or_false]
      by_cases hc : s.capabilities.any offersStreaming = true
      · simp only [hc, Bool.not_true, Bool.false_eq_true, if_false, if_true]
        unfold Outbound.streamReply
        cases hr : (ReadCodeLine (afterCapabilities (ReadCodeLine s.input).2)).1.2.2 with
        | some e => simp
        | none =>
          simp only []
          by_cases h203 : (ReadCodeLine (afterCapabilities (ReadCodeLine s.input).2)).1.1 = 203
          · simp [h203]
          · simp [h203, Outbound.Quit, Outbound.Close, hinb]
      · have hc2 : s.capabilities.any offersStreaming = false := by
          cases h : s.capabilities.any offersStreaming with
          | true => exact absurd h hc
          | false => rfl
        simp [hc2, Outbound.Quit, Outbound.Close, hinb]
    · have hb2 : ¬ (ReadCodeLine s.input).1.1 = 200 := hb
      simp [hb, hb2, Outbound.Close]
  refine ⟨?_, ?_, ?_, ?_, ?_⟩
  · intro s1 h
    rw [key] at h
    by_cases hb : s.bannerCode = 200
    · rw [if_pos hb] at h
      by_cases hc : s.capabilities.any offersStreaming = true
      · rw [if_pos hc] at h
        cases hr : s.streamReply.2.2 with
        | some e => rw [hr] at h; simp at h
        | none =>
          rw [hr] at h
          simp only [] at h
          by_cases h203 : s.streamReply.1 = 203
          · rw [if_pos h203] at h
            simp only [OutboundResult.mainloop.injEq] at h
            subst h
            exact ⟨hb, hc, rfl, h203, rfl⟩
          · rw [if_neg h203] at h
            simp at h
      · rw [if_neg hc] at h
        simp at h
    · rw [if_neg hb] at h
      simp at h
  · intro hb
    rw [key, if_neg hb]
    exact ⟨_, rfl, rfl, rfl⟩
  · intro hb hc
    rw [key, if_pos hb, hc]
    exact ⟨_, rfl, rfl, rfl⟩
  · intro hb hc hr h203
    rw [key, if_pos hb, if_pos hc, hr]
    simp only []
    rw [if_neg h203]
    exact ⟨_, rfl, rfl, rfl⟩
  · intro hb hc hr h203
    rw [key, if_pos hb, if_pos hc, hr]
    simp only []
    rw [if_pos h203]
    exact ⟨_, rfl, rfl, rfl, rfl⟩

/-- Witness for claim C20 as amended: a peer that greets with 200, lists Streaming and
answers MODE STREAM with 203. -/
theorem outbound_handshake_witness :
    ∃ s1 : Outbound,
      outboundHandshake
          (exampleOutbound ["200 hello".toList, "101 capabilities".toList,
            "VERSION 2".toList, "Streaming".toList, ".".toList, "203 go".toList]) =
        OutboundResult.mainloop s1 ∧
      s1.mode = "stream".toList ∧
      s1.closed =
        (exampleOutbound ["200 hello".toList, "101 capabilities".toList,
          "VERSION 2".toList, "Streaming".toList, ".".toList, "203 go".toList]).closed ∧
      s1.output =
        (exampleOutbound ["200 hello".toList, "101 capabilities".toList,
          "VERSION 2".toList, "Streaming".toList, ".".toList, "203 go".toList]).output ++
          ["CAPABILITIES".toList, "MODE STREAM".toList] :=
  (outbound_handshake
    (exampleOutbound ["200 hello".toList, "101 capabilities".toList, "VERSION 2".toList,
      "Streaming".toList, ".".toList, "203 go".toList]) rfl rfl (by decide)).2.2.2.2
    (by decide) (by decide) (by decide) (by decide)

/-- Counterexample to claim C20 as stated: the peer answers MODE STREAM with the line
`500`, which is not 203; the session returns without sending QUIT and without closing
the connection. -/
theorem unparsable_stream_reply_no_quit :
    outboundHandshake
        (exampleOutbound ["200 hello".toList, "STREAMING".toList, ".".toList,
          "500".toList]) =
      OutboundResult.returned
        { exampleOutbound [] with
          allowsPosting := true
          supportsStream := true
          output := ["CAPABILITIES".toList, "MODE STREAM".toList]
          closed := false } := by
  decide

/-! ## MODE and the initial mode of an inbound session -/

theorem toNat_ofNat_small (n : Nat) (h : n < 256) : (Char.ofNat n).toNat = n := by
  interval_cases n <;> rfl

theorem toUpper_toLower (c : Char) : c.toLower.toUpper = c.toUpper := by
  unfold Char.toLower
  by_cases h : c.toNat ≥ 65 ∧ c.toNat ≤ 90
  · simp only [h, and_self, if_true]
    unfold Char.toUpper
    have h1 : (Char.ofNat (c.toNat + 32)).toNat = c.toNat + 32 :=
      toNat_ofNat_small _ (by omega)
    simp only [h1]
    have h2 : c.toNat + 32 ≥ 97 ∧ c.toNat + 32 ≤ 122 := by omega
    have h3 : ¬ (c.toNat ≥ 97 ∧ c.toNat ≤ 122) := by omega
    rw [if_pos h2, if_neg h3]
    simp
  · simp only [h, if_false]

theorem toLower_toUpper (c : Char) : c.toUpper.toLower = c.toLower := by
  unfold Char.toUpper
  by_cases h : c.toNat ≥ 97 ∧ c.toNat ≤ 122
  · simp only [h, and_self, if_true]
    unfold Char.toLower
    have h1 : (Char.ofNat (c.toNat - 32)).toNat = c.toNat - 32 :=
      toNat_ofNat_small _ (by omega)
    simp only [h1]
    have h2 : c.toNat - 32 ≥ 65 ∧ c.toNat - 32 ≤ 90 := by omega
    have h3 : ¬ (c.toNat ≥ 65 ∧ c.toNat ≤ 90) := by omega
    rw [if_pos h2, if_neg h3]
    have : c.toNat - 32 + 32 = c.toNat := by omega
    simp [this]
  · simp only [h, if_false]

theorem ToUpper_ToLower (s : Str) : ToUpper (ToLower s) = ToUpper s := by
  simp [ToUpper, ToLower, toUpper_toLower]

theorem ToLower_ToUpper (s : Str) : ToLower (ToUpper s) = ToLower s := by
  simp [ToUpper, ToLower, toLower_toUpper]

/-- Comparing in upper case, as the MODE block does, is comparing in lower case. -/
theorem ToUpper_eq_iff (s w : Str) : ToUpper s = ToUpper w ↔ ToLower s = ToLower w := by
  constructor
  · intro h
    rw [← ToLower_ToUpper s, h, ToLower_ToUpper]
  · intro h
    rw [← ToUpper_ToLower s, h, ToUpper_ToLower]

theorem handleLine_MODE (lib : Lib) (d : NNTPDaemon) (fuel : Nat) (line : Str)
    (args : List Str) (s : Session) (h : Split ' ' line = "MODE".toList :: args) :
    handleLine lib d fuel line s = Outcome.running (handleMODE ("MODE".toList :: args) s) := by
  have h1 : (("MODE".toList :: args).headD [] = "CAPABILITIES".toList) = False := by
    simp
  have h2 : (("MODE".toList :: args).headD [] = "MODE".toList) = True := by
    simp
  unfold handleLine
  simp only [h]
  simp only [h1, h2, if_false, if_true]

/-- Claim C21. For every line whose first field is MODE, whatever the mode of the session:
with one argument that is `reader` in any mixture of cases the mode becomes reader and
the reply is 201; with one argument that is `stream` in any mixture of cases the mode
becomes stream and the reply is 203; with any other single argument of ASCII bytes the
reply is 501, and with no argument or more than one it is 500, the session otherwise
unchanged. -/
theorem mode_command (lib : Lib) (d : NNTPDaemon) (fuel : Nat) (line : Str)
    (args : List Str) (s : Session) (h : Split ' ' line = "MODE".toList :: args) :
    (∀ arg, args = [arg] → ToLower arg = "reader".toList →
      handleLine lib d fuel line s =
        Outcome.running
          { s with mode := "reader".toList
                   output := s.output ++ ["201 posting disallowed".toList] }) ∧
    (∀ arg, args = [arg] → ToLower arg = "stream".toList →
      handleLine lib d fuel line s =
        Outcome.running
          { s with mode := "stream".toList
                   output := s.output ++ ["203 stream it".toList] }) ∧
    (∀ arg, args = [arg] → (∀ c ∈ arg, c.toNat < 128) →
      ToLower arg ≠ "reader".toList → ToLower arg ≠ "stream".toList →
      handleLine lib d fuel line s =
        Outcome.running { s with output := s.output ++ ["501 mode not implemented".toList] }) ∧
    (args.length ≠ 1 →
      handleLine lib d fuel line s =
        Outcome.running { s with output := s.output ++ ["500 syntax error".toList] }) := by
  rw [handleLine_MODE lib d fuel line args s h]
  have r201 : (Nat.repr 201).toList = "201".toList := by decide
  have r203 : (Nat.repr 203).toList = "203".toList := by decide
  have r501 : (Nat.repr 501).toList = "501".toList := by decide
  have r500 : (Nat.repr 500).toList = "500".toList := by decide
  have hR : ∀ arg, ToUpper arg = "READER".toList ↔ ToLower arg = "reader".toList := by
    intro arg
    have := ToUpper_eq_iff arg "reader".toList
    have e1 : ToUpper "reader".toList = "READER".toList := by decide
    have e2 : ToLower "reader".toList = "reader".toList := by decide
    rw [e1, e2] at this
    exact this
  have hS : ∀ arg, ToUpper arg = "STREAM".toList ↔ ToLower arg = "stream".toList := by
    intro arg
    have := ToUpper_eq_iff arg "stream".toList
    have e1 : ToUpper "stream".toList = "STREAM".toList := by decide
    have e2 : ToLower "stream".toList = "stream".toList := by decide
    rw [e1, e2] at this
    exact this
  refine ⟨?_, ?_, ?_, ?_⟩
  · intro arg ha hl
    subst ha
    have hu := (hR arg).2 hl
    unfold handleMODE
    have hlen : ["MODE".toList, arg].length = 2 := rfl
    have hget : ["MODE".toList, arg].getD 1 [] = arg := rfl
    simp only [hlen, hget, hu, if_true, PrintfLine, r201]
    rfl
  · intro arg ha hl
    subst ha
    have hu := (hS arg).2 hl
    have hnr : ToUpper arg ≠ "READER".toList := by
      rw [hu]; decide
    unfold handleMODE
    have hlen : ["MODE".toList, arg].length = 2 := rfl
    have hget : ["MODE".toList, arg].getD 1 [] = arg := rfl
    simp only [hlen, hget, if_true, PrintfLine]
    rw [if_neg hnr, if_pos hu]
    simp only [r203]
    rfl
  · intro arg ha _ hl1 hl2
    subst ha
    have hnr : ToUpper arg ≠ "READER".toList := fun e => hl1 ((hR arg).1 e)
    have hns : ToUpper arg ≠ "STREAM".toList := fun e => hl2 ((hS arg).1 e)
    unfold handleMODE
    have hlen : ["MODE".toList, arg].length = 2 := rfl
    have hget : ["MODE".toList, arg].getD 1 [] = arg := rfl
    simp only [hlen, hget, if_true, PrintfLine]
    rw [if_neg hnr, if_neg hns]
    simp only [r501]
    rfl
  · intro hlen
    unfold handleMODE
    have hl2 : ¬ (("MODE".toList :: args).length = 2) := by
      simp only [List.length_cons]; omega
    simp only [PrintfLine]
    rw [if_neg hl2]
    simp only [r500]
    rfl

/-- Witness for claim C21: `MODE reader`, `MODE Stream`, `MODE foo` and a bare `MODE`
sent to a session of the examples. -/
theorem mode_command_witness :
    Split ' ' "MODE Stream".toList = "MODE".toList :: ["Stream".toList] ∧
    handleLine exampleLib exampleDaemon 1 "MODE Stream".toList
        { exampleSession [] [] with mode := "reader".toList } =
      Outcome.running
        { exampleSession [] [] with
          mode := "stream".toList, output := [] ++ ["203 stream it".toList] } :=
  ⟨by decide,
   (mode_command exampleLib exampleDaemon 1 "MODE Stream".toList ["Stream".toList]
      { exampleSession [] [] with mode := "reader".toList } (by decide)).2.1
      "Stream".toList rfl (by decide)⟩

/-- In the mode HandleInbound sets at its start, the upper-case `STREAM`, a line whose
command is neither CAPABILITIES nor MODE changes nothing and draws no reply: the stream
branch is entered for the lower-case `stream` only. -/
theorem handleLine_initial_mode (lib : Lib) (d : NNTPDaemon) (fuel : Nat) (line : Str)
    (s : Session) (hm : s.mode = "STREAM".toList)
    (h1 : (Split ' ' line).headD [] ≠ "CAPABILITIES".toList)
    (h2 : (Split ' ' line).headD [] ≠ "MODE".toList) :
    handleLine lib d fuel line s = Outcome.running s := by
  unfold handleLine
  simp only
  rw [if_neg h1, if_neg h2, hm]
  have : ¬ ("STREAM".toList = "stream".toList) := by decide
  rw [if_neg this]

/-- Claim C28, evaluated at a failing input: a CHECK and a TAKETHIS sent right after the
greeting draw no reply and store nothing, the session staying in the mode `STREAM`;
after `MODE STREAM` the same CHECK is answered 238 and the same TAKETHIS 239. -/
theorem check_before_mode_gets_no_reply :
    HandleInbound exampleLib exampleDaemon 8
        { mode := [], output := [], fs := [], infeed_load := []
          input := ["CHECK <m@x>".toList] } =
      Outcome.closed
        { mode := "STREAM".toList, input := [], fs := [], infeed_load := []
          output := ["200 2nd generation overchan NNTP Daemon".toList] } ∧
    HandleInbound exampleLib exampleDaemon 8
        { mode := [], output := [], fs := [], infeed_load := []
          input := ["MODE STREAM".toList, "CHECK <m@x>".toList] } =
      Outcome.closed
        { mode := "stream".toList, input := [], fs := [], infeed_load := []
          output := ["200 2nd generation overchan NNTP Daemon".toList,
                     "203 stream it".toList,
                     "238 <m@x> we want this article please give it".toList] } ∧
    HandleInbound exampleLib exampleDaemon 8
        { mode := [], output := [], fs := [], infeed_load := []
          input := ["TAKETHIS <m@x>".toList] } =
      Outcome.closed
        { mode := "STREAM".toList, input := [], fs := [], infeed_load := []
          output := ["200 2nd generation overchan NNTP Daemon".toList] } ∧
    HandleInbound exampleLib exampleDaemon 8
        { mode := [], output := [], fs := [], infeed_load := []
          input := ["MODE STREAM".toList, "TAKETHIS <m@x>".toList, "Path: foo".toList,
                    ".".toList] } =
      Outcome.closed
        { mode := "stream".toList, input := []
          fs := [("store/<m@x>".toList, "Path: inst!foo\n".toList)]
          infeed_load := ["<m@x>".toList]
          output := ["200 2nd generation overchan NNTP Daemon".toList,
                     "203 stream it".toList, "239 <m@x>".toList] } := by
  decide

/-! ## The body loop of TAKETHIS at the end of the input -/

/-- The body loop of TAKETHIS does not end on an input without a lone dot: whatever the
fuel, it is still running when the fuel is used up. -/
theorem takethisLoop_without_dot (d : NNTPDaemon) (f : Str) (rewrote_path : Bool) :
    ∀ (fuel : Nat) (input : List Str) (fs : FS), ".".toList ∉ input →
      takethisLoop d (some f) fuel rewrote_path input fs = BodyResult.outOfFuel := by
  intro fuel
  induction fuel with
  | zero => intro input fs _; rfl
  | succ n ih =>
    intro input fs hdot
    have hline : (ReadLine input).1 ≠ ".".toList := by
      cases input with
      | nil => simp [ReadLine]
      | cons l ls =>
        simp only [ReadLine]
        intro e
        exact hdot (by simp [e])
    have hrest : ".".toList ∉ (ReadLine input).2 := by
      cases input with
      | nil => simp [ReadLine]
      | cons l ls =>
        simp only [ReadLine]
        intro m
        exact hdot (List.mem_cons_of_mem _ m)
    have hrw : (if (!rewrote_path && HasPrefix (ReadLine input).1 "Path: ".toList) = true then
          "Path: ".toList ++ d.instance_name ++ "!".toList ++ (ReadLine input).1.drop 6
        else (ReadLine input).1) ≠ ".".toList := by
      split
      · simp
      · exact hline
    unfold takethisLoop
    simp only
    rw [if_neg hrw]
    exact ih _ _ hrest

/-- Claim C26, refuted: once the peer has nothing more to send (every ReadLine returns
the empty string) the body loop never ends, whatever the fuel, and the session that
received the TAKETHIS never reaches the end of its handler. -/
theorem takethis_body_loop_never_ends (d : NNTPDaemon) (f : Str) (rewrote_path : Bool)
    (fs : FS) (fuel : Nat) :
    takethisLoop d (some f) fuel rewrote_path [] fs = BodyResult.outOfFuel ∧
    takethisLoop d (some f) fuel rewrote_path [[]] fs = BodyResult.outOfFuel ∧
    handleLine exampleLib exampleDaemon fuel "TAKETHIS <m@x>".toList (exampleSession [] []) =
      Outcome.outOfFuel := by
  refine ⟨takethisLoop_without_dot d f rewrote_path fuel [] fs (by simp),
    takethisLoop_without_dot d f rewrote_path fuel [[]] fs (by decide), ?_⟩
  have hsplit : Split ' ' "TAKETHIS <m@x>".toList = ["TAKETHIS".toList, "<m@x>".toList] := by
    decide
  have hv : exampleLib.ValidMessageID "<m@x>".toList = true := by decide
  have hc : exampleDaemon.store.CreateFile exampleLib [] "<m@x>".toList =
      (some "store/<m@x>".toList, [("store/<m@x>".toList, [])]) := by decide
  have hloop := takethisLoop_without_dot exampleDaemon "store/<m@x>".toList false fuel []
    [("store/<m@x>".toList, [])] (by simp)
  have h3 : handleTAKETHIS exampleLib exampleDaemon fuel
      ["TAKETHIS".toList, "<m@x>".toList] (exampleSession [] []) = Outcome.outOfFuel := by
    unfold handleTAKETHIS
    have hget : ["TAKETHIS".toList, "<m@x>".toList].getD 1 [] = "<m@x>".toList := rfl
    have hfs : (exampleSession [] []).fs = [] := rfl
    have hin : (exampleSession [] []).input = [] := rfl
    simp only [hget, hv, List.headD, List.length, if_true, hfs, hin, hc, hloop]
  unfold handleLine
  simp only [hsplit]
  have h1 : (["TAKETHIS".toList, "<m@x>".toList].headD [] = "CAPABILITIES".toList) = False := by
    simp
  have h2 : (["TAKETHIS".toList, "<m@x>".toList].headD [] = "MODE".toList) = False := by simp
  have hmode : (exampleSession [] []).mode = "stream".toList := rfl
  simp only [h1, h2, if_false, hmode, if_true, h3]

/-- One iteration of the body loop at the end of the input: the empty string ReadLine
returns is written to the file as an empty line, and the loop goes on. -/
theorem takethisLoop_step_at_end (d : NNTPDaemon) (f : Str) (rewrote_path : Bool) (fs : FS)
    (content : Str) (fuel : Nat) :
    takethisLoop d (some f) (fuel + 1) rewrote_path [] (fsPut fs f content) =
      takethisLoop d (some f) fuel rewrote_path [] (fsPut fs f (content ++ "\n".toList)) := by
  simp [takethisLoop, ReadLine, HasPrefix, fileWrite_fsPut]

/-! ## The cached hash of an attachment -/

/-- Once a digest is cached, Hash returns it whatever is written to the attachment
afterwards. -/
theorem Hash_after_Write (lib : Lib) (att : nntpAttachment) (b : Str)
    (h : (att.Hash lib).1 ≠ []) :
    (((att.Hash lib).2.Write b).Hash lib).1 = (att.Hash lib).1 := by
  unfold nntpAttachment.Hash at h ⊢
  by_cases h0 : att.hash.length = 0
  · simp only [h0, if_true] at h ⊢
    have hne : ¬ ((lib.sha512 att.body).length = 0) := by
      simpa [List.length_eq_zero] using h
    simp only [nntpAttachment.Write]
    rw [if_neg hne]
  · simp only [h0, if_false] at h ⊢
    simp only [nntpAttachment.Write]
    rw [if_neg h0]

/-- Claim C29, evaluated at a failing input: the plaintext attachment `a` is hashed,
then `b` is written to it; its body is `ab`, yet Hash still returns the digest of `a`
(the digest of the examples is the identity). -/
theorem hash_is_stale_after_write :
    (((createPlaintextAttachment "a".toList).Hash exampleLib).2.Write "b".toList).body =
      "ab".toList ∧
    ((((createPlaintextAttachment "a".toList).Hash exampleLib).2.Write "b".toList).Hash
        exampleLib).1 = exampleLib.sha512 "a".toList ∧
    ((((createPlaintextAttachment "a".toList).Hash exampleLib).2.Write "b".toList).Hash
        exampleLib).1 ≠
      exampleLib.sha512
        (((createPlaintextAttachment "a".toList).Hash exampleLib).2.Write "b".toList).body := by
  decide

/-! ## Thumbnails: the extension lists -/

/-- The extensions isImage and isAudio list, apart from `.webp` and `.m4a`, are among
those of NeedsThumbnail, in any mixture of cases. -/
theorem NeedsThumbnail_of_listed (att : nntpAttachment)
    (h : ToLower att.ext ∈ ([".gif", ".ico", ".png", ".jpeg", ".jpg", ".mp3", ".ogg", ".oga",
      ".opus", ".flac"].map String.toList)) :
    att.NeedsThumbnail = true := by
  unfold nntpAttachment.NeedsThumbnail
  rw [List.any_eq_true]
  refine ⟨ToLower att.ext, ?_, by simp⟩
  simp only [List.map, List.mem_cons, List.mem_singleton, List.not_mem_nil, or_false] at h ⊢
  rcases h with h | h | h | h | h | h | h | h | h | h <;> simp [h]

/-- An attachment whose extension is `.webp` or `.m4a`, in any mixture of cases, needs
no thumbnail according to NeedsThumbnail. -/
theorem NeedsThumbnail_webp_m4a (att : nntpAttachment)
    (h : ToLower att.ext = ".webp".toList ∨ ToLower att.ext = ".m4a".toList) :
    att.NeedsThumbnail = false := by
  unfold nntpAttachment.NeedsThumbnail
  rcases h with h | h <;> rw [h] <;> decide

/-- Claim C30, evaluated at failing inputs: GenerateThumbnail takes `abc.webp` for an
image and `abc.m4a` for an audio file, NeedsThumbnail is false for the extensions
`.webp` and `.m4a`, and saveAttachment writes the upload of either attachment without
making a thumbnail; for `.png` it makes one. -/
theorem webp_and_m4a_get_no_thumbnail :
    articleStore.isImage (exampleAttachment ".webp".toList).filepath = true ∧
    (exampleAttachment ".webp".toList).NeedsThumbnail = false ∧
    (exampleDaemon.store.saveAttachment exampleDeps [] (exampleAttachment ".webp".toList)).1 =
      [("attachments/abc.webp".toList, "abc".toList)] ∧
    articleStore.isAudio (exampleAttachment ".m4a".toList).filepath = true ∧
    (exampleAttachment ".m4a".toList).NeedsThumbnail = false ∧
    (exampleDaemon.store.saveAttachment exampleDeps [] (exampleAttachment ".m4a".toList)).1 =
      [("attachments/abc.m4a".toList, "abc".toList)] ∧
    (exampleDaemon.store.saveAttachment exampleDeps [] (exampleAttachment ".png".toList)).1 =
      [("thumbs/abc.png.jpg".toList, "thumbnail".toList),
       ("attachments/abc.png".toList, "abc".toList)] := by
  decide

/-! ## pollmessages -/

/-- The rollover is the product whenever the second lookup succeeds, whatever the first
returned, and the fallback whenever the second fails. -/
theorem rollover_eq (t p : Int) (e1 : Option Err) :
    rollover (t, e1) (p, none) = t * p ∧ ∀ e2, rollover (t, e1) (p, some e2) = 100 :=
  ⟨rfl, fun _ => rfl⟩

/-- Every turn of pollmessages calls ExpireGroup once, for the newsgroup of the article
and the rollover computed from the two lookups, and sends the message ID and the
newsgroup on send_all_feeds, whether it goes on or panics at the frontend. -/
theorem pollmessagesTurn_calls (lib : Lib) (deps : Deps) (m : MessageMethods) (db : Database)
    (d : NNTPDaemon) (frontend : Option Frontend) (w : PollWorld) (received : nntpArticle) :
    ∃ w1, (pollmessagesTurn lib deps m db d frontend w received = PollResult.next w1 ∨
           pollmessagesTurn lib deps m db d frontend w received = PollResult.panic w1) ∧
      w1.ExpireGroup = w.ExpireGroup ++
        [(m.Newsgroup (d.store.StorePost lib deps w.store
            (m.AppendPath received d.instance_name)).2.1,
          rollover
            (db.GetThreadsPerPage (m.Newsgroup (d.store.StorePost lib deps w.store
              (m.AppendPath received d.instance_name)).2.1))
            (db.GetPagesPerBoard (m.Newsgroup (d.store.StorePost lib deps w.store
              (m.AppendPath received d.instance_name)).2.1)))] ∧
      w1.send_all_feeds = w.send_all_feeds ++
        [ArticleEntry.mk (deps.MessageID (m.AppendPath received d.instance_name))
          (m.Newsgroup (d.store.StorePost lib deps w.store
            (m.AppendPath received d.instance_name)).2.1)] := by
  unfold pollmessagesTurn
  simp only
  cases hc : w.chnl with
  | none => exact ⟨_, Or.inl rfl, rfl, rfl⟩
  | some posts =>
    cases frontend with
    | none => exact ⟨_, Or.inr rfl, rfl, rfl⟩
    | some f =>
      simp only
      cases f.AllowNewsgroup (m.Newsgroup (d.store.StorePost lib deps w.store
            (m.AppendPath received d.instance_name)).2.1) with
      | none => exact ⟨_, Or.inr rfl, rfl, rfl⟩
      | some b =>
        cases b with
        | true => exact ⟨_, Or.inl rfl, rfl, rfl⟩
        | false => exact ⟨_, Or.inl rfl, rfl, rfl⟩

/-- Claim C27, evaluated at a failing input: the lookup of the threads per page fails
(value 0) and that of the pages per board succeeds (value 10); ExpireGroup is called
with the product 0, not with the fallback 100. -/
theorem rollover_ignores_first_lookup_error :
    exampleFailingThreadsPerPage.GetThreadsPerPage "overchan.test".toList =
      (0, some "no such board".toList) ∧
    exampleFailingThreadsPerPage.GetPagesPerBoard "overchan.test".toList = (10, none) ∧
    (∃ w1,
      pollmessages exampleLib exampleDeps exampleMessageMethods exampleFailingThreadsPerPage
        exampleDaemon none examplePollWorld [exampleArticleIn "overchan.test".toList] =
          PollResult.next w1 ∧
      w1.ExpireGroup = [("overchan.test".toList, 0)]) := by
  refine ⟨rfl, rfl, ?_⟩
  refine ⟨_, rfl, ?_⟩
  decide

/-- With an httpFrontend attached whose channel is not nil, a turn of pollmessages hands
the article to the frontend exactly when its newsgroup starts with `overchan.`; the
entry for the outfeeds is sent in both cases. -/
theorem pollmessagesTurn_httpFrontend (lib : Lib) (deps : Deps) (m : MessageMethods)
    (db : Database) (d : NNTPDaemon) (h : httpFrontend) (w : PollWorld)
    (received : nntpArticle) (posts : List nntpArticle) (hc : w.chnl = some posts) :
    ∃ w1, pollmessagesTurn lib deps m db d (some h.asFrontend) w received =
        PollResult.next w1 ∧
      w1.chnl = some
        (if HasPrefix (m.Newsgroup (d.store.StorePost lib deps w.store
            (m.AppendPath received d.instance_name)).2.1) "overchan.".toList = true then
          posts ++ [(d.store.StorePost lib deps w.store
            (m.AppendPath received d.instance_name)).2.1]
        else posts) ∧
      w1.send_all_feeds = w.send_all_feeds ++
        [ArticleEntry.mk (deps.MessageID (m.AppendPath received d.instance_name))
          (m.Newsgroup (d.store.StorePost lib deps w.store
            (m.AppendPath received d.instance_name)).2.1)] := by
  unfold pollmessagesTurn
  simp only [hc, httpFrontend.asFrontend, httpFrontend.AllowNewsgroup]
  cases hp : HasPrefix (m.Newsgroup (d.store.StorePost lib deps w.store
            (m.AppendPath received d.instance_name)).2.1) "overchan.".toList with
  | true => exact ⟨_, rfl, by simp, rfl⟩
  | false => exact ⟨_, rfl, by simp [hc], rfl⟩

/-- Without a frontend the channel of pollmessages is nil and a turn hands the article
to nobody. -/
theorem pollmessagesTurn_no_frontend (lib : Lib) (deps : Deps) (m : MessageMethods)
    (db : Database) (d : NNTPDaemon) (f : Option Frontend) (w : PollWorld)
    (received : nntpArticle) (hc : w.chnl = none) :
    pollmessagesChan none = none ∧
    ∃ w1, pollmessagesTurn lib deps m db d f w received = PollResult.next w1 ∧
      w1.chnl = none := by
  refine ⟨rfl, ?_⟩
  unfold pollmessagesTurn
  simp only [hc]
  exact ⟨_, rfl, rfl⟩

/-- With the frontend MuxFrontends builds, every turn of pollmessages panics at the call
of AllowNewsgroup, after the entry for the outfeeds was sent: nothing is handed to the
frontend, whatever the newsgroup. -/
theorem pollmessagesTurn_MuxFrontends (lib : Lib) (deps : Deps) (m : MessageMethods)
    (db : Database) (d : NNTPDaemon) (fronts : List Frontend) (w : PollWorld)
    (received : nntpArticle) (posts : List nntpArticle) (hc : w.chnl = some posts) :
    pollmessagesChan (some (MuxFrontends fronts)) = some [] ∧
    ∃ w1, pollmessagesTurn lib deps m db d (some (MuxFrontends fronts)) w received =
        PollResult.panic w1 ∧
      w1.chnl = some posts ∧
      w1.send_all_feeds = w.send_all_feeds ++
        [ArticleEntry.mk (deps.MessageID (m.AppendPath received d.instance_name))
          (m.Newsgroup (d.store.StorePost lib deps w.store
            (m.AppendPath received d.instance_name)).2.1)] := by
  refine ⟨rfl, ?_⟩
  unfold pollmessagesTurn
  simp only [hc, MuxFrontends, multiFrontend.asFrontend, multiFrontend.AllowNewsgroup]
  exact ⟨_, rfl, rfl, rfl⟩

/-- Claim C22, evaluated at a failing input: the daemon attaches the frontend
MuxFrontends returns; for an article in `overchan.test` pollmessages sends the entry on
send_all_feeds and then panics at AllowNewsgroup, the channel of the frontend left
empty. With the httpFrontend itself attached the same article is handed over. -/
theorem muxed_frontend_gets_no_article :
    (∃ w1,
      pollmessages exampleLib exampleDeps exampleMessageMethods exampleDatabase exampleDaemon
        (some (MuxFrontends [NewHTTPFrontend])) examplePollWorld
        [exampleArticleIn "overchan.test".toList] = PollResult.panic w1 ∧
      w1.chnl = some [] ∧
      w1.send_all_feeds = [ArticleEntry.mk "<m@x>".toList "overchan.test".toList]) ∧
    (∃ w1,
      pollmessages exampleLib exampleDeps exampleMessageMethods exampleDatabase exampleDaemon
        (some NewHTTPFrontend) examplePollWorld
        [exampleArticleIn "overchan.test".toList] = PollResult.next w1 ∧
      w1.chnl = some [exampleAppendPath (exampleArticleIn "overchan.test".toList)
        "inst".toList] ∧
      w1.send_all_feeds = [ArticleEntry.mk "<m@x>".toList "overchan.test".toList]) := by
  refine ⟨⟨_, rfl, ?_, ?_⟩, ⟨_, rfl, ?_, ?_⟩⟩ <;> decide

/-! ## formatline -/

/-- Whenever formatline returns, the markup ends with the line break. -/
theorem formatline_ends_with_br (mk : Markup) (line markup : Str)
    (h : formatline mk line = some markup) : HasSuffix markup "<br />".toList = true := by
  unfold formatline at h
  simp only [Option.map_eq_some'] at h
  obtain ⟨m, _, rfl⟩ := h
  simp [HasSuffix]

/-- The slice of the redtext branch is out of range exactly for lines shorter than four
bytes. -/
theorem sliceStr_redtext (line : Str) :
    sliceStr line 2 ((line.length : Int) - 2) = none ↔ line.length < 4 := by
  unfold sliceStr
  constructor
  · intro h
    by_contra hlen
    have : (0 : Int) ≤ 2 ∧ (2 : Int) ≤ (line.length : Int) - 2 ∧
        (line.length : Int) - 2 ≤ (line.length : Int) := by omega
    rw [if_pos this] at h
    exact Option.noConfusion h
  · intro h
    have : ¬ ((0 : Int) ≤ 2 ∧ (2 : Int) ≤ (line.length : Int) - 2 ∧
        (line.length : Int) - 2 ≤ (line.length : Int)) := by omega
    rw [if_neg this]

/-- The lines on which formatline panics: those that are `==` or `===` once blanks, tabs
and line ends are trimmed off. -/
theorem formatline_eq_none_iff (mk : Markup) (line : Str) :
    formatline mk line = none ↔
      Trim line "\t\r\n ".toList = "==".toList ∨ Trim line "\t\r\n ".toList = "===".toList := by
  unfold formatline
  simp only [Option.map_eq_none']
  generalize Trim line "\t\r\n ".toList = l
  constructor
  · intro h
    by_cases h0 : l.length > 0
    · rw [if_pos h0] at h
      split at h
      · exact Option.noConfusion h
      · split at h
        · rename_i hred
          cases hs : sliceStr l 2 ((l.length : Int) - 2) with
          | some inner => rw [hs] at h; exact Option.noConfusion h
          | none =>
            have hlen := (sliceStr_redtext l).1 hs
            simp only [Bool.and_eq_true] at hred
            obtain ⟨hp, hsuf⟩ := hred
            match l, hlen, hp, hsuf with
            | [], _, hp, _ => simp [HasPrefix] at hp
            | [a], _, hp, _ => simp [HasPrefix] at hp
            | [a, b], _, hp, _ =>
              simp [HasPrefix] at hp
              left; simp [← hp.1, ← hp.2]
            | [a, b, c], _, hp, hsuf =>
              simp [HasPrefix] at hp
              have : HasSuffix [a, b, c] ['=', '='] = true := hsuf
              simp [HasSuffix, List.isSuffixOf, List.isPrefixOf] at this
              right; simp [← hp.1, ← hp.2, ← this.1]
            | _ :: _ :: _ :: _ :: _, hlen, _, _ => simp at hlen; omega
        · exact Option.noConfusion h
    · rw [if_neg h0] at h
      exact Option.noConfusion h
  · intro h
    rcases h with h | h <;> subst h <;> simp [HasPrefix, HasSuffix, sliceStr]

/-- Claim C25, refuted: on the lines `==` and `===`, which the claim names, formatline
panics at the slice `line[2:len(line)-2]`, whose upper bound is below its lower bound;
`====` is the shortest line of that kind it formats. -/
theorem formatline_panics_on_short_redtext (mk : Markup) :
    formatline mk "==".toList = none ∧
    formatline mk "===".toList = none ∧
    formatline mk "====".toList =
      some ("<span class='redtext'>".toList ++ mk.EscapeString [] ++ "</span>".toList ++
        "<br />".toList) := by
  refine ⟨(formatline_eq_none_iff mk _).2 (Or.inl (by decide)),
    (formatline_eq_none_iff mk _).2 (Or.inr (by decide)), ?_⟩
  unfold formatline
  have ht : Trim "====".toList "\t\r\n ".toList = "====".toList := by decide
  simp only [ht]
  have h1 : (HasPrefix "====".toList ">".toList &&
      !(HasPrefix "====".toList ">>".toList &&
        mk.re_backlink_MatchString ((Split ' ' "====".toList).headD []))) = false := by
    have : HasPrefix "====".toList ">".toList = false := by decide
    rw [this]; rfl
  have h2 : (HasPrefix "====".toList "==".toList && HasSuffix "====".toList "==".toList) =
      true := by decide
  have h3 : sliceStr "====".toList 2 (("====".toList.length : Int) - 2) = some [] := by
    decide
  have h0 : "====".toList.length > 0 := by decide
  rw [if_pos h0, h1, h2, h3]
  simp

/-! ## dialOut: the port check and the request -/

theorem exists_last_occurrence (c : Char) :
    ∀ (s : Str), c ∈ s → ∃ pre suf, s = pre ++ c :: suf ∧ c ∉ suf := by
  intro s
  induction s with
  | nil => intro h; simp at h
  | cons x xs ih =>
    intro h
    by_cases hx : c ∈ xs
    · obtain ⟨pre, suf, e, hs⟩ := ih hx
      exact ⟨x :: pre, suf, by simp [e], hs⟩
    · have : c = x := by
        rcases List.mem_cons.1 h with h | h
        · exact h
        · exact absurd h hx
      subst this
      exact ⟨[], xs, rfl, hx⟩

/-- The value of a string of digits read from a start value. -/
theorem foldl_digits_ge (cs : Str) :
    ∀ n : Nat, n ≤ cs.foldl (fun n c => 10 * n + (c.toNat - 48)) n := by
  induction cs with
  | nil => intro n; exact Nat.le_refl _
  | cons c cs ih =>
    intro n
    simp only [List.foldl_cons]
    exact Nat.le_trans (by omega) (ih _)

theorem parseUintLoop_digits (cs : Str) :
    ∀ n : Nat, cs.all Char.isDigit = true →
      cs.foldl (fun n c => 10 * n + (c.toNat - 48)) n ≤ 65535 →
      parseUintLoop cs n = (cs.foldl (fun n c => 10 * n + (c.toNat - 48)) n, none) := by
  induction cs with
  | nil => intro n _ _; rfl
  | cons c cs ih =>
    intro n hall hle
    simp only [List.all_cons, Bool.and_eq_true] at hall
    simp only [List.foldl_cons] at hle ⊢
    have h1 := foldl_digits_ge cs (10 * n + (c.toNat - 48))
    have h2 : ¬ (10 * n + (c.toNat - 48) > 65535) := by omega
    unfold parseUintLoop
    simp only [hall.1, if_true]
    rw [if_neg h2]
    exact ih _ hall.2 hle

theorem parseUintLoop_overflow (cs : Str) :
    ∀ n : Nat, cs.all Char.isDigit = true →
      65535 < cs.foldl (fun n c => 10 * n + (c.toNat - 48)) n → n ≤ 65535 →
      parseUintLoop cs n = (65535, some "value out of range".toList) := by
  induction cs with
  | nil => intro n _ h1 h2; simp at h1; omega
  | cons c cs ih =>
    intro n hall hlt hn
    simp only [List.all_cons, Bool.and_eq_true] at hall
    simp only [List.foldl_cons] at hlt
    unfold parseUintLoop
    simp only [hall.1, if_true]
    by_cases h2 : 10 * n + (c.toNat - 48) > 65535
    · rw [if_pos h2]
    · rw [if_neg h2]
      exact ih _ hall.2 hlt (by omega)

theorem parseUintLoop_not_digits (cs : Str) :
    ∀ n : Nat, cs.all Char.isDigit = false →
      parseUintLoop cs n = (0, some "invalid syntax".toList) ∨
      parseUintLoop cs n = (65535, some "value out of range".toList) := by
  induction cs with
  | nil => intro n h; simp at h
  | cons c cs ih =>
    intro n hall
    unfold parseUintLoop
    by_cases hc : c.isDigit = true
    · simp only [hc, if_true]
      by_cases h2 : 10 * n + (c.toNat - 48) > 65535
      · rw [if_pos h2]; exact Or.inr rfl
      · rw [if_neg h2]
        have : cs.all Char.isDigit = false := by
          simpa [List.all_cons, hc] using hall
        exact ih _ this
    · simp only [hc]
      exact Or.inl rfl

/-- ParseUint against the value of a string of decimal digits: the value when it fits
16 bits, else an error, with the value 0 or 65535. -/
theorem ParseUint_eq (p : Str) :
    (∀ n, digitsValue p = some n → n ≤ 65535 → ParseUint p = (n, none)) ∧
    (∀ n, digitsValue p = some n → 65535 < n →
      ParseUint p = (65535, some "value out of range".toList)) ∧
    (digitsValue p = none →
      ParseUint p = (0, some "invalid syntax".toList) ∨
      ParseUint p = (65535, some "value out of range".toList)) := by
  cases p with
  | nil =>
    refine ⟨fun n h => ?_, fun n h => ?_, fun _ => Or.inl rfl⟩
    · simp [digitsValue] at h
    · simp [digitsValue] at h
  | cons c cs =>
    have hne : ¬ (c :: cs = []) := by simp
    unfold ParseUint digitsValue
    simp only [hne, if_false]
    by_cases hall : (c :: cs).all Char.isDigit = true
    · simp only [hall, if_true]
      refine ⟨fun n h hle => ?_, fun n h hlt => ?_, fun h => ?_⟩
      · have e : (c :: cs).foldl (fun n c => 10 * n + (c.toNat - 48)) 0 = n :=
          Option.some.inj h
        rw [← e] at hle ⊢
        exact parseUintLoop_digits _ 0 hall hle
      · have e : (c :: cs).foldl (fun n c => 10 * n + (c.toNat - 48)) 0 = n :=
          Option.some.inj h
        rw [← e] at hlt
        exact parseUintLoop_overflow _ 0 hall hlt (by omega)
      · exact Option.noConfusion h
    · have hf : (c :: cs).all Char.isDigit = false := by
        simpa using hall
      simp only [hf]
      refine ⟨fun n h => ?_, fun n h => ?_, fun _ => parseUintLoop_not_digits _ 0 hf⟩
      · simp at h
      · simp at h

theorem and_high_byte (x : Nat) : (x &&& 0xff00) >>> 8 = (x >>> 8) &&& (2 ^ 8 - 1) := by
  apply Nat.eq_of_testBit_eq
  intro i
  have e : (0xff00 : Nat) = (2 ^ 8 - 1) <<< 8 := by decide
  rw [e]
  simp only [Nat.testBit_shiftRight, Nat.testBit_and, Nat.testBit_shiftLeft,
    Nat.testBit_two_pow_sub_one]
  have : 8 + i - 8 = i := by omega
  simp [this]

/-- The two port bytes of the request: the high byte, then the low byte. -/
theorem port_bytes (port : Nat) (h : port < 65536) :
    ((port % 65536 &&& 0xff00) >>> 8) % 256 = port / 256 ∧
    (port % 65536 &&& 0x00ff) % 256 = port % 256 := by
  rw [Nat.mod_eq_of_lt h]
  constructor
  · rw [and_high_byte, Nat.and_pow_two_sub_one_eq_mod, Nat.shiftRight_eq_div_pow]
    omega
  · have e2 : (0x00ff : Nat) = 2 ^ 8 - 1 := by decide
    rw [e2, Nat.and_pow_two_sub_one_eq_mod]
    omega

/-- A copying loop writes its bytes into the slice from the index on. -/
theorem copyBytes_eq (b : Str) :
    ∀ (req : Str) (idx : Nat), idx + b.length ≤ req.length →
      copyBytes b req idx = (req.take idx ++ b ++ req.drop (idx + b.length), idx + b.length) := by
  induction b with
  | nil =>
    intro req idx _
    simp [copyBytes]
  | cons c cs ih =>
    intro req idx hlen
    simp only [List.length_cons] at hlen
    have hstep : copyBytes (c :: cs) req idx = copyBytes cs (req.set idx c) (idx + 1) := rfl
    rw [hstep, ih (req.set idx c) (idx + 1) (by simp; omega)]
    have hidx : idx < req.length := by omega
    have hset : req.set idx c = req.take idx ++ c :: req.drop (idx + 1) := by
      rw [List.set_eq_take_append_cons_drop, if_pos hidx]
    have hl : (req.take idx).length = idx := by
      rw [List.length_take]; omega
    have e1 : (req.set idx c).take (idx + 1) = req.take idx ++ [c] := by
      rw [hset, List.take_append_eq_append_take, hl, List.take_of_length_le (by omega)]
      have : idx + 1 - idx = 1 := by omega
      rw [this]
      rfl
    have e2 : (req.set idx c).drop (idx + 1 + cs.length) = req.drop (idx + (cs.length + 1)) := by
      rw [List.drop_set_of_lt _ _ (by omega)]
      congr 1
      omega
    rw [e1, e2]
    simp [List.length_cons, Nat.add_assoc, Nat.add_comm 1]

/-- The bytes of the request after the two copying loops. -/
theorem request_layout (host : Str) (hi lo : Char) :
    (copyBytes host
      (copyBytes "srndv2".toList
        ((((((List.replicate (host.length + 1 + "srndv2".toList.length + 1 + 8)
          (Char.ofNat 0)).set 0 (Char.ofNat 4)).set 1 (Char.ofNat 1)).set 2 hi).set 3 lo).set 7
            (Char.ofNat 1)) 8).1
      ((copyBytes "srndv2".toList
        ((((((List.replicate (host.length + 1 + "srndv2".toList.length + 1 + 8)
          (Char.ofNat 0)).set 0 (Char.ofNat 4)).set 1 (Char.ofNat 1)).set 2 hi).set 3 lo).set 7
            (Char.ofNat 1)) 8).2 + 1)).1 =
      [Char.ofNat 4, Char.ofNat 1, hi, lo, Char.ofNat 0, Char.ofNat 0, Char.ofNat 0,
        Char.ofNat 1] ++ "srndv2".toList ++ [Char.ofNat 0] ++ host ++ [Char.ofNat 0] := by
  have hlen : host.length + 1 + "srndv2".toList.length + 1 + 8 =
      8 + (6 + (1 + (host.length + 1))) := by
    have : "srndv2".toList.length = 6 := rfl
    omega
  have hrep : List.replicate (host.length + 1 + "srndv2".toList.length + 1 + 8) (Char.ofNat 0) =
      [Char.ofNat 0, Char.ofNat 0, Char.ofNat 0, Char.ofNat 0, Char.ofNat 0, Char.ofNat 0,
        Char.ofNat 0, Char.ofNat 0] ++
      (List.replicate 6 (Char.ofNat 0) ++
        (Char.ofNat 0 :: (List.replicate host.length (Char.ofNat 0) ++ [Char.ofNat 0]))) := by
    rw [hlen, List.replicate_add, List.replicate_add, List.replicate_add, List.replicate_add]
    rfl
  rw [hrep]
  have hset : ((((([Char.ofNat 0, Char.ofNat 0, Char.ofNat 0, Char.ofNat 0, Char.ofNat 0,
        Char.ofNat 0, Char.ofNat 0, Char.ofNat 0] ++
      (List.replicate 6 (Char.ofNat 0) ++
        (Char.ofNat 0 :: (List.replicate host.length (Char.ofNat 0) ++ [Char.ofNat 0])))).set 0
          (Char.ofNat 4)).set 1 (Char.ofNat 1)).set 2 hi).set 3 lo).set 7 (Char.ofNat 1) =
      [Char.ofNat 4, Char.ofNat 1, hi, lo, Char.ofNat 0, Char.ofNat 0, Char.ofNat 0,
        Char.ofNat 1] ++
      (List.replicate 6 (Char.ofNat 0) ++
        (Char.ofNat 0 :: (List.replicate host.length (Char.ofNat 0) ++ [Char.ofNat 0]))) := rfl
  rw [hset]
  have h1 := copyBytes_eq "srndv2".toList
    ([Char.ofNat 4, Char.ofNat 1, hi, lo, Char.ofNat 0, Char.ofNat 0, Char.ofNat 0,
        Char.ofNat 1] ++
      (List.replicate 6 (Char.ofNat 0) ++
        (Char.ofNat 0 :: (List.replicate host.length (Char.ofNat 0) ++ [Char.ofNat 0])))) 8
    (by simp)
  have h1t : ([Char.ofNat 4, Char.ofNat 1, hi, lo, Char.ofNat 0, Char.ofNat 0, Char.ofNat 0,
        Char.ofNat 1] ++
      (List.replicate 6 (Char.ofNat 0) ++
        (Char.ofNat 0 :: (List.replicate host.length (Char.ofNat 0) ++ [Char.ofNat 0])))).take 8 =
      [Char.ofNat 4, Char.ofNat 1, hi, lo, Char.ofNat 0, Char.ofNat 0, Char.ofNat 0,
        Char.ofNat 1] := rfl
  have h1d : ([Char.ofNat 4, Char.ofNat 1, hi, lo, Char.ofNat 0, Char.ofNat 0, Char.ofNat 0,
        Char.ofNat 1] ++
      (List.replicate 6 (Char.ofNat 0) ++
        (Char.ofNat 0 :: (List.replicate host.length (Char.ofNat 0) ++ [Char.ofNat 0])))).drop
          (8 + "srndv2".toList.length) =
      Char.ofNat 0 :: (List.replicate host.length (Char.ofNat 0) ++ [Char.ofNat 0]) := rfl
  rw [h1t, h1d] at h1
  rw [h1]
  simp only
  have h2 := copyBytes_eq host
    ([Char.ofNat 4, Char.ofNat 1, hi, lo, Char.ofNat 0, Char.ofNat 0, Char.ofNat 0,
        Char.ofNat 1] ++ "srndv2".toList ++
      (Char.ofNat 0 :: (List.replicate host.length (Char.ofNat 0) ++ [Char.ofNat 0])))
    (8 + "srndv2".toList.length + 1) (by simp; omega)
  have h2t : ([Char.ofNat 4, Char.ofNat 1, hi, lo, Char.ofNat 0, Char.ofNat 0, Char.ofNat 0,
        Char.ofNat 1] ++ "srndv2".toList ++
      (Char.ofNat 0 :: (List.replicate host.length (Char.ofNat 0) ++ [Char.ofNat 0]))).take
        (8 + "srndv2".toList.length + 1) =
      [Char.ofNat 4, Char.ofNat 1, hi, lo, Char.ofNat 0, Char.ofNat 0, Char.ofNat 0,
        Char.ofNat 1] ++ "srndv2".toList ++ [Char.ofNat 0] := rfl
  have h2d : ([Char.ofNat 4, Char.ofNat 1, hi, lo, Char.ofNat 0, Char.ofNat 0, Char.ofNat 0,
        Char.ofNat 1] ++ "srndv2".toList ++
      (Char.ofNat 0 :: (List.replicate host.length (Char.ofNat 0) ++ [Char.ofNat 0]))).drop
        (8 + "srndv2".toList.length + 1 + host.length) = [Char.ofNat 0] := by
    have e : 8 + "srndv2".toList.length + 1 + host.length = host.length + 15 := by
      have : "srndv2".toList.length = 6 := rfl
      omega
    rw [e]
    show (List.replicate host.length (Char.ofNat 0) ++ [Char.ofNat 0]).drop host.length = _
    rw [List.drop_append_of_le_length (by simp)]
    simp
  rw [h2t, h2d] at h2
  rw [h2]

/-- The request built for an address split at its last colon, by what ParseUint makes of
the text after the colon. -/
theorem socks4aRequest_eq (host p : Str) (hp : ':' ∉ p) :
    socks4aRequest (host ++ ':' :: p) =
      if (ParseUint p).1 ≥ 25536 then Except.error "bad proxy port".toList
      else
        match (ParseUint p).2 with
        | some err => Except.error err
        | none => Except.ok (socks4aBytes host (ParseUint p).1) := by
  unfold socks4aRequest
  have hidx : LastIndex (host ++ ':' :: p) ':' = (host.length : Int) :=
    LastIndex_append ':' host p hp
  have hne : ¬ ((host.length : Int) = -1) := by omega
  have htake : (host ++ ':' :: p).take host.length = host := by
    rw [List.take_append_of_le_length (Nat.le_refl _), List.take_length]
  have hdrop : (host ++ ':' :: p).drop (host.length + 1) = p := by
    rw [List.drop_append_eq_append_drop]
    simp
  simp only [hidx, Int.toNat_ofNat, htake, hdrop]
  rw [if_neg hne]
  by_cases hport : (ParseUint p).1 ≥ 25536
  · rw [if_pos hport, if_pos hport]
  · rw [if_neg hport, if_neg hport]
    cases herr : (ParseUint p).2 with
    | some err => rfl
    | none =>
      simp only
      have hb := port_bytes (ParseUint p).1 (by omega)
      rw [hb.1, hb.2, request_layout]
      rfl

/-- An address without a colon is refused. -/
theorem socks4aRequest_no_colon (remote_addr : Str) (h : ':' ∉ remote_addr) :
    socks4aRequest remote_addr = Except.error ("invalid address: ".toList ++ remote_addr) := by
  unfold socks4aRequest
  simp only [LastIndex_of_not_mem ':' remote_addr h, if_true]

/-- The port check on the request: refused for a port of 25536 or more and for a port
that is no decimal number, passed for a decimal number below 25536. -/
theorem socks4a_port_check_aux (remote_addr host p : Str) (hr : remote_addr = host ++ ':' :: p)
    (hp : ':' ∉ p) :
    (∀ n, digitsValue p = some n → 25536 ≤ n →
      socks4aRequest remote_addr = Except.error "bad proxy port".toList) ∧
    (digitsValue p = none → ∃ err, socks4aRequest remote_addr = Except.error err) ∧
    (∀ n, digitsValue p = some n → n < 25536 →
      socks4aRequest remote_addr = Except.ok (socks4aBytes host n)) := by
  subst hr
  have hreq := socks4aRequest_eq host p hp
  have hpu := ParseUint_eq p
  refine ⟨fun n hn hge => ?_, fun hn => ?_, fun n hn hlt => ?_⟩
  · rw [hreq]
    by_cases hle : n ≤ 65535
    · rw [hpu.1 n hn hle]
      exact if_pos hge
    · rw [hpu.2.1 n hn (by omega)]
      exact if_pos (by decide)
  · rcases hpu.2.2 hn with h | h
    · refine ⟨"invalid syntax".toList, ?_⟩
      rw [hreq, h]
      rfl
    · refine ⟨"bad proxy port".toList, ?_⟩
      rw [hreq, h]
      rfl
  · rw [hreq, hpu.1 n hn (by omega)]
    have : ¬ (n ≥ 25536) := by omega
    simp only
    rw [if_neg this]

/-- Through a proxy that was reached, dialOut returns the error of the request, having
written nothing, or else goes on to the second net.Dial. -/
theorem dialOut_socks4a (net : ProxyNetwork) (proxy_addr remote_addr : Str)
    (h1 : net.firstDial = none) :
    (∀ err, socks4aRequest remote_addr = Except.error err →
      dialOut net "socks4a".toList proxy_addr remote_addr =
        DialResult.returned { conn := true, sent := none, closed := false, err := some err }) ∧
    (∀ req, socks4aRequest remote_addr = Except.ok req → net.secondDial = none →
      ∃ o, dialOut net "socks4a".toList proxy_addr remote_addr = DialResult.returned o ∧
        o.sent = some req) ∧
    (∀ o req, dialOut net "socks4a".toList proxy_addr remote_addr = DialResult.returned o →
      o.sent = some req → socks4aRequest remote_addr = Except.ok req) := by
  have e1 : ¬ ("socks4a".toList = [] ∨ "socks4a".toList = "none".toList) := by decide
  unfold dialOut
  rw [if_neg e1, if_pos rfl, h1]
  simp only
  refine ⟨fun err he => ?_, fun req he h2 => ?_, fun o req hd hs => ?_⟩
  · rw [he]
  · rw [he, h2]
    simp only
    split
    · exact ⟨_, rfl, rfl⟩
    · exact ⟨_, rfl, rfl⟩
  · cases hr : socks4aRequest remote_addr with
    | error err =>
      rw [hr] at hd
      simp only [DialResult.returned.injEq] at hd
      rw [← hd] at hs
      exact Option.noConfusion hs
    | ok r =>
      rw [hr] at hd
      simp only at hd
      cases h2 : net.secondDial with
      | some e =>
        rw [h2] at hd
        exact DialResult.noConfusion hd
      | none =>
        rw [h2] at hd
        simp only at hd
        split at hd
        · simp only [DialResult.returned.injEq] at hd
          rw [← hd] at hs
          simp only [Option.some.injEq] at hs
          rw [hs]
        · simp only [DialResult.returned.injEq] at hd
          rw [← hd] at hs
          simp only [Option.some.injEq] at hs
          rw [hs]

/-- Claim C24. Through a proxy that was reached, dialOut returns an error without having
written anything when the remote address has no colon, and, for an address split at its
last colon, when the text after the colon is a decimal number of 25536 or more or is no
decimal number at all; when it is a decimal number below 25536 the port check is passed
and the request is built. -/
theorem socks4a_port_check (net : ProxyNetwork) (proxy_addr remote_addr : Str)
    (h1 : net.firstDial = none) :
    (':' ∉ remote_addr →
      dialOut net "socks4a".toList proxy_addr remote_addr =
        DialResult.returned
          { conn := true, sent := none, closed := false
            err := some ("invalid address: ".toList ++ remote_addr) }) ∧
    (∀ host p, remote_addr = host ++ ':' :: p → ':' ∉ p →
      (∀ n, digitsValue p = some n → 25536 ≤ n →
        dialOut net "socks4a".toList proxy_addr remote_addr =
          DialResult.returned
            { conn := true, sent := none, closed := false
              err := some "bad proxy port".toList }) ∧
      (digitsValue p = none →
        ∃ err, dialOut net "socks4a".toList proxy_addr remote_addr =
          DialResult.returned
            { conn := true, sent := none, closed := false, err := some err }) ∧
      (∀ n, digitsValue p = some n → n < 25536 →
        socks4aRequest remote_addr = Except.ok (socks4aBytes host n))) := by
  have hd := dialOut_socks4a net proxy_addr remote_addr h1
  refine ⟨fun hc => hd.1 _ (socks4aRequest_no_colon remote_addr hc), ?_⟩
  intro host p hr hp
  have haux := socks4a_port_check_aux remote_addr host p hr hp
  refine ⟨fun n hn hge => hd.1 _ (haux.1 n hn hge), fun hn => ?_, haux.2.2⟩
  obtain ⟨err, he⟩ := haux.2.1 hn
  exact ⟨err, hd.1 _ he⟩

/-- Witness for claim C24: an address without a colon, one with the port 25536 and one
with the port 119. -/
theorem socks4a_port_check_witness :
    exampleProxyNetwork.firstDial = none ∧
    dialOut exampleProxyNetwork "socks4a".toList "127.0.0.1:9050".toList
        "example.onion:25536".toList =
      DialResult.returned
        { conn := true, sent := none, closed := false, err := some "bad proxy port".toList } :=
  ⟨rfl,
   ((socks4a_port_check exampleProxyNetwork "127.0.0.1:9050".toList
      "example.onion:25536".toList rfl).2 "example.onion".toList "25536".toList
      (by decide) (by decide)).1 25536 (by decide) (by decide)⟩

/-- Claim C23. Through a proxy that both calls of net.Dial reach, dialOut writes, for an
address split at its last colon whose port is a decimal number below 25536, the bytes
4, 1, the port with its high byte first, 0, 0, 0, 1, `srndv2`, 0, the host, 0 and
nothing else; every request it writes at all is of this form; the length of the request
is that of the host plus 16. -/
theorem socks4a_request_bytes (net : ProxyNetwork) (proxy_addr remote_addr : Str)
    (h1 : net.firstDial = none) (h2 : net.secondDial = none) :
    (∀ host p n, remote_addr = host ++ ':' :: p → ':' ∉ p → digitsValue p = some n →
      n < 25536 →
      ∃ o, dialOut net "socks4a".toList proxy_addr remote_addr = DialResult.returned o ∧
        o.sent = some (socks4aBytes host n)) ∧
    (∀ o req, dialOut net "socks4a".toList proxy_addr remote_addr = DialResult.returned o →
      o.sent = some req →
      ∃ host p n, remote_addr = host ++ ':' :: p ∧ ':' ∉ p ∧ digitsValue p = some n ∧
        n < 25536 ∧ req = socks4aBytes host n) ∧
    (∀ host n, (socks4aBytes host n).length = host.length + 16) := by
  have hd := dialOut_socks4a net proxy_addr remote_addr h1
  refine ⟨fun host p n hr hp hn hlt => ?_, fun o req ho hs => ?_, fun host n => ?_⟩
  · have := ((socks4a_port_check_aux remote_addr host p hr hp).2.2) n hn hlt
    exact hd.2.1 _ this h2
  · have hreq := hd.2.2 o req ho hs
    by_cases hc : ':' ∈ remote_addr
    · obtain ⟨host, p, hr, hp⟩ := exists_last_occurrence ':' remote_addr hc
      have haux := socks4a_port_check_aux remote_addr host p hr hp
      cases hv : digitsValue p with
      | none =>
        obtain ⟨err, he⟩ := haux.2.1 hv
        rw [he] at hreq
        exact Except.noConfusion hreq
      | some n =>
        by_cases hlt : n < 25536
        · have := haux.2.2 n hv hlt
          rw [this] at hreq
          exact ⟨host, p, n, hr, hp, hv, hlt, (Except.ok.inj hreq).symm⟩
        · have := haux.1 n hv (by omega)
          rw [this] at hreq
          exact Except.noConfusion hreq
    · rw [socks4aRequest_no_colon remote_addr hc] at hreq
      exact Except.noConfusion hreq
  · simp [socks4aBytes]

/-- Witness for claim C23: the request for `example.onion:119`. -/
theorem socks4a_request_bytes_witness :
    exampleProxyNetwork.firstDial = none ∧ exampleProxyNetwork.secondDial = none ∧
    ∃ o, dialOut exampleProxyNetwork "socks4a".toList "127.0.0.1:9050".toList
        "example.onion:119".toList = DialResult.returned o ∧
      o.sent = some (socks4aBytes "example.onion".toList 119) :=
  ⟨rfl, rfl,
   (socks4a_request_bytes exampleProxyNetwork "127.0.0.1:9050".toList
      "example.onion:119".toList rfl rfl).1 "example.onion".toList "119".toList 119
      (by decide) (by decide) (by decide) (by decide)⟩

/-- The request for `a.b:8080` byte by byte: the port 8080 is 31 * 256 + 144. -/
theorem socks4a_example :
    dialOut exampleProxyNetwork "socks4a".toList "127.0.0.1:9050".toList "a.b:8080".toList =
      DialResult.returned
        { conn := true, closed := false, err := none
          sent := some
            [Char.ofNat 4, Char.ofNat 1, Char.ofNat 31, Char.ofNat 144, Char.ofNat 0,
             Char.ofNat 0, Char.ofNat 0, Char.ofNat 1, 's', 'r', 'n', 'd', 'v', '2',
             Char.ofNat 0, 'a', '.', 'b', Char.ofNat 0] } := by
  decide

/-! ## CHECK with a blank in its argument -/

/-- In stream mode a CHECK whose argument contains a blank is split into more than two
fields and falls through the handler: the session is left as it is and no reply is
sent, whatever the validator says about the argument. -/
theorem handleLine_check_blank (lib : Lib) (d : NNTPDaemon) (s : Session) (id : Str)
    (fuel : Nat) (hmode : s.mode = "stream".toList) (hsp : ' ' ∈ id) :
    handleLine lib d fuel ("CHECK ".toList ++ id) s = Outcome.running s := by
  obtain ⟨l, r, hid, hl⟩ := exists_first_occurrence ' ' id hsp
  have hc : ' ' ∉ "CHECK".toList := by decide
  have hsplit : Split ' ' ("CHECK ".toList ++ id) =
      "CHECK".toList :: l :: Split ' ' r := by
    have e : "CHECK ".toList ++ id = "CHECK".toList ++ ' ' :: id := rfl
    rw [e, Split_append_sep id hc, hid, Split_append_sep r hl]
  obtain ⟨w, ws, hw⟩ : ∃ w ws, Split ' ' r = w :: ws := by
    cases hs : Split ' ' r with
    | nil => exact absurd hs (Split_ne_nil _ _)
    | cons w ws => exact ⟨w, ws, rfl⟩
  rw [hw] at hsplit
  have h1 : (("CHECK".toList :: l :: w :: ws).headD [] = "CAPABILITIES".toList) = False := by
    simp
  have h2 : (("CHECK".toList :: l :: w :: ws).headD [] = "MODE".toList) = False := by simp
  have h3 : handleTAKETHIS lib d fuel ("CHECK".toList :: l :: w :: ws) s =
      Outcome.running s := by
    simp [handleTAKETHIS]
  have h4 : handleCHECK lib d ("CHECK".toList :: l :: w :: ws) s = s := by
    simp [handleCHECK]
  unfold handleLine
  simp only [hsplit]
  simp only [h1, h2, if_false, hmode, if_true, h3, h4]

/-- Claim C3, evaluated at a failing input: `<a b@x>` is an invalid message ID (it
contains a blank); in stream mode `CHECK <a b@x>` draws no reply at all, the session
being left as it is, whereas the invalid ID `bad` is answered 501 and a MODE with two
arguments is answered 500. -/
theorem check_with_blank_in_id_gets_no_reply :
    ValidMessageID "<a b@x>".toList = false ∧
    handleLine exampleLib exampleDaemon 1 ("CHECK ".toList ++ "<a b@x>".toList)
        (exampleSession [] []) = Outcome.running (exampleSession [] []) ∧
    (exampleSession [] []).output = [] ∧
    handleLine exampleLib exampleDaemon 1 ("CHECK ".toList ++ "bad".toList)
        (exampleSession [] []) =
      Outcome.running
        { exampleSession [] [] with output := ["501 bad message id".toList] } ∧
    handleLine exampleLib exampleDaemon 1 "MODE a b".toList (exampleSession [] []) =
      Outcome.running
        { exampleSession [] [] with output := ["500 syntax error".toList] } := by
  decide

end Srnd
